import Mathlib

/-!
# AwoX BLE mesh hub: `components/awox_mesh/mesh_device.cpp`

A shallow embedding of the mesh device of the hub: the AES based packet codec, the pairing
handshake, the packet builder with its counter, and the command pacer of `MeshDevice::loop`.

A `std::string` is a list of bytes (natural numbers below 256).  A function of the source
whose execution can leave the defined behaviour of C++ (an index past the end of a string, a
length that underflows, an AES key that cannot be installed, an `int` that overflows) returns
an `Option`, and `none` stands for such an execution.  The `float` arithmetic of the range
conversion is that of IEEE 754 binary32: a `float` is the rational number it stands for, and
every operation rounds its exact result to the nearest `float`.
-/

namespace AES128

/-- The substitution table of AES (FIPS-197, figure 7). -/
def sbox : List Nat :=
  [0x63, 0x7c, 0x77, 0x7b, 0xf2, 0x6b, 0x6f, 0xc5, 0x30, 0x01, 0x67, 0x2b, 0xfe, 0xd7, 0xab, 0x76,
   0xca, 0x82, 0xc9, 0x7d, 0xfa, 0x59, 0x47, 0xf0, 0xad, 0xd4, 0xa2, 0xaf, 0x9c, 0xa4, 0x72, 0xc0,
   0xb7, 0xfd, 0x93, 0x26, 0x36, 0x3f, 0xf7, 0xcc, 0x34, 0xa5, 0xe5, 0xf1, 0x71, 0xd8, 0x31, 0x15,
   0x04, 0xc7, 0x23, 0xc3, 0x18, 0x96, 0x05, 0x9a, 0x07, 0x12, 0x80, 0xe2, 0xeb, 0x27, 0xb2, 0x75,
   0x09, 0x83, 0x2c, 0x1a, 0x1b, 0x6e, 0x5a, 0xa0, 0x52, 0x3b, 0xd6, 0xb3, 0x29, 0xe3, 0x2f, 0x84,
   0x53, 0xd1, 0x00, 0xed, 0x20, 0xfc, 0xb1, 0x5b, 0x6a, 0xcb, 0xbe, 0x39, 0x4a, 0x4c, 0x58, 0xcf,
   0xd0, 0xef, 0xaa, 0xfb, 0x43, 0x4d, 0x33, 0x85, 0x45, 0xf9, 0x02, 0x7f, 0x50, 0x3c, 0x9f, 0xa8,
   0x51, 0xa3, 0x40, 0x8f, 0x92, 0x9d, 0x38, 0xf5, 0xbc, 0xb6, 0xda, 0x21, 0x10, 0xff, 0xf3, 0xd2,
   0xcd, 0x0c, 0x13, 0xec, 0x5f, 0x97, 0x44, 0x17, 0xc4, 0xa7, 0x7e, 0x3d, 0x64, 0x5d, 0x19, 0x73,
   0x60, 0x81, 0x4f, 0xdc, 0x22, 0x2a, 0x90, 0x88, 0x46, 0xee, 0xb8, 0x14, 0xde, 0x5e, 0x0b, 0xdb,
   0xe0, 0x32, 0x3a, 0x0a, 0x49, 0x06, 0x24, 0x5c, 0xc2, 0xd3, 0xac, 0x62, 0x91, 0x95, 0xe4, 0x79,
   0xe7, 0xc8, 0x37, 0x6d, 0x8d, 0xd5, 0x4e, 0xa9, 0x6c, 0x56, 0xf4, 0xea, 0x65, 0x7a, 0xae, 0x08,
   0xba, 0x78, 0x25, 0x2e, 0x1c, 0xa6, 0xb4, 0xc6, 0xe8, 0xdd, 0x74, 0x1f, 0x4b, 0xbd, 0x8b, 0x8a,
   0x70, 0x3e, 0xb5, 0x66, 0x48, 0x03, 0xf6, 0x0e, 0x61, 0x35, 0x57, 0xb9, 0x86, 0xc1, 0x1d, 0x9e,
   0xe1, 0xf8, 0x98, 0x11, 0x69, 0xd9, 0x8e, 0x94, 0x9b, 0x1e, 0x87, 0xe9, 0xce, 0x55, 0x28, 0xdf,
   0x8c, 0xa1, 0x89, 0x0d, 0xbf, 0xe6, 0x42, 0x68, 0x41, 0x99, 0x2d, 0x0f, 0xb0, 0x54, 0xbb, 0x16]

/-- SubBytes on one byte. -/
def subByte (b : Nat) : Nat := sbox.getD b 0

/-- Multiplication by x in GF(2^8), modulo x^8 + x^4 + x^3 + x + 1. -/
def xtime (b : Nat) : Nat := ((2 * b) % 256) ^^^ (if 128 ≤ b then 0x1b else 0)

/-- SubBytes on the state; byte `r + 4 * c` of the list is row `r`, column `c`. -/
def subBytes (s : List Nat) : List Nat := s.map subByte

/-- ShiftRows: row `r` is rotated left by `r` columns. -/
def shiftRows (s : List Nat) : List Nat :=
  [s.getD 0 0, s.getD 5 0, s.getD 10 0, s.getD 15 0,
   s.getD 4 0, s.getD 9 0, s.getD 14 0, s.getD 3 0,
   s.getD 8 0, s.getD 13 0, s.getD 2 0, s.getD 7 0,
   s.getD 12 0, s.getD 1 0, s.getD 6 0, s.getD 11 0]

/-- MixColumns on one column: multiplication by the matrix with rows 2 3 1 1, 1 2 3 1,
1 1 2 3, 3 1 1 2. -/
def mixColumn (a0 a1 a2 a3 : Nat) : List Nat :=
  [xtime a0 ^^^ (xtime a1 ^^^ a1) ^^^ a2 ^^^ a3,
   a0 ^^^ xtime a1 ^^^ (xtime a2 ^^^ a2) ^^^ a3,
   a0 ^^^ a1 ^^^ xtime a2 ^^^ (xtime a3 ^^^ a3),
   (xtime a0 ^^^ a0) ^^^ a1 ^^^ a2 ^^^ xtime a3]

/-- MixColumns on the four columns of the state. -/
def mixColumns (s : List Nat) : List Nat :=
  mixColumn (s.getD 0 0) (s.getD 1 0) (s.getD 2 0) (s.getD 3 0) ++
  mixColumn (s.getD 4 0) (s.getD 5 0) (s.getD 6 0) (s.getD 7 0) ++
  mixColumn (s.getD 8 0) (s.getD 9 0) (s.getD 10 0) (s.getD 11 0) ++
  mixColumn (s.getD 12 0) (s.getD 13 0) (s.getD 14 0) (s.getD 15 0)

/-- AddRoundKey. -/
def addRoundKey (s k : List Nat) : List Nat := List.zipWith (fun a b => a ^^^ b) s k

/-- One step of the key schedule: the round key that follows `k`, with round constant `rc`. -/
def nextRoundKey (rc : Nat) (k : List Nat) : List Nat :=
  let a0 := k.getD 0 0 ^^^ subByte (k.getD 13 0) ^^^ rc
  let a1 := k.getD 1 0 ^^^ subByte (k.getD 14 0)
  let a2 := k.getD 2 0 ^^^ subByte (k.getD 15 0)
  let a3 := k.getD 3 0 ^^^ subByte (k.getD 12 0)
  let b0 := k.getD 4 0 ^^^ a0
  let b1 := k.getD 5 0 ^^^ a1
  let b2 := k.getD 6 0 ^^^ a2
  let b3 := k.getD 7 0 ^^^ a3
  let c0 := k.getD 8 0 ^^^ b0
  let c1 := k.getD 9 0 ^^^ b1
  let c2 := k.getD 10 0 ^^^ b2
  let c3 := k.getD 11 0 ^^^ b3
  [a0, a1, a2, a3, b0, b1, b2, b3, c0, c1, c2, c3,
   k.getD 12 0 ^^^ c0, k.getD 13 0 ^^^ c1, k.getD 14 0 ^^^ c2, k.getD 15 0 ^^^ c3]

/-- The ten round constants of AES-128. -/
def rcon : List Nat := [0x01, 0x02, 0x04, 0x08, 0x10, 0x20, 0x40, 0x80, 0x1b, 0x36]

/-- The rounds of the cipher, one per round constant; the last one has no MixColumns. -/
def rounds : List Nat → List Nat → List Nat → List Nat
  | [], _, s => s
  | [rc], k, s => addRoundKey (shiftRows (subBytes s)) (nextRoundKey rc k)
  | rc :: rc2 :: rcs, k, s =>
      rounds (rc2 :: rcs) (nextRoundKey rc k)
        (addRoundKey (mixColumns (shiftRows (subBytes s))) (nextRoundKey rc k))

/-- The block encryption of the external library class `AES128`: `setKey` with a 16 byte key
followed by `encryptBlock` on a 16 byte block (FIPS-197, AES-128). -/
def encryptBlock (key block : List Nat) : List Nat :=
  rounds rcon key (addRoundKey block key)

end AES128

namespace awox_mesh

/-- Read `s[i]` on a `std::string`: a byte of the string for `i < s.size()`, the terminator
`0` for `i = s.size()`, and not defined beyond. -/
def str_get (s : List Nat) (i : Nat) : Option Nat :=
  if i < s.length then some (s.getD i 0) else if i = s.length then some 0 else none

/-- Write `s[i] = v` on a `std::string`: the byte is stored for `i < s.size()`; for
`i = s.size()` the reference is to the terminator, where storing `0` is defined and changes
nothing; every other write is not defined. -/
def str_set (s : List Nat) (i v : Nat) : Option (List Nat) :=
  if i < s.length then some (s.set i v) else if i = s.length ∧ v = 0 then some s else none

/-- The loop `for (...; i++) dst[i + doff] ^= src[i + soff]`, from index `i`, `cnt` times. -/
def xor_into (dst : List Nat) (doff : Nat) (src : List Nat) (soff : Nat) :
    Nat → Nat → Option (List Nat)
  | _, 0 => some dst
  | i, cnt + 1 =>
    match str_get dst (i + doff), str_get src (i + soff) with
    | some d, some v =>
      match str_set dst (i + doff) (d ^^^ v) with
      | some dst1 => xor_into dst1 doff src soff (i + 1) cnt
      | none => none
    | _, _ => none

/-- The loop `for (...; i++) dst[i + doff] = src[i]`, from index `i`, `cnt` times. -/
def copy_into (dst : List Nat) (doff : Nat) (src : List Nat) : Nat → Nat → Option (List Nat)
  | _, 0 => some dst
  | i, cnt + 1 =>
    match str_get src i with
    | some v =>
      match str_set dst (i + doff) v with
      | some dst1 => copy_into dst1 doff src (i + 1) cnt
      | none => none
    | none => none

/-- The call `s.append(16 - s.size(), 0)`: the count is unsigned, so for a string of more than
16 bytes it wraps around and the call throws `std::length_error`. -/
def append_zeros (s : List Nat) : Option (List Nat) :=
  if s.length ≤ 16 then some (s ++ List.replicate (16 - s.length) 0) else none

/-- The static function `encrypt(key, data)`: key and data are reversed, the first 16 bytes
at `data.c_str()` (the reversed data followed by its terminator) are encrypted with AES-128,
and the 16 byte result is reversed.  A key of another length than 16 is refused by `setKey`
(the source logs "Failed to set key" and encrypts under an unset key schedule), and a data
string of less than 15 bytes is read past its terminator. -/
def encrypt (key data : List Nat) : Option (List Nat) :=
  if key.length = 16 ∧ 15 ≤ data.length then
    some (AES128.encryptBlock key.reverse ((data.reverse ++ [0]).take 16)).reverse
  else none

/-- A `Device` of the device store. -/
structure Device where
  mesh_id : Nat
  online : Bool
  state : Bool
  color_mode : Bool
  transition_mode : Bool
  white_brightness : Nat
  temperature : Nat
  color_brightness : Nat
  R : Nat
  G : Nat
  B : Nat
  last_online : Nat
deriving DecidableEq

/-- A `QueuedCommand`. -/
structure QueuedCommand where
  data : List Nat
  command : Nat
  dest : Nat
deriving DecidableEq

/-- A `PublishOnlineStatus`; the `Device *` is the position of the device in `devices_`. -/
structure PublishOnlineStatus where
  device : Nat
  online : Bool
  time : Nat
deriving DecidableEq

/-- A message handed to the MQTT client. -/
inductive Published where
  | discovery (mesh_id : Nat)
  | state (device : Device)
  | availability (mesh_id : Nat) (online : Bool)
deriving DecidableEq

/-- The GATT characteristics the device writes to. -/
inductive Characteristic where
  | pair_char
  | command_char
  | notification_char
deriving DecidableEq

/-- The members of `MeshDevice` the modelled functions use, and the traces of its calls to the
BLE transport and to the MQTT client: `written` holds the `write_value` calls, `sent` the
arguments of the `write_command` calls, `published` the MQTT messages, `disconnects` the
number of `disconnect()` calls, and `address` the address last given to `set_address`. -/
structure MeshDevice where
  mesh_name : List Nat
  mesh_password : List Nat
  random_key : List Nat
  session_key : List Nat
  reverse_address : List Nat
  packet_count : Nat
  connected : Bool
  command_queue : List QueuedCommand
  last_send_command : Nat
  delayed_availability_publish : List PublishOnlineStatus
  devices_ : List Device
  address : Nat
  written : List (Characteristic × List Nat)
  sent : List QueuedCommand
  published : List Published
  disconnects : Nat
deriving DecidableEq

namespace MeshDevice

/-- `MeshDevice::combine_name_and_password`. -/
def combine_name_and_password (self : MeshDevice) : Option (List Nat) :=
  match append_zeros self.mesh_name, append_zeros self.mesh_password with
  | some mesh_name, some mesh_password =>
    some ((List.range 16).map (fun i => mesh_name.getD i 0 ^^^ mesh_password.getD i 0))
  | _, _ => none

/-- `MeshDevice::generate_session_key`. -/
def generate_session_key (self : MeshDevice) (data1 data2 : List Nat) : Option MeshDevice :=
  match self.combine_name_and_password with
  | some key =>
    match encrypt key (data1.take 8 ++ data2.take 8) with
    | some k => some { self with session_key := k }
    | none => none
  | none => none

/-- `MeshDevice::key_encrypt`. -/
def key_encrypt (self : MeshDevice) (key : List Nat) : Option (List Nat) :=
  match self.combine_name_and_password, append_zeros key with
  | some data, some e_key => encrypt e_key data
  | _, _ => none

/-- `MeshDevice::encrypt_packet`. -/
def encrypt_packet (self : MeshDevice) (packet : List Nat) : Option (List Nat) :=
  let auth_nonce :=
    self.reverse_address.take 4 ++ [1] ++ packet.take 3 ++ [0x0f] ++ List.replicate 7 0
  match encrypt self.session_key auth_nonce with
  | none => none
  | some authenticator0 =>
    match xor_into authenticator0 0 packet 5 0 15 with
    | none => none
    | some authenticator =>
      match encrypt self.session_key authenticator with
      | none => none
      | some mac =>
        match copy_into packet 3 mac 0 2 with
        | none => none
        | some packet1 =>
          let iv := [0] ++ self.reverse_address.take 4 ++ [1] ++ packet1.take 3 ++
            List.replicate 7 0
          match encrypt self.session_key iv with
          | none => none
          | some buffer => xor_into packet1 5 buffer 0 0 15

/-- `MeshDevice::decrypt_packet`; the bound `packet.size() - 7` of the loop is unsigned
(32 bits). -/
def decrypt_packet (self : MeshDevice) (packet : List Nat) : Option (List Nat) :=
  let iv := [0] ++ self.reverse_address.take 3 ++ packet.take 5 ++ List.replicate 7 0
  match encrypt self.session_key iv with
  | none => none
  | some result => xor_into packet 7 result 0 0 ((packet.length + 4294967296 - 7) % 4294967296)

/-- `MeshDevice::build_packet`: the packet, and the device with its new `packet_count`. -/
def build_packet (self : MeshDevice) (dest command : Nat) (data : List Nat) :
    Option (List Nat × MeshDevice) :=
  let packet := List.replicate 20 0
  let packet := packet.set 0 (self.packet_count % 256)
  let packet := packet.set 1 ((self.packet_count / 256) % 256)
  let packet_count := self.packet_count + 1
  let packet := packet.set 5 (dest % 256)
  let packet := packet.set 6 ((dest / 256) % 256)
  let packet := packet.set 7 (command % 256)
  let packet := packet.set 8 0x60
  let packet := packet.set 9 0x01
  match copy_into packet 10 data 0 data.length with
  | none => none
  | some packet1 =>
    match self.encrypt_packet packet1 with
    | none => none
    | some enc_packet =>
      some (enc_packet,
        { self with packet_count := if packet_count > 0xffff then 1 else packet_count })

/-- `MeshDevice::queue_command`. -/
def queue_command (self : MeshDevice) (command : Nat) (data : List Nat) (dest : Nat) :
    MeshDevice :=
  { self with command_queue := self.command_queue ++ [QueuedCommand.mk data command dest] }

/-- `MeshDevice::write_command`: the packet is built and written to the command
characteristic. -/
def write_command (self : MeshDevice) (command : Nat) (data : List Nat) (dest : Nat) :
    Option MeshDevice :=
  let self1 : MeshDevice := { self with sent := self.sent ++
      [QueuedCommand.mk data command dest] }
  match self1.build_packet dest command data with
  | none => none
  | some (packet, self2) =>
    some { self2 with written := self2.written ++ [(Characteristic.command_char, packet)] }

/-- `MeshDevice::request_status`; the opcode `C_REQUEST_STATUS` is declared in the header. -/
def request_status (C_REQUEST_STATUS : Nat) (self : MeshDevice) : Option MeshDevice :=
  if self.connected then self.write_command C_REQUEST_STATUS [0x10] 0xffff else some self

/-- `MeshDevice::publish_availability`; `device` is the position of the device in
`devices_`, and `now` the value of `millis()`. -/
def publish_availability (self : MeshDevice) (device : Nat) (delayed : Bool) (now : Nat) :
    Option MeshDevice :=
  match self.devices_.get? device with
  | none => none
  | some d =>
    if delayed then
      some { self with delayed_availability_publish := self.delayed_availability_publish ++
        [PublishOnlineStatus.mk device d.online now] }
    else
      some { self with published := self.published ++
        [Published.availability d.mesh_id d.online] }

/-- The `while` loop of `MeshDevice::loop` over `delayed_availability_publish`; `millis()`
is unsigned (32 bits), so `millis() - 3000` wraps around below 3000. -/
def loop_availability (now : Nat) : List PublishOnlineStatus → MeshDevice → Option MeshDevice
  | [], self => some { self with delayed_availability_publish := [] }
  | publish :: rest, self =>
    if publish.time > (now + 4294967296 - 3000) % 4294967296 then
      some { self with delayed_availability_publish := publish :: rest }
    else
      match self.devices_.get? publish.device with
      | none => none
      | some d =>
        if publish.online = d.online then
          match publish_availability { self with delayed_availability_publish := rest }
              publish.device false now with
          | none => none
          | some self1 => loop_availability now rest self1
        else loop_availability now rest { self with delayed_availability_publish := rest }

/-- The command pacer of `MeshDevice::loop` (its first `if`); `millis()` is unsigned
(32 bits), so `millis() - 120` wraps around below 120. -/
def loop_commands (self : MeshDevice) (now : Nat) : Option MeshDevice :=
  match self.command_queue with
  | [] => some self
  | item :: rest =>
    if self.connected ∧ self.last_send_command < (now + 4294967296 - 120) % 4294967296 then
      write_command { self with last_send_command := now, command_queue := rest }
        item.command item.data item.dest
    else some self

/-- `MeshDevice::loop`, one tick at `millis() = now`, a 32 bit value; the loop of the base
class is not part of the model. -/
def loop (self : MeshDevice) (now : Nat) : Option MeshDevice :=
  match self.loop_commands now with
  | none => none
  | some self1 => loop_availability now self1.delayed_availability_publish self1

/-- The start of `MeshDevice::setup_connection`: `rnd` holds the 8 bytes that
`esp_fill_random` stores in `key`.  The string constructor reads `key` as a C string, up to
its first zero byte (without one it reads on past the array, and `substr(0, 8)` cuts the
string back to the 8 bytes of `key`). -/
def setup_connection (self : MeshDevice) (rnd : List Nat) : Option MeshDevice :=
  let random_key := (rnd.takeWhile (fun b => b ≠ 0)).take 8
  let self1 : MeshDevice := { self with random_key := random_key }
  match self1.key_encrypt random_key with
  | none => none
  | some enc_data =>
    let packet := [0x0c] ++ random_key ++ enc_data.take 8
    some { self1 with written := self1.written ++
      [(Characteristic.pair_char, packet), (Characteristic.notification_char, [1, 0])] }

/-- The parameters of an `ESP_GATTC_READ_CHAR_EVT`. -/
structure ReadCharEvt where
  conn_id_matches : Bool
  status_ok : Bool
  handle_is_pair_char : Bool
  value : List Nat

/-- The case `ESP_GATTC_READ_CHAR_EVT` of `MeshDevice::gattc_event_handler`. -/
def gattc_event_handler_read_char (C_REQUEST_STATUS : Nat) (self : MeshDevice)
    (param : ReadCharEvt) : Option MeshDevice :=
  if !param.conn_id_matches then some self
  else if !param.status_ok then some self
  else if param.handle_is_pair_char then
    match param.value with
    | [] => none
    | v0 :: _ =>
      if v0 = 0xd then
        match self.generate_session_key self.random_key ((param.value.drop 1).take 9) with
        | none => none
        | some self1 => request_status C_REQUEST_STATUS self1
      else
        some { self with disconnects := self.disconnects + 1, address := 0 }
  else some self

end MeshDevice

/-- The padding of the specification: a string right-padded with zero bytes to 16 bytes. -/
def pad16 (s : List Nat) : List Nat := s ++ List.replicate (16 - s.length) 0

/-- The byte-wise XOR of two strings. -/
def xor_bytes (a b : List Nat) : List Nat := List.zipWith (fun x y => x ^^^ y) a b

/-- A device for the concrete evaluations: mesh name "A", mesh password "B", a session key
and a reversed peer address, connected, with no queued command and no known device. -/
def example_device : MeshDevice :=
  { mesh_name := [0x41], mesh_password := [0x42], random_key := [1, 2, 3, 4, 5, 6, 7, 8],
    session_key := [0, 1, 2, 3, 4, 5, 6, 7, 8, 9, 10, 11, 12, 13, 14, 15],
    reverse_address := [0x66, 0x55, 0x44, 0x33, 0x22, 0x11], packet_count := 1,
    connected := true, command_queue := [], last_send_command := 0,
    delayed_availability_publish := [], devices_ := [], address := 0x112233445566,
    written := [], sent := [], published := [], disconnects := 0 }

/-- The plaintext packet of the specification: counter (little-endian), three zero bytes,
destination (little-endian), command, the vendor bytes 0x60 0x01, and the payload right-padded
with zero bytes to 10 bytes. -/
def plaintext_packet (counter dest command : Nat) (data : List Nat) : List Nat :=
  [counter % 256, counter / 256, 0, 0, 0, dest % 256, dest / 256, command, 0x60, 0x01] ++
    data ++ List.replicate (10 - data.length) 0

/-- The counter a packet carries in its bytes 0 and 1, little-endian. -/
def packet_counter (packet : List Nat) : Nat := packet.getD 0 0 + 256 * packet.getD 1 0

/-- Successive calls of `build_packet`, one per entry of `calls`: the packets they return, in
order, and the device after the last call. -/
def build_packets : MeshDevice → List QueuedCommand → Option (List (List Nat) × MeshDevice)
  | self, [] => some ([], self)
  | self, call :: calls =>
    match self.build_packet call.dest call.command call.data with
    | none => none
    | some (packet, self1) =>
      match build_packets self1 calls with
      | none => none
      | some (packets, self2) => some (packet :: packets, self2)

/-- What happens to the device between two states: a call of `queue_command`, a tick (a call
of `loop` at `millis() = now`), or a change of the connection state by the transport. -/
inductive Event where
  | queue_command (command : Nat) (data : List Nat) (dest : Nat)
  | tick (now : Nat)
  | connection (connected : Bool)
deriving DecidableEq

/-- The device after a sequence of events. -/
def run : MeshDevice → List Event → Option MeshDevice
  | self, [] => some self
  | self, Event.queue_command command data dest :: events =>
    run (self.queue_command command data dest) events
  | self, Event.tick now :: events =>
    match self.loop now with
    | none => none
    | some self1 => run self1 events
  | self, Event.connection connected :: events =>
    run { self with connected := connected } events

/-- The commands of the `queue_command` calls of a sequence of events, in order. -/
def enqueued : List Event → List QueuedCommand
  | [] => []
  | Event.queue_command command data dest :: events =>
    QueuedCommand.mk data command dest :: enqueued events
  | Event.tick _ :: events => enqueued events
  | Event.connection _ :: events => enqueued events

end awox_mesh

namespace awox_mesh

/-- What the modelled report handling takes from outside `mesh_device.cpp`: the two report
opcodes and the member initialisers of `Device` (the value of `new Device`), which the header
`mesh_device.h` declares, and whether plain `char` is a signed type, which the C++
implementation defines (it is unsigned on the ESP32 targets). -/
structure Env where
  COMMAND_ONLINE_STATUS_REPORT : Nat
  COMMAND_STATUS_REPORT : Nat
  new_Device : Device
  char_signed : Bool

/-- The comparison `c > 0` on a plain `char` that holds the byte `b`: a signed `char` holds
`b - 256` for `b ≥ 128`. -/
def char_gt_zero (char_signed : Bool) (b : Nat) : Bool :=
  if char_signed then decide (0 < b ∧ b < 128) else decide (0 < b)

/-- The search `std::find_if` of `get_device`: the position of the first device with the
given `mesh_id`. -/
def find_if (mesh_id : Nat) : List Device → Option Nat
  | [] => none
  | d :: ds => if d.mesh_id = mesh_id then some 0 else (find_if mesh_id ds).map (fun i => i + 1)

namespace MeshDevice

/-- `MeshDevice::get_device`: the position of the device in `devices_`; a device that is not
found is created, appended, and announced by `send_discovery`. -/
def get_device (env : Env) (self : MeshDevice) (mesh_id : Nat) : Nat × MeshDevice :=
  match find_if mesh_id self.devices_ with
  | some i => (i, self)
  | none =>
    (self.devices_.length,
      { self with
        devices_ := self.devices_ ++ [{ env.new_Device with mesh_id := mesh_id }],
        published := self.published ++ [Published.discovery mesh_id] })

/-- The assignments `device->online = online; ... device->last_online = esphome::millis();`
of `MeshDevice::handle_packet`, with the flags taken from the mode byte as there. -/
def assign_report (d : Device) (online : Bool) (mode : Nat)
    (white_brightness temperature color_brightness R G B : Nat) (now : Nat) : Device :=
  { d with
    online := online,
    state := decide (mode &&& 1 = 1),
    color_mode := decide ((mode >>> 1) &&& 1 = 1),
    transition_mode := decide ((mode >>> 2) &&& 1 = 1),
    white_brightness := white_brightness,
    temperature := temperature,
    color_brightness := color_brightness,
    R := R, G := G, B := B,
    last_online := now }

/-- The second half of `MeshDevice::handle_packet`, from the call of `get_device` on: the
fields of the device are overwritten, its state is published, and a change of the online flag
is queued by `publish_availability(device, true)`.  `mode` is the mode byte of the report and
`now` the value of `millis()`. -/
def handle_report (env : Env) (self : MeshDevice) (mesh_id : Nat) (online : Bool) (mode : Nat)
    (white_brightness temperature color_brightness R G B : Nat) (now : Nat) :
    Option MeshDevice :=
  match self.get_device env mesh_id with
  | (device, self1) =>
    match self1.devices_.get? device with
    | none => none
    | some d =>
      let online_changed := d.online != online
      let d1 := assign_report d online mode white_brightness temperature color_brightness
        R G B now
      let self2 : MeshDevice :=
        { self1 with
          devices_ := self1.devices_.set device d1,
          published := self1.published ++ [Published.state d1] }
      if online_changed then self2.publish_availability device true now else some self2

/-- `MeshDevice::handle_packet` at `millis() = now`. -/
def handle_packet (env : Env) (self : MeshDevice) (packet : List Nat) (now : Nat) :
    Option MeshDevice :=
  (str_get packet 7).bind fun command =>
    if command = env.COMMAND_ONLINE_STATUS_REPORT then
      (str_get packet 19).bind fun b19 =>
      (str_get packet 10).bind fun b10 =>
      (str_get packet 12).bind fun mode =>
      (str_get packet 11).bind fun b11 =>
      (str_get packet 13).bind fun white_brightness =>
      (str_get packet 14).bind fun temperature =>
      (str_get packet 15).bind fun color_brightness =>
      (str_get packet 16).bind fun R =>
      (str_get packet 17).bind fun G =>
      (str_get packet 18).bind fun B =>
        self.handle_report env (b19 * 256 + b10) (char_gt_zero env.char_signed b11) mode
          white_brightness temperature color_brightness R G B now
    else if command = env.COMMAND_STATUS_REPORT then
      (str_get packet 10).bind fun mode =>
      (str_get packet 4).bind fun b4 =>
      (str_get packet 3).bind fun b3 =>
      (str_get packet 11).bind fun white_brightness =>
      (str_get packet 12).bind fun temperature =>
      (str_get packet 13).bind fun color_brightness =>
      (str_get packet 14).bind fun R =>
      (str_get packet 15).bind fun G =>
      (str_get packet 16).bind fun B =>
        self.handle_report env (b4 * 256 + b3) true mode
          white_brightness temperature color_brightness R G B now
    else some self

end MeshDevice

/-- The rounding of `round` in `math.h`: to the nearest integer, halves away from zero. -/
def round_half_away (x : ℚ) : ℤ := if 0 ≤ x then ⌊x + 1 / 2⌋ else ⌈x - 1 / 2⌉

/-- Rounding to the nearest integer, halves to the even one: the rounding of a significand
in the default rounding mode of IEEE 754 (round to nearest, ties to even). -/
def round_half_even (x : ℚ) : ℤ :=
  if x - ⌊x⌋ < 1 / 2 then ⌊x⌋
  else if 1 / 2 < x - ⌊x⌋ then ⌊x⌋ + 1
  else if ⌊x⌋ % 2 = 0 then ⌊x⌋ else ⌊x⌋ + 1

/-- The value of type `float` that an operation with the exact result `x` delivers: `float`
is IEEE 754 binary32, with a significand of 24 bits, exponents from -126 on (below that the
subnormal numbers, all multiples of 2^-149) and rounding to nearest, ties to even.  A rounded
value of magnitude 2^128 or more is not finite (the result is an infinity): `none`. -/
def float_round (x : ℚ) : Option ℚ :=
  if x = 0 then some 0
  else
    let e : ℤ := max (Int.log 2 |x|) (-126)
    let ulp : ℚ := (2 : ℚ) ^ (e - 23)
    let r : ℚ := (round_half_even (x / ulp) : ℚ) * ulp
    if |r| < (2 : ℚ) ^ (128 : ℕ) then some r else none

/-- The subtraction `a - b` of two `int` (32 bits): an overflow is not defined. -/
def int_sub (a b : ℤ) : Option ℤ :=
  if -2147483648 ≤ a - b ∧ a - b ≤ 2147483647 then some (a - b) else none

/-- The conversion `(float) n` of an `int`. -/
def int_to_float (n : ℤ) : Option ℚ := float_round (n : ℚ)

/-- The division of two `float`; with a divisor zero the result is an infinity or a NaN. -/
def float_div (a b : ℚ) : Option ℚ := if b = 0 then none else float_round (a / b)

/-- The product of two `float`. -/
def float_mul (a b : ℚ) : Option ℚ := float_round (a * b)

/-- The sum of two `float`. -/
def float_add (a b : ℚ) : Option ℚ := float_round (a + b)

/-- The conversion `(int) x` of a `float`: the value is truncated towards zero, and the
conversion is defined when the truncated value is an `int` (32 bits). -/
def float_to_int (x : ℚ) : Option ℤ :=
  let t : ℤ := if 0 ≤ x then ⌊x⌋ else ⌈x⌉
  if -2147483648 ≤ t ∧ t ≤ 2147483647 then some t else none

/-- The expression `a * b + c` on `float`: the product and the sum, each rounded to a
`float`, or, when the compiler contracts the expression into one fused multiply-add
(`fused`; the C++ implementation decides, and GCC does so on targets that have the
instruction), the exact value of `a * b + c` rounded once. -/
def float_mul_add (fused : Bool) (a b c : ℚ) : Option ℚ :=
  if fused then float_round (a * b + c)
  else (float_mul a b).bind fun product => float_add product c

/-- The static function `convert_value_to_available_range` on `int` arguments, in the `float`
arithmetic of the source (evaluated in the precision of `float`): every operation on `float`
rounds its exact result to a `float`, and `none` stands for an overflow of an `int`
subtraction, for a value that is not finite (which ends in the conversion to `int`) and for
a conversion to `int` out of range.  The result of `round` on a `float` is a `float` (a
`float` of magnitude 2^23 or more is an integer). -/
def convert_value_to_available_range (fused : Bool)
    (value min_from max_from min_to max_to : ℤ) : Option ℤ :=
  (int_sub value min_from).bind fun a =>
  (int_to_float a).bind fun fa =>
  (int_sub max_from min_from).bind fun b =>
  (int_to_float b).bind fun fb =>
  (float_div fa fb).bind fun normalized =>
  (int_sub max_to min_to).bind fun c =>
  (int_to_float c).bind fun fc =>
  (int_to_float min_to).bind fun fm =>
  (float_mul_add fused normalized fc fm).bind fun sum =>
  (float_to_int (round_half_away sum : ℚ)).bind fun rounded =>
    let new_value : ℤ := min rounded max_to
    some (max new_value min_to)

/-- The opcodes and the `Device` initialisers of the concrete evaluations: the opcodes 0xDC
and 0xDB that the comments of `handle_packet` name, a new device that is offline and off, and
an unsigned `char`. -/
def example_env : Env :=
  { COMMAND_ONLINE_STATUS_REPORT := 0xdc, COMMAND_STATUS_REPORT := 0xdb,
    new_Device :=
      { mesh_id := 0, online := false, state := false, color_mode := false,
        transition_mode := false, white_brightness := 0, temperature := 0,
        color_brightness := 0, R := 0, G := 0, B := 0, last_online := 0 },
    char_signed := false }

/-- A step of the device: a report handled by `handle_packet`, or a tick of `loop`, at
`millis() = now`. -/
inductive Step where
  | report (packet : List Nat) (now : Nat)
  | tick (now : Nat)
deriving DecidableEq

/-- The device after a sequence of reports and ticks. -/
def steps (env : Env) : MeshDevice → List Step → Option MeshDevice
  | self, [] => some self
  | self, Step.report packet now :: rest =>
    match self.handle_packet env packet now with
    | none => none
    | some self1 => steps env self1 rest
  | self, Step.tick now :: rest =>
    match self.loop now with
    | none => none
    | some self1 => steps env self1 rest

/-- The mesh ids of the discovery messages among published messages, in order. -/
def discovered (l : List Published) : List Nat :=
  l.filterMap fun msg =>
    match msg with
    | Published.discovery mesh_id => some mesh_id
    | _ => none

/-- The mesh ids of the state messages among published messages, in order. -/
def state_ids (l : List Published) : List Nat :=
  l.filterMap fun msg =>
    match msg with
    | Published.state d => some d.mesh_id
    | _ => none

/-- A recognised report: an online status report of at least 20 bytes or a status report of
at least 17 bytes. -/
abbrev recognised (env : Env) (packet : List Nat) : Prop :=
  (20 ≤ packet.length ∧ packet.getD 7 0 = env.COMMAND_ONLINE_STATUS_REPORT) ∨
  (17 ≤ packet.length ∧ packet.getD 7 0 = env.COMMAND_STATUS_REPORT)

/-- The mesh id a recognised report carries. -/
def report_mesh_id (env : Env) (packet : List Nat) : Nat :=
  if packet.getD 7 0 = env.COMMAND_ONLINE_STATUS_REPORT then
    packet.getD 19 0 * 256 + packet.getD 10 0
  else packet.getD 4 0 * 256 + packet.getD 3 0

/-- The mesh ids of the devices of the store, in order. -/
def mesh_ids (self : MeshDevice) : List Nat := self.devices_.map Device.mesh_id

/-- A device on which every tick has a defined result: a 16 byte session key, a reversed
address of at least 3 bytes, queued payloads of at most 10 bytes, and queued availability
changes that refer to devices of the store. -/
def ready (self : MeshDevice) : Prop :=
  self.session_key.length = 16 ∧ 3 ≤ self.reverse_address.length ∧
  (∀ c, c ∈ self.command_queue → c.data.length ≤ 10) ∧
  (∀ p, p ∈ self.delayed_availability_publish → p.device < self.devices_.length)

/-- The example device with one known device in its store: mesh id 5, online. -/
def example_store_device : MeshDevice :=
  { example_device with
    devices_ := [{ example_env.new_Device with mesh_id := 5, online := true }] }

/-- An online status report of 20 bytes for the mesh id 5, with the given online byte. -/
def example_report (online : Nat) : List Nat :=
  [0, 0, 0, 0, 0, 0, 0, 0xdc, 0, 0, 5, online, 1, 0x7f, 0x10, 0x64, 1, 2, 3, 0]

end awox_mesh

namespace awox_mesh

open MeshDevice

/-! ## Strings and loops -/

theorem getD_set_eq (l : List Nat) (i j v : Nat) (hi : i < l.length) :
    (l.set i v).getD j 0 = if j = i then v else l.getD j 0 := by
  simp only [List.getD_eq_getElem?_getD, List.getElem?_set]
  by_cases h : i = j
  · subst h; simp [hi]
  · have h2 : ¬ j = i := fun e => h e.symm
    simp [h, h2]

theorem str_get_of_lt (s : List Nat) (i : Nat) (h : i < s.length) :
    str_get s i = some (s.getD i 0) := by
  simp [str_get, h]

theorem str_set_of_lt (s : List Nat) (i v : Nat) (h : i < s.length) :
    str_set s i v = some (s.set i v) := by
  simp [str_set, h]

/-- The XOR loop inside the bounds of both strings: it returns, and changes exactly the bytes
`i + doff ≤ j < i + doff + cnt` of `dst`. -/
theorem xor_into_eq_some (doff : Nat) (src : List Nat) (soff : Nat) :
    ∀ (cnt i : Nat) (dst : List Nat), i + doff + cnt ≤ dst.length →
      i + soff + cnt ≤ src.length →
      ∃ out, xor_into dst doff src soff i cnt = some out ∧ out.length = dst.length ∧
        ∀ j, out.getD j 0 =
          if i + doff ≤ j ∧ j < i + doff + cnt then dst.getD j 0 ^^^ src.getD (j - doff + soff) 0
          else dst.getD j 0
  | 0, i, dst, _, _ => by
    refine ⟨dst, rfl, rfl, fun j => ?_⟩
    have : ¬ (i + doff ≤ j ∧ j < i + doff + 0) := by omega
    rw [if_neg this]
  | cnt + 1, i, dst, hd, hs => by
    have h1 : i + doff < dst.length := by omega
    have h2 : i + soff < src.length := by omega
    obtain ⟨out, ho, hl, hj⟩ := xor_into_eq_some doff src soff cnt (i + 1)
      (dst.set (i + doff) (dst.getD (i + doff) 0 ^^^ src.getD (i + soff) 0))
      (by simp; omega) (by omega)
    refine ⟨out, ?_, ?_, fun j => ?_⟩
    · simp only [xor_into, str_get_of_lt _ _ h1, str_get_of_lt _ _ h2, str_set_of_lt _ _ _ h1]
      exact ho
    · simpa using hl
    · rw [hj j, getD_set_eq _ _ _ _ h1]
      by_cases e : j = i + doff
      · subst e
        have : ¬ (i + 1 + doff ≤ i + doff ∧ i + doff < i + 1 + doff + cnt) := by omega
        have t : (i + doff ≤ i + doff ∧ i + doff < i + doff + (cnt + 1)) := by omega
        simp [this, t]
      · by_cases c : i + 1 + doff ≤ j ∧ j < i + 1 + doff + cnt
        · have t : (i + doff ≤ j ∧ j < i + doff + (cnt + 1)) := by omega
          simp only [c, t, e, if_true, and_self, if_false, getD_set_eq _ _ _ _ h1]
        · have t : ¬ (i + doff ≤ j ∧ j < i + doff + (cnt + 1)) := by omega
          simp only [c, t, e, if_false]

/-- The copy loop inside the bounds of both strings: it returns, and changes exactly the bytes
`i + doff ≤ j < i + doff + cnt` of `dst`. -/
theorem copy_into_eq_some (doff : Nat) (src : List Nat) :
    ∀ (cnt i : Nat) (dst : List Nat), i + doff + cnt ≤ dst.length →
      i + cnt ≤ src.length →
      ∃ out, copy_into dst doff src i cnt = some out ∧ out.length = dst.length ∧
        ∀ j, out.getD j 0 =
          if i + doff ≤ j ∧ j < i + doff + cnt then src.getD (j - doff) 0
          else dst.getD j 0
  | 0, i, dst, _, _ => by
    refine ⟨dst, rfl, rfl, fun j => ?_⟩
    have : ¬ (i + doff ≤ j ∧ j < i + doff + 0) := by omega
    rw [if_neg this]
  | cnt + 1, i, dst, hd, hs => by
    have h1 : i + doff < dst.length := by omega
    have h2 : i < src.length := by omega
    obtain ⟨out, ho, hl, hj⟩ := copy_into_eq_some doff src cnt (i + 1)
      (dst.set (i + doff) (src.getD i 0))
      (by simp; omega) (by omega)
    refine ⟨out, ?_, ?_, fun j => ?_⟩
    · simp only [copy_into, str_get_of_lt _ _ h2, str_set_of_lt _ _ _ h1]
      exact ho
    · simpa using hl
    · rw [hj j, getD_set_eq _ _ _ _ h1]
      by_cases e : j = i + doff
      · subst e
        have : ¬ (i + 1 + doff ≤ i + doff ∧ i + doff < i + 1 + doff + cnt) := by omega
        have t : (i + doff ≤ i + doff ∧ i + doff < i + doff + (cnt + 1)) := by omega
        simp [this, t]
      · by_cases c : i + 1 + doff ≤ j ∧ j < i + 1 + doff + cnt
        · have t : (i + doff ≤ j ∧ j < i + doff + (cnt + 1)) := by omega
          simp only [c, t, e, if_true, and_self, if_false]
        · have t : ¬ (i + doff ≤ j ∧ j < i + doff + (cnt + 1)) := by omega
          simp only [c, t, e, if_false]

/-! ## The block cipher -/

theorem AES128_rounds_length : ∀ (rcs k s : List Nat), rcs ≠ [] →
    (AES128.rounds rcs k s).length = 16
  | [], _, _, h => absurd rfl h
  | [rc], k, s, _ => by
    simp [AES128.rounds, AES128.addRoundKey, AES128.shiftRows, AES128.nextRoundKey]
  | rc :: rc2 :: rcs, k, s, _ => by
    rw [AES128.rounds]
    exact AES128_rounds_length (rc2 :: rcs) _ _ (by simp)

theorem AES128_encryptBlock_length (key block : List Nat) :
    (AES128.encryptBlock key block).length = 16 :=
  AES128_rounds_length _ _ _ (by simp [AES128.rcon])

set_option maxRecDepth 100000 in
/-- The example vector of FIPS-197, appendix C.1: the key 00 01 .. 0f encrypts the block
00 11 .. ff to 69 c4 e0 d8 6a 7b 04 30 d8 cd b7 80 70 b4 c5 5a. -/
theorem AES128_encryptBlock_fips197 :
    AES128.encryptBlock
        [0x00, 0x01, 0x02, 0x03, 0x04, 0x05, 0x06, 0x07, 0x08, 0x09, 0x0a, 0x0b, 0x0c, 0x0d,
          0x0e, 0x0f]
        [0x00, 0x11, 0x22, 0x33, 0x44, 0x55, 0x66, 0x77, 0x88, 0x99, 0xaa, 0xbb, 0xcc, 0xdd,
          0xee, 0xff] =
      [0x69, 0xc4, 0xe0, 0xd8, 0x6a, 0x7b, 0x04, 0x30, 0xd8, 0xcd, 0xb7, 0x80, 0x70, 0xb4,
        0xc5, 0x5a] := by
  decide

/-- With a 16 byte key and at least 15 bytes of data `encrypt` returns 16 bytes. -/
theorem encrypt_eq_some (key data : List Nat) (hk : key.length = 16) (hd : 15 ≤ data.length) :
    ∃ out, encrypt key data = some out ∧ out.length = 16 := by
  refine ⟨_, if_pos ⟨hk, hd⟩, ?_⟩
  rw [List.length_reverse]
  exact AES128_encryptBlock_length _ _

theorem encrypt_length (key data out : List Nat) (h : encrypt key data = some out) :
    out.length = 16 := by
  unfold encrypt at h
  split at h
  · cases h
    rw [List.length_reverse]
    exact AES128_encryptBlock_length _ _
  · cases h

/-! ## Credentials -/

theorem xor_bytes_cancel : ∀ (a b : List Nat), a.length = b.length →
    xor_bytes (xor_bytes a b) a = b
  | [], [], _ => rfl
  | [], _ :: _, h => by simp at h
  | _ :: _, [], h => by simp at h
  | x :: a, y :: b, h => by
    have ih := xor_bytes_cancel a b (by simpa using h)
    simp only [xor_bytes] at ih ⊢
    simp only [List.zipWith_cons_cons, ih]
    rw [Nat.xor_comm x y, Nat.xor_assoc, Nat.xor_self, Nat.xor_zero]

theorem xor_bytes_comm : ∀ (a b : List Nat), xor_bytes a b = xor_bytes b a
  | [], [] => rfl
  | [], _ :: _ => rfl
  | _ :: _, [] => rfl
  | x :: a, y :: b => by
    have ih := xor_bytes_comm a b
    simp only [xor_bytes] at ih ⊢
    simp only [List.zipWith_cons_cons, ih, Nat.xor_comm x y]

theorem pad16_length (s : List Nat) (h : s.length ≤ 16) : (pad16 s).length = 16 := by
  simp [pad16]; omega

theorem map_range_xor (a b : List Nat) (ha : a.length = 16) (hb : b.length = 16) :
    (List.range 16).map (fun i => a.getD i 0 ^^^ b.getD i 0) = xor_bytes a b := by
  apply List.ext_getElem
  · simp [xor_bytes, ha, hb]
  · intro i h1 h2
    simp only [List.length_map, List.length_range] at h1
    have h3 : i < a.length := by omega
    have h4 : i < b.length := by omega
    simp [xor_bytes, List.getD_eq_getElem?_getD, List.getElem?_eq_getElem, h3, h4]

theorem combine_eq (self : MeshDevice) (hn : self.mesh_name.length ≤ 16)
    (hp : self.mesh_password.length ≤ 16) :
    self.combine_name_and_password =
      some (xor_bytes (pad16 self.mesh_name) (pad16 self.mesh_password)) := by
  simp only [combine_name_and_password, append_zeros, hn, hp, if_true]
  rw [← map_range_xor _ _ (pad16_length _ hn) (pad16_length _ hp)]
  rfl

/-- C6: with a mesh name and a mesh password of at most 16 bytes each,
`combine_name_and_password` returns 16 bytes, byte `i` being the XOR of byte `i` of the two
zero padded strings; the XOR of the result with the padded name is the padded password, the
XOR with the padded password is the padded name, and name and password exchanged give the
same result. -/
theorem combine_name_and_password_xor (self : MeshDevice)
    (hn : self.mesh_name.length ≤ 16) (hp : self.mesh_password.length ≤ 16) :
    ∃ out, self.combine_name_and_password = some out ∧ out.length = 16 ∧
      (∀ i, i < 16 → out.getD i 0 =
        (pad16 self.mesh_name).getD i 0 ^^^ (pad16 self.mesh_password).getD i 0) ∧
      xor_bytes out (pad16 self.mesh_name) = pad16 self.mesh_password ∧
      xor_bytes out (pad16 self.mesh_password) = pad16 self.mesh_name ∧
      combine_name_and_password
        { self with mesh_name := self.mesh_password, mesh_password := self.mesh_name } =
        some out := by
  have ln := pad16_length _ hn
  have lp := pad16_length _ hp
  refine ⟨_, combine_eq self hn hp, ?_, ?_, ?_, ?_, ?_⟩
  · simp [xor_bytes, ln, lp]
  · intro i hi
    rw [← map_range_xor _ _ ln lp]
    simp [List.getD_eq_getElem?_getD, List.getElem?_map, List.getElem?_range hi]
  · exact xor_bytes_cancel _ _ (by rw [ln, lp])
  · rw [xor_bytes_comm (pad16 self.mesh_name)]
    exact xor_bytes_cancel _ _ (by rw [ln, lp])
  · rw [combine_eq _ hp hn, xor_bytes_comm]

/-- C6 at the mesh name "A" and the mesh password "B". -/
theorem combine_name_and_password_xor_witness :
    ∃ out, example_device.combine_name_and_password = some out ∧ out.length = 16 ∧
      (∀ i, i < 16 → out.getD i 0 =
        (pad16 example_device.mesh_name).getD i 0 ^^^
          (pad16 example_device.mesh_password).getD i 0) ∧
      xor_bytes out (pad16 example_device.mesh_name) = pad16 example_device.mesh_password ∧
      xor_bytes out (pad16 example_device.mesh_password) = pad16 example_device.mesh_name ∧
      combine_name_and_password
        { example_device with mesh_name := example_device.mesh_password,
                              mesh_password := example_device.mesh_name } = some out :=
  combine_name_and_password_xor example_device (by decide) (by decide)

/-! ## The pairing value -/

/-- C4, as the code has it: with a mesh name and a mesh password of at most 16 bytes each and
a connection random `r` of at most 8 bytes, `key_encrypt` returns the 16 bytes of `encrypt`
with the key `r` right-padded with zero bytes to 16 bytes and the data block `combined_key`:
the padded random is the AES key and the combined credential is the block. -/
theorem key_encrypt_eq (self : MeshDevice) (r : List Nat)
    (hn : self.mesh_name.length ≤ 16) (hp : self.mesh_password.length ≤ 16)
    (hr : r.length ≤ 8) :
    ∃ combined_key out, self.combine_name_and_password = some combined_key ∧
      self.key_encrypt r = some out ∧ encrypt (pad16 r) combined_key = some out ∧
      out.length = 16 := by
  have hr16 : r.length ≤ 16 := by omega
  have hc := combine_eq self hn hp
  have hl : (xor_bytes (pad16 self.mesh_name) (pad16 self.mesh_password)).length = 16 := by
    simp [xor_bytes, pad16_length _ hn, pad16_length _ hp]
  obtain ⟨out, ho, hlen⟩ := encrypt_eq_some (pad16 r) _ (pad16_length r hr16)
    (by rw [hl]; decide)
  refine ⟨_, out, hc, ?_, ho, hlen⟩
  simp only [key_encrypt, hc, append_zeros, hr16, if_true]
  exact ho

/-- C4 at the mesh name "A", the mesh password "B" and the random 1, 2, ..., 8. -/
theorem key_encrypt_eq_witness :
    ∃ combined_key out, example_device.combine_name_and_password = some combined_key ∧
      example_device.key_encrypt [1, 2, 3, 4, 5, 6, 7, 8] = some out ∧
      encrypt (pad16 [1, 2, 3, 4, 5, 6, 7, 8]) combined_key = some out ∧ out.length = 16 :=
  key_encrypt_eq example_device [1, 2, 3, 4, 5, 6, 7, 8] (by decide) (by decide) (by decide)

set_option maxRecDepth 100000 in
/-- C4 as stated fails: for the mesh name "A", the mesh password "B" and the random
1, 2, ..., 8, `key_encrypt` does not return `encrypt` with the key `combined_key` and the
padded random as data block. -/
theorem key_encrypt_ne_combined_key_as_key :
    example_device.combine_name_and_password =
      some [3, 0, 0, 0, 0, 0, 0, 0, 0, 0, 0, 0, 0, 0, 0, 0] ∧
    example_device.key_encrypt [1, 2, 3, 4, 5, 6, 7, 8] =
      some [213, 160, 177, 167, 25, 121, 56, 196, 37, 206, 160, 96, 148, 26, 230, 66] ∧
    encrypt [3, 0, 0, 0, 0, 0, 0, 0, 0, 0, 0, 0, 0, 0, 0, 0]
        (pad16 [1, 2, 3, 4, 5, 6, 7, 8]) =
      some [244, 182, 157, 142, 64, 106, 19, 12, 206, 96, 40, 163, 81, 117, 58, 82] ∧
    example_device.key_encrypt [1, 2, 3, 4, 5, 6, 7, 8] ≠
      encrypt [3, 0, 0, 0, 0, 0, 0, 0, 0, 0, 0, 0, 0, 0, 0, 0]
        (pad16 [1, 2, 3, 4, 5, 6, 7, 8]) := by
  refine ⟨by decide, by decide, by decide, by decide⟩

/-! ## The packet codec -/

theorem take_eq_of_getD (n : Nat) (a b : List Nat) (ha : n ≤ a.length) (hb : n ≤ b.length)
    (h : ∀ j, j < n → a.getD j 0 = b.getD j 0) : a.take n = b.take n := by
  apply List.ext_getElem
  · simp [ha, hb]
  · intro i h1 h2
    have hi : i < n := by
      simp only [List.length_take] at h1
      omega
    have ia : i < a.length := by omega
    have ib : i < b.length := by omega
    have e := h i hi
    simp only [List.getD_eq_getElem?_getD, List.getElem?_eq_getElem ia,
      List.getElem?_eq_getElem ib, Option.getD_some] at e
    simpa using e

/-- The bytes of an encrypted packet: with a 16 byte session key, a reversed address of at
least 3 bytes and a 20 byte packet, `encrypt_packet` returns 20 bytes; bytes 0..2 are those of
the packet, bytes 3..4 are the first two bytes of `mac`, and byte `j` from 5 on is byte `j` of
the packet XOR byte `j - 5` of the key stream `buffer`. -/
theorem encrypt_packet_bytes (self : MeshDevice) (packet : List Nat)
    (hk : self.session_key.length = 16) (ha : 3 ≤ self.reverse_address.length)
    (hp : packet.length = 20) :
    ∃ authenticator0 authenticator mac buffer out,
      encrypt self.session_key (self.reverse_address.take 4 ++ [1] ++ packet.take 3 ++ [0x0f] ++
        List.replicate 7 0) = some authenticator0 ∧
      authenticator.length = 16 ∧
      (∀ j, authenticator.getD j 0 =
        if j < 15 then authenticator0.getD j 0 ^^^ packet.getD (j + 5) 0
        else authenticator0.getD j 0) ∧
      encrypt self.session_key authenticator = some mac ∧
      encrypt self.session_key ([0] ++ self.reverse_address.take 4 ++ [1] ++ packet.take 3 ++
        List.replicate 7 0) = some buffer ∧
      self.encrypt_packet packet = some out ∧ out.length = 20 ∧
      ∀ j, out.getD j 0 =
        if j < 3 then packet.getD j 0
        else if j < 5 then mac.getD (j - 3) 0
        else if j < 20 then packet.getD j 0 ^^^ buffer.getD (j - 5) 0
        else packet.getD j 0 := by
  have hrev : 3 ≤ (self.reverse_address.take 4).length := by
    simp only [List.length_take]; omega
  obtain ⟨a0, ha0, la0⟩ := encrypt_eq_some self.session_key
    (self.reverse_address.take 4 ++ [1] ++ packet.take 3 ++ [0x0f] ++ List.replicate 7 0) hk
    (by simp only [List.length_append, List.length_take, List.length_replicate,
          List.length_singleton] at hrev ⊢
        omega)
  obtain ⟨a, hxa, la, ja⟩ := xor_into_eq_some 0 packet 5 15 0 a0 (by omega) (by omega)
  obtain ⟨mac, hmac, lmac⟩ := encrypt_eq_some self.session_key a hk (by omega)
  obtain ⟨p1, hp1, lp1, jp1⟩ := copy_into_eq_some 3 mac 2 0 packet (by omega) (by omega)
  have htake : p1.take 3 = packet.take 3 := by
    apply take_eq_of_getD 3 _ _ (by omega) (by omega)
    intro j hj
    rw [jp1 j, if_neg (by omega)]
  obtain ⟨buf, hbuf, lbuf⟩ := encrypt_eq_some self.session_key
    ([0] ++ self.reverse_address.take 4 ++ [1] ++ packet.take 3 ++ List.replicate 7 0) hk
    (by simp only [List.length_append, List.length_take, List.length_replicate,
          List.length_singleton] at hrev ⊢
        omega)
  obtain ⟨out, hout, lout, jout⟩ := xor_into_eq_some 5 buf 0 15 0 p1 (by omega) (by omega)
  refine ⟨a0, a, mac, buf, out, ha0, by omega, ?_, hmac, hbuf, ?_, by omega, ?_⟩
  · intro j
    rw [ja j]
    by_cases c : j < 15
    · have c2 : 0 + 0 ≤ j ∧ j < 0 + 0 + 15 := by omega
      rw [if_pos c, if_pos c2]
      simp
    · have c2 : ¬ (0 + 0 ≤ j ∧ j < 0 + 0 + 15) := by omega
      rw [if_neg c, if_neg c2]
  · simp only [encrypt_packet, ha0, hxa, hmac, hp1, htake, hbuf]
    exact hout
  · intro j
    rw [jout j, jp1 j]
    by_cases c1 : j < 3
    · rw [if_pos c1, if_neg (by omega), if_neg (by omega)]
    · by_cases c2 : j < 5
      · rw [if_neg c1, if_pos c2, if_neg (by omega), if_pos (by omega)]
      · by_cases c3 : j < 20
        · rw [if_neg c1, if_neg c2, if_pos c3, if_pos (by omega), if_neg (by omega)]
          simp
        · rw [if_neg c1, if_neg c2, if_neg c3, if_neg (by omega), if_neg (by omega)]

/-- The bytes of a decrypted packet: with a 16 byte session key, a reversed address of at
least 3 bytes and a packet of 7 to 23 bytes, `decrypt_packet` returns a packet of the same
length; byte `j` from 7 on is byte `j` of the packet XOR byte `j - 7` of the key stream
`result`, and the other bytes are those of the packet. -/
theorem decrypt_packet_bytes (self : MeshDevice) (packet : List Nat)
    (hk : self.session_key.length = 16) (ha : 3 ≤ self.reverse_address.length)
    (hp : 7 ≤ packet.length) (hp2 : packet.length ≤ 23) :
    ∃ result out,
      encrypt self.session_key ([0] ++ self.reverse_address.take 3 ++ packet.take 5 ++
        List.replicate 7 0) = some result ∧
      self.decrypt_packet packet = some out ∧ out.length = packet.length ∧
      ∀ j, out.getD j 0 =
        if 7 ≤ j ∧ j < packet.length then packet.getD j 0 ^^^ result.getD (j - 7) 0
        else packet.getD j 0 := by
  obtain ⟨r, hr, lr⟩ := encrypt_eq_some self.session_key
    ([0] ++ self.reverse_address.take 3 ++ packet.take 5 ++ List.replicate 7 0) hk
    (by simp only [List.length_append, List.length_take, List.length_replicate,
          List.length_singleton]
        omega)
  have hcnt : (packet.length + 4294967296 - 7) % 4294967296 = packet.length - 7 := by omega
  obtain ⟨out, hout, lout, jout⟩ := xor_into_eq_some 7 r 0 (packet.length - 7) 0 packet
    (by omega) (by omega)
  refine ⟨r, out, hr, ?_, lout, ?_⟩
  · simp only [decrypt_packet, hr, hcnt]
    exact hout
  · intro j
    rw [jout j]
    by_cases c : 7 ≤ j ∧ j < packet.length
    · rw [if_pos c, if_pos (by omega)]
      simp
    · rw [if_neg c, if_neg (by omega)]

/-! ## Encryption followed by decryption -/

/-- C1, as the code has it: with a 16 byte session key, a reversed address of at least 3 bytes
and a 20 byte packet `p`, `decrypt_packet` of `encrypt_packet p` returns 20 bytes in which
bytes 5 and 6 are those of `p` XOR bytes 0 and 1 of the key stream `ks_e` of the encryption,
and byte `7 + i` is byte `7 + i` of `p` XOR byte `i + 2` of `ks_e` XOR byte `i` of the key
stream `ks_d` of the decryption, which is taken from another block (the first three address
bytes and bytes 0..4 of the encrypted packet). -/
theorem decrypt_encrypt_packet_bytes (self : MeshDevice) (p : List Nat)
    (hk : self.session_key.length = 16) (ha : 3 ≤ self.reverse_address.length)
    (hp : p.length = 20) :
    ∃ ks_e e ks_d d,
      encrypt self.session_key ([0] ++ self.reverse_address.take 4 ++ [1] ++ p.take 3 ++
        List.replicate 7 0) = some ks_e ∧
      self.encrypt_packet p = some e ∧
      encrypt self.session_key ([0] ++ self.reverse_address.take 3 ++ e.take 5 ++
        List.replicate 7 0) = some ks_d ∧
      self.decrypt_packet e = some d ∧ d.length = 20 ∧
      (∀ i, i < 2 → d.getD (5 + i) 0 = p.getD (5 + i) 0 ^^^ ks_e.getD i 0) ∧
      (∀ i, i < 13 →
        d.getD (7 + i) 0 = (p.getD (7 + i) 0 ^^^ ks_e.getD (i + 2) 0) ^^^ ks_d.getD i 0) := by
  obtain ⟨_, _, _, ks_e, e, _, _, _, _, hks, he, le, je⟩ := encrypt_packet_bytes self p hk ha hp
  obtain ⟨ks_d, d, hkd, hd, ld, jd⟩ := decrypt_packet_bytes self e hk ha (by omega) (by omega)
  refine ⟨ks_e, e, ks_d, d, hks, he, hkd, hd, by omega, ?_, ?_⟩
  · intro i hi
    rw [jd (5 + i), if_neg (by omega), je (5 + i), if_neg (by omega), if_neg (by omega),
      if_pos (by omega)]
    simp
  · intro i hi
    rw [jd (7 + i), if_pos (by omega), je (7 + i), if_neg (by omega), if_neg (by omega),
      if_pos (by omega)]
    have e1 : 7 + i - 5 = i + 2 := by omega
    have e2 : 7 + i - 7 = i := by omega
    rw [e1, e2]

/-- C1 at the example device and the plaintext packet of a power command. -/
theorem decrypt_encrypt_packet_bytes_witness :
    ∃ ks_e e ks_d d,
      encrypt example_device.session_key ([0] ++ example_device.reverse_address.take 4 ++ [1] ++
        [1, 0, 0, 0, 0, 5, 0, 0xd0, 0x60, 0x01, 1, 0, 0, 0, 0, 0, 0, 0, 0, 0].take 3 ++
        List.replicate 7 0) = some ks_e ∧
      example_device.encrypt_packet
        [1, 0, 0, 0, 0, 5, 0, 0xd0, 0x60, 0x01, 1, 0, 0, 0, 0, 0, 0, 0, 0, 0] = some e ∧
      encrypt example_device.session_key ([0] ++ example_device.reverse_address.take 3 ++
        e.take 5 ++ List.replicate 7 0) = some ks_d ∧
      example_device.decrypt_packet e = some d ∧ d.length = 20 ∧
      (∀ i, i < 2 → d.getD (5 + i) 0 =
        [1, 0, 0, 0, 0, 5, 0, 0xd0, 0x60, 0x01, 1, 0, 0, 0, 0, 0, 0, 0, 0, 0].getD (5 + i) 0 ^^^
          ks_e.getD i 0) ∧
      (∀ i, i < 13 → d.getD (7 + i) 0 =
        ([1, 0, 0, 0, 0, 5, 0, 0xd0, 0x60, 0x01, 1, 0, 0, 0, 0, 0, 0, 0, 0, 0].getD (7 + i) 0 ^^^
          ks_e.getD (i + 2) 0) ^^^ ks_d.getD i 0) :=
  decrypt_encrypt_packet_bytes example_device
    [1, 0, 0, 0, 0, 5, 0, 0xd0, 0x60, 0x01, 1, 0, 0, 0, 0, 0, 0, 0, 0, 0]
    (by decide) (by decide) (by decide)

set_option maxRecDepth 100000 in
/-- C1 as stated fails: for the example device and the plaintext packet of a power command,
`decrypt_packet` of `encrypt_packet p` differs from `p` in bytes 5..19. -/
theorem decrypt_encrypt_packet_not_restored :
    example_device.encrypt_packet
        [1, 0, 0, 0, 0, 5, 0, 0xd0, 0x60, 0x01, 1, 0, 0, 0, 0, 0, 0, 0, 0, 0] =
      some [1, 0, 0, 217, 242, 129, 165, 110, 251, 72, 123, 177, 39, 49, 70, 6, 118, 142,
        117, 64] ∧
    example_device.decrypt_packet
        [1, 0, 0, 217, 242, 129, 165, 110, 251, 72, 123, 177, 39, 49, 70, 6, 118, 142, 117,
          64] =
      some [1, 0, 0, 217, 242, 129, 165, 226, 160, 195, 38, 140, 7, 254, 111, 50, 100, 114,
        175, 43] ∧
    List.drop 5 [1, 0, 0, 217, 242, 129, 165, 226, 160, 195, 38, 140, 7, 254, 111, 50, 100,
        114, 175, 43] ≠
      List.drop 5 [1, 0, 0, 0, 0, 5, 0, 0xd0, 0x60, 0x01, 1, 0, 0, 0, 0, 0, 0, 0, 0, 0] := by
  refine ⟨by decide, by decide, by decide⟩

/-! ## The packet builder -/

theorem getD_eq_of_lt (l : List Nat) (j : Nat) (h : j < l.length) : l.getD j 0 = l[j] := by
  simp [List.getD_eq_getElem?_getD, List.getElem?_eq_getElem h]

theorem getD_eq_zero_of_le (l : List Nat) (j : Nat) (h : l.length ≤ j) : l.getD j 0 = 0 := by
  simp [List.getD_eq_getElem?_getD, List.getElem?_eq_none h]

theorem list_eq_of_getD (a b : List Nat) (hl : a.length = b.length)
    (h : ∀ j, a.getD j 0 = b.getD j 0) : a = b := by
  apply List.ext_getElem hl
  intro i h1 h2
  have e := h i
  rwa [getD_eq_of_lt a i h1, getD_eq_of_lt b i h2] at e

/-- The copy loop of `build_packet` on a buffer `hdr ++ z`, at the offset of `z`: a payload
that fits into `z` replaces the start of `z`. -/
theorem copy_into_append (hdr z data : List Nat) (h : data.length ≤ z.length) :
    copy_into (hdr ++ z) hdr.length data 0 data.length =
      some (hdr ++ data ++ z.drop data.length) := by
  obtain ⟨out, ho, hl, hj⟩ := copy_into_eq_some hdr.length data data.length 0 (hdr ++ z)
    (by simp only [List.length_append]; omega) (by omega)
  rw [ho]
  congr 1
  apply list_eq_of_getD
  · simp only [hl, List.length_append, List.length_drop]; omega
  · intro j
    rw [hj j]
    simp only [List.getD_eq_getElem?_getD]
    by_cases c1 : j < hdr.length
    · rw [if_neg (by omega), List.append_assoc, List.getElem?_append_left c1,
        List.getElem?_append_left c1]
    · by_cases c2 : j < hdr.length + data.length
      · rw [if_pos (by omega), List.getElem?_append_left (by simp only [List.length_append]; omega),
          List.getElem?_append_right (by omega)]
      · rw [if_neg (by omega), List.getElem?_append_right (by omega),
          List.getElem?_append_right (by simp only [List.length_append]; omega),
          List.getElem?_drop]
        congr 2
        simp only [List.length_append]
        omega

/-- The packet `build_packet` hands to `encrypt_packet`, for a payload of at most 10 bytes. -/
theorem build_packet_eq (self : MeshDevice) (dest command : Nat) (data : List Nat)
    (hd : data.length ≤ 10) :
    self.build_packet dest command data =
      (self.encrypt_packet
        ([self.packet_count % 256, (self.packet_count / 256) % 256, 0, 0, 0, dest % 256,
          (dest / 256) % 256, command % 256, 0x60, 0x01] ++ data ++
          List.replicate (10 - data.length) 0)).map
        (fun enc => (enc, { self with packet_count :=
          if self.packet_count + 1 > 0xffff then 1 else self.packet_count + 1 })) := by
  have h := copy_into_append
    [self.packet_count % 256, (self.packet_count / 256) % 256, 0, 0, 0, dest % 256,
      (dest / 256) % 256, command % 256, 0x60, 0x01] (List.replicate 10 0) data
    (by simpa using hd)
  rw [List.drop_replicate] at h
  have h2 : copy_into ((((((((List.replicate 20 0).set 0 (self.packet_count % 256)).set 1
      ((self.packet_count / 256) % 256)).set 5 (dest % 256)).set 6 ((dest / 256) % 256)).set 7
      (command % 256)).set 8 0x60).set 9 0x01) 10 data 0 data.length =
      some ([self.packet_count % 256, (self.packet_count / 256) % 256, 0, 0, 0, dest % 256,
          (dest / 256) % 256, command % 256, 0x60, 0x01] ++ data ++
          List.replicate (10 - data.length) 0) := h
  simp only [build_packet, h2]
  cases self.encrypt_packet _ <;> rfl

/-- With a 16 byte session key, a reversed address of at least 3 bytes and a payload of at
most 10 bytes `build_packet` returns a 20 byte packet whose bytes 0..2 are those of the
plaintext, and the device with the next counter. -/
theorem build_packet_eq_some (self : MeshDevice) (dest command : Nat) (data : List Nat)
    (hk : self.session_key.length = 16) (ha : 3 ≤ self.reverse_address.length)
    (hd : data.length ≤ 10) :
    ∃ enc, self.build_packet dest command data =
        some (enc, { self with packet_count :=
          if self.packet_count + 1 > 0xffff then 1 else self.packet_count + 1 }) ∧
      enc.length = 20 ∧ enc.getD 0 0 = self.packet_count % 256 ∧
      enc.getD 1 0 = (self.packet_count / 256) % 256 := by
  obtain ⟨_, _, _, _, enc, _, _, _, _, _, he, le, je⟩ := encrypt_packet_bytes self
    ([self.packet_count % 256, (self.packet_count / 256) % 256, 0, 0, 0, dest % 256,
      (dest / 256) % 256, command % 256, 0x60, 0x01] ++ data ++
      List.replicate (10 - data.length) 0) hk ha
    (by simp only [List.length_append, List.length_replicate, List.length_cons,
          List.length_nil]
        omega)
  refine ⟨enc, ?_, le, ?_, ?_⟩
  · rw [build_packet_eq self dest command data hd, he]
    rfl
  · rw [je 0, if_pos (by omega)]
    rfl
  · rw [je 1, if_pos (by omega)]
    rfl

/-- C7: for a counter in 1..65535, a destination in 0..65535, a command byte and a payload of
at most 10 bytes, the packet `build_packet` returns is `encrypt_packet` of the 20 byte
plaintext packet of the specification, and with a 16 byte session key and a reversed address
of at least 3 bytes it does return a packet, of 20 bytes. -/
theorem build_packet_layout (self : MeshDevice) (dest command : Nat) (data : List Nat)
    (hc1 : 1 ≤ self.packet_count) (hc2 : self.packet_count ≤ 65535) (hdest : dest ≤ 65535)
    (hcmd : command ≤ 255) (hd : data.length ≤ 10) :
    (plaintext_packet self.packet_count dest command data).length = 20 ∧
    (self.build_packet dest command data).map Prod.fst =
      self.encrypt_packet (plaintext_packet self.packet_count dest command data) ∧
    (self.session_key.length = 16 → 3 ≤ self.reverse_address.length →
      ∃ enc self1, self.build_packet dest command data = some (enc, self1) ∧
        self.encrypt_packet (plaintext_packet self.packet_count dest command data) = some enc ∧
        enc.length = 20) := by
  have e1 : (self.packet_count / 256) % 256 = self.packet_count / 256 := by omega
  have e2 : (dest / 256) % 256 = dest / 256 := by omega
  have e3 : command % 256 = command := by omega
  have hb := build_packet_eq self dest command data hd
  rw [e1, e2, e3] at hb
  have hmap : (self.build_packet dest command data).map Prod.fst =
      self.encrypt_packet (plaintext_packet self.packet_count dest command data) := by
    rw [hb]
    unfold plaintext_packet
    cases self.encrypt_packet _ <;> rfl
  refine ⟨?_, hmap, ?_⟩
  · simp only [plaintext_packet, List.length_append, List.length_replicate, List.length_cons,
      List.length_nil]
    omega
  · intro hk ha
    obtain ⟨enc, he, le, _⟩ := build_packet_eq_some self dest command data hk ha hd
    refine ⟨enc, _, he, ?_, le⟩
    rw [← hmap, he]
    rfl

/-- C7 at the example device and a power command for the mesh id 5. -/
theorem build_packet_layout_witness :
    (plaintext_packet example_device.packet_count 5 0xd0 [1]).length = 20 ∧
    (example_device.build_packet 5 0xd0 [1]).map Prod.fst =
      example_device.encrypt_packet (plaintext_packet example_device.packet_count 5 0xd0 [1]) ∧
    ∃ enc self1, example_device.build_packet 5 0xd0 [1] = some (enc, self1) ∧
      example_device.encrypt_packet (plaintext_packet example_device.packet_count 5 0xd0 [1]) =
        some enc ∧
      enc.length = 20 :=
  have h := build_packet_layout example_device 5 0xd0 [1] (by decide) (by decide) (by decide)
    (by decide) (by decide)
  ⟨h.1, h.2.1, h.2.2 (by decide) (by decide)⟩

/-- C8, as the code has it: for every payload of at most 10 bytes (with a 16 byte session
key and a reversed address of at least 3 bytes) every write `packet[i + 10] = data[i]` of the
copy loop of `build_packet` falls inside the 20 byte buffer, the loop leaves the header, all
the payload bytes and zero bytes up to 20 bytes, and `build_packet` returns the encryption
of that buffer, a packet of exactly 20 bytes. -/
theorem build_packet_fixed_length (self : MeshDevice) (dest command : Nat) (data : List Nat)
    (hk : self.session_key.length = 16) (ha : 3 ≤ self.reverse_address.length)
    (hd : data.length ≤ 10) :
    ∃ packet enc self1,
      copy_into ((((((((List.replicate 20 0).set 0 (self.packet_count % 256)).set 1
        ((self.packet_count / 256) % 256)).set 5 (dest % 256)).set 6 ((dest / 256) % 256)).set 7
        (command % 256)).set 8 0x60).set 9 0x01) 10 data 0 data.length = some packet ∧
      packet = [self.packet_count % 256, (self.packet_count / 256) % 256, 0, 0, 0, dest % 256,
        (dest / 256) % 256, command % 256, 0x60, 0x01] ++ data ++
        List.replicate (10 - data.length) 0 ∧
      packet.length = 20 ∧
      (∀ i, i < data.length → i + 10 < packet.length) ∧
      self.encrypt_packet packet = some enc ∧
      self.build_packet dest command data = some (enc, self1) ∧
      enc.length = 20 := by
  have h := copy_into_append
    [self.packet_count % 256, (self.packet_count / 256) % 256, 0, 0, 0, dest % 256,
      (dest / 256) % 256, command % 256, 0x60, 0x01] (List.replicate 10 0) data
    (by simpa using hd)
  rw [List.drop_replicate] at h
  obtain ⟨enc, he, le, _⟩ := build_packet_eq_some self dest command data hk ha hd
  have hb := build_packet_eq self dest command data hd
  rw [he] at hb
  refine ⟨_, enc, _, h, rfl, ?_, ?_, ?_, he, le⟩
  · simp only [List.length_append, List.length_replicate, List.length_cons, List.length_nil]
    omega
  · intro i hi
    simp only [List.length_append, List.length_replicate, List.length_cons, List.length_nil]
    omega
  · cases hx : self.encrypt_packet ([self.packet_count % 256, (self.packet_count / 256) % 256,
        0, 0, 0, dest % 256, (dest / 256) % 256, command % 256, 0x60, 0x01] ++ data ++
        List.replicate (10 - data.length) 0) with
    | none => rw [hx] at hb; cases hb
    | some enc1 =>
      rw [hx] at hb
      cases hb
      rfl

/-- C8, as the code has it, at the example device and a command with a payload of 4 bytes, the
longest payload a caller of `queue_command` passes. -/
theorem build_packet_fixed_length_witness :
    ∃ packet enc self1,
      copy_into ((((((((List.replicate 20 0).set 0 (example_device.packet_count % 256)).set 1
        ((example_device.packet_count / 256) % 256)).set 5 (5 % 256)).set 6
        ((5 / 256) % 256)).set 7 (0xe2 % 256)).set 8 0x60).set 9 0x01) 10 [4, 255, 128, 0] 0
        [4, 255, 128, 0].length = some packet ∧
      packet = [example_device.packet_count % 256, (example_device.packet_count / 256) % 256,
        0, 0, 0, 5 % 256, (5 / 256) % 256, 0xe2 % 256, 0x60, 0x01] ++ [4, 255, 128, 0] ++
        List.replicate (10 - [4, 255, 128, 0].length) 0 ∧
      packet.length = 20 ∧
      (∀ i, i < [4, 255, 128, 0].length → i + 10 < packet.length) ∧
      example_device.encrypt_packet packet = some enc ∧
      example_device.build_packet 5 0xe2 [4, 255, 128, 0] = some (enc, self1) ∧
      enc.length = 20 :=
  build_packet_fixed_length example_device 5 0xe2 [4, 255, 128, 0] (by decide) (by decide)
    (by decide)

set_option maxRecDepth 100000 in
/-- A payload of 11 bytes whose last byte is 0: the eleventh round of the copy loop stores 0
in the terminator of the buffer, which changes nothing, and the packet returned is that of
the first 10 payload bytes. -/
theorem build_packet_payload_11_zero :
    (example_device.build_packet 5 0xd0 [1, 2, 3, 4, 5, 6, 7, 8, 9, 10, 0]).isSome = true ∧
    example_device.build_packet 5 0xd0 [1, 2, 3, 4, 5, 6, 7, 8, 9, 10, 0] =
      example_device.build_packet 5 0xd0 [1, 2, 3, 4, 5, 6, 7, 8, 9, 10] := by
  decide

/-- C8 as stated fails for a payload of 11 bytes: the copy loop of `build_packet` does not cut
the payload to 10 bytes.  On the example device its first ten rounds fill the bytes 10..19 of
the 20 byte buffer, and the eleventh round is the write `packet[20] = data[10]` of the byte 11,
at the index 20 of a buffer of 20 bytes: a write outside the buffer, which `str_set` does not
define. -/
theorem build_packet_payload_11_write_outside :
    copy_into ((((((((List.replicate 20 0).set 0 (example_device.packet_count % 256)).set 1
      ((example_device.packet_count / 256) % 256)).set 5 (5 % 256)).set 6
      ((5 / 256) % 256)).set 7 (0xd0 % 256)).set 8 0x60).set 9 0x01) 10
      [1, 2, 3, 4, 5, 6, 7, 8, 9, 10, 11] 0 10 =
      some [1, 0, 0, 0, 0, 5, 0, 0xd0, 0x60, 0x01, 1, 2, 3, 4, 5, 6, 7, 8, 9, 10] ∧
    [1, 0, 0, 0, 0, 5, 0, 0xd0, 0x60, 0x01, 1, 2, 3, 4, 5, 6, 7, 8, 9, 10].length = 20 ∧
    [1, 2, 3, 4, 5, 6, 7, 8, 9, 10, 11].length = 11 ∧
    str_get [1, 2, 3, 4, 5, 6, 7, 8, 9, 10, 11] 10 = some 11 ∧
    str_set [1, 0, 0, 0, 0, 5, 0, 0xd0, 0x60, 0x01, 1, 2, 3, 4, 5, 6, 7, 8, 9, 10] (10 + 10) 11 =
      none ∧
    copy_into ((((((((List.replicate 20 0).set 0 (example_device.packet_count % 256)).set 1
      ((example_device.packet_count / 256) % 256)).set 5 (5 % 256)).set 6
      ((5 / 256) % 256)).set 7 (0xd0 % 256)).set 8 0x60).set 9 0x01) 10
      [1, 2, 3, 4, 5, 6, 7, 8, 9, 10, 11] 0 [1, 2, 3, 4, 5, 6, 7, 8, 9, 10, 11].length = none := by
  decide

/-! ## The packet counter -/

theorem getD_cons_succ_list (p : List Nat) (ps : List (List Nat)) (k : Nat) :
    (p :: ps).getD (k + 1) [] = ps.getD k [] := by
  simp [List.getD_eq_getElem?_getD]

/-- The counters of successive packets: from a counter `c` in 1..65535, packet `k` carries
the counter `(c - 1 + k) % 65535 + 1`. -/
theorem build_packets_counters : ∀ (calls : List QueuedCommand) (self : MeshDevice),
    1 ≤ self.packet_count → self.packet_count ≤ 65535 →
    self.session_key.length = 16 → 3 ≤ self.reverse_address.length →
    (∀ call, call ∈ calls → call.data.length ≤ 10) →
    ∃ packets self1, build_packets self calls = some (packets, self1) ∧
      packets.length = calls.length ∧
      ∀ k, k < packets.length →
        packet_counter (packets.getD k []) = (self.packet_count - 1 + k) % 65535 + 1
  | [], self, _, _, _, _, _ => ⟨[], self, rfl, rfl, fun k hk => absurd hk (by simp)⟩
  | call :: calls, self, h1, h2, hk, ha, hd => by
    obtain ⟨enc, he, _, b0, b1⟩ := build_packet_eq_some self call.dest call.command call.data
      hk ha (hd call (List.mem_cons_self _ _))
    obtain ⟨packets, self2, hps, hl, hc⟩ := build_packets_counters calls
      { self with packet_count :=
          if self.packet_count + 1 > 0xffff then 1 else self.packet_count + 1 }
      (by show 1 ≤ (if self.packet_count + 1 > 0xffff then 1 else self.packet_count + 1)
          split <;> omega)
      (by show (if self.packet_count + 1 > 0xffff then 1 else self.packet_count + 1) ≤ 65535
          split <;> omega)
      hk ha (fun c hc => hd c (List.mem_cons_of_mem _ hc))
    refine ⟨enc :: packets, self2, ?_, by simp [hl], ?_⟩
    · simp only [build_packets, he, hps]
    · intro k hklt
      cases k with
      | zero =>
        show packet_counter enc = _
        unfold packet_counter
        rw [b0, b1]
        omega
      | succ k =>
        rw [getD_cons_succ_list, hc k (by simpa using hklt)]
        show ((if self.packet_count + 1 > 0xffff then 1 else self.packet_count + 1) - 1 + k) %
          65535 + 1 = _
        split <;> omega

/-- C2: for a device whose packet counter `c` is in 1..65535 (with a 16 byte session key, a
reversed address of at least 3 bytes and payloads of at most 10 bytes), `build_packet` returns
a packet with `c` little-endian in its bytes 0 and 1 and leaves the counter at `c + 1` when
`c < 65535` and at 1 when `c = 65535`; and over successive calls that start from the counter
1 the counter of a packet is never 0, and the counter of the next packet is one more, except
after 65535, where it is 1. -/
theorem build_packet_counter (self : MeshDevice) (calls : List QueuedCommand)
    (h1 : 1 ≤ self.packet_count) (h2 : self.packet_count ≤ 65535)
    (hk : self.session_key.length = 16) (ha : 3 ≤ self.reverse_address.length)
    (hd : ∀ call, call ∈ calls → call.data.length ≤ 10) :
    (∀ (dest command : Nat) (data : List Nat), data.length ≤ 10 →
      ∃ packet self1, self.build_packet dest command data = some (packet, self1) ∧
        packet.getD 0 0 = self.packet_count % 256 ∧
        packet.getD 1 0 = self.packet_count / 256 ∧
        self1.packet_count = if self.packet_count < 65535 then self.packet_count + 1 else 1) ∧
    (self.packet_count = 1 →
      ∃ packets self1, build_packets self calls = some (packets, self1) ∧
        packets.length = calls.length ∧
        (∀ k, k < packets.length → packet_counter (packets.getD k []) ≠ 0) ∧
        (∀ k, k + 1 < packets.length →
          packet_counter (packets.getD (k + 1) []) = packet_counter (packets.getD k []) + 1 ∨
          (packet_counter (packets.getD k []) = 65535 ∧
            packet_counter (packets.getD (k + 1) []) = 1))) := by
  constructor
  · intro dest command data hdata
    obtain ⟨enc, he, _, b0, b1⟩ := build_packet_eq_some self dest command data hk ha hdata
    refine ⟨enc, _, he, b0, ?_, ?_⟩
    · rw [b1]; omega
    · show (if self.packet_count + 1 > 0xffff then 1 else self.packet_count + 1) = _
      split <;> split <;> omega
  · intro hone
    obtain ⟨packets, self1, hps, hl, hc⟩ := build_packets_counters calls self h1 h2 hk ha hd
    refine ⟨packets, self1, hps, hl, ?_, ?_⟩
    · intro k hk
      rw [hc k hk]
      omega
    · intro k hk
      rw [hc k (by omega), hc (k + 1) hk]
      omega

/-- C2 at the example device, whose counter is 1, and two power commands. -/
theorem build_packet_counter_witness :
    (∃ packet self1, example_device.build_packet 5 0xd0 [1, 0, 0] = some (packet, self1) ∧
        packet.getD 0 0 = example_device.packet_count % 256 ∧
        packet.getD 1 0 = example_device.packet_count / 256 ∧
        self1.packet_count =
          if example_device.packet_count < 65535 then example_device.packet_count + 1 else 1) ∧
    (∃ packets self1,
        build_packets example_device
          [QueuedCommand.mk [1, 0, 0] 0xd0 5, QueuedCommand.mk [0, 0, 0] 0xd0 5] =
          some (packets, self1) ∧
        packets.length =
          [QueuedCommand.mk [1, 0, 0] 0xd0 5, QueuedCommand.mk [0, 0, 0] 0xd0 5].length ∧
        (∀ k, k < packets.length → packet_counter (packets.getD k []) ≠ 0) ∧
        (∀ k, k + 1 < packets.length →
          packet_counter (packets.getD (k + 1) []) = packet_counter (packets.getD k []) + 1 ∨
          (packet_counter (packets.getD k []) = 65535 ∧
            packet_counter (packets.getD (k + 1) []) = 1))) :=
  have h := build_packet_counter example_device
    [QueuedCommand.mk [1, 0, 0] 0xd0 5, QueuedCommand.mk [0, 0, 0] 0xd0 5]
    (by decide) (by decide) (by decide) (by decide) (by decide)
  ⟨h.1 5 0xd0 [1, 0, 0] (by decide), h.2 rfl⟩

/-! ## The pairing handshake -/

/-- With a 16 byte session key, a reversed address of at least 3 bytes and a payload of at
most 10 bytes `write_command` returns: the call is recorded in `sent`, the counter advances,
and one 20 byte packet is written to the command characteristic. -/
theorem write_command_eq_some (self : MeshDevice) (command : Nat) (data : List Nat) (dest : Nat)
    (hk : self.session_key.length = 16) (ha : 3 ≤ self.reverse_address.length)
    (hd : data.length ≤ 10) :
    ∃ packet, self.write_command command data dest =
        some { self with
          sent := self.sent ++ [QueuedCommand.mk data command dest],
          packet_count := if self.packet_count + 1 > 0xffff then 1 else self.packet_count + 1,
          written := self.written ++ [(Characteristic.command_char, packet)] } ∧
      packet.length = 20 := by
  obtain ⟨enc, he, le, _⟩ := build_packet_eq_some
    { self with sent := self.sent ++ [QueuedCommand.mk data command dest] }
    dest command data hk ha hd
  refine ⟨enc, ?_, le⟩
  simp only [write_command]
  rw [he]

set_option maxRecDepth 100000 in
/-- C3 fails on the code: when the fourth of the 8 random bytes is 0x00, the string
constructor stops there, `random_key` holds 3 bytes, and the pairing request written to the
pairing characteristic has 12 bytes (0x0C, three random bytes, eight bytes of `key_encrypt`
of the cut random) and not 17. -/
theorem setup_connection_random_with_zero_byte :
    (example_device.setup_connection [0x11, 0x22, 0x33, 0x00, 0x55, 0x66, 0x77, 0x88]).map
        (fun self1 => (self1.random_key, self1.written)) =
      some ([0x11, 0x22, 0x33],
        [(Characteristic.pair_char, [0x0c, 0x11, 0x22, 0x33, 178, 124, 174, 98, 100, 195, 150,
            226]),
         (Characteristic.notification_char, [1, 0])]) := by
  decide

/-- C5: for a local random of 8 bytes and a pairing response of at least 9 bytes whose first
byte is 0x0D (a mesh name and password of at most 16 bytes each, a reversed address of at
least 3 bytes), the read of the pairing characteristic sets `session_key` to `encrypt` with
the key `combined_key` and the 16 byte block made of the 8 bytes of the local random
followed by the bytes 1..8 of the response. -/
theorem pairing_read_session_key (C_REQUEST_STATUS : Nat) (self : MeshDevice)
    (param : ReadCharEvt)
    (hn : self.mesh_name.length ≤ 16) (hp : self.mesh_password.length ≤ 16)
    (ha : 3 ≤ self.reverse_address.length) (hr : self.random_key.length = 8)
    (hconn : param.conn_id_matches = true) (hstatus : param.status_ok = true)
    (hpair : param.handle_is_pair_char = true)
    (hv : 9 ≤ param.value.length) (h0 : param.value.getD 0 0 = 0x0d) :
    ∃ combined_key session_key self1,
      self.combine_name_and_password = some combined_key ∧
      (self.random_key ++ (param.value.drop 1).take 8).length = 16 ∧
      encrypt combined_key (self.random_key ++ (param.value.drop 1).take 8) =
        some session_key ∧
      gattc_event_handler_read_char C_REQUEST_STATUS self param = some self1 ∧
      self1.session_key = session_key := by
  have hc := combine_eq self hn hp
  have hl : (xor_bytes (pad16 self.mesh_name) (pad16 self.mesh_password)).length = 16 := by
    simp [xor_bytes, pad16_length _ hn, pad16_length _ hp]
  have hlen : (self.random_key ++ (param.value.drop 1).take 8).length = 16 := by
    simp only [List.length_append, List.length_take, List.length_drop]
    omega
  obtain ⟨sk, hsk, lsk⟩ := encrypt_eq_some _ (self.random_key ++ (param.value.drop 1).take 8)
    hl (by omega)
  have hgen : self.generate_session_key self.random_key ((param.value.drop 1).take 9) =
      some { self with session_key := sk } := by
    have e1 : self.random_key.take 8 = self.random_key := List.take_of_length_le (by omega)
    have e2 : ((param.value.drop 1).take 9).take 8 = (param.value.drop 1).take 8 := by
      rw [List.take_take]
      rfl
    simp only [generate_session_key, hc, e1, e2, hsk]
  obtain ⟨v0, rest, hval⟩ : ∃ v0 rest, param.value = v0 :: rest := by
    cases hvv : param.value with
    | nil => rw [hvv] at hv; simp at hv
    | cons v0 rest => exact ⟨v0, rest, rfl⟩
  have hv0 : v0 = 0xd := by
    rw [hval] at h0
    simpa using h0
  have hreq : ∃ self1, request_status C_REQUEST_STATUS { self with session_key := sk } =
      some self1 ∧ self1.session_key = sk := by
    unfold request_status
    split
    · obtain ⟨packet, hw, _⟩ := write_command_eq_some { self with session_key := sk }
        C_REQUEST_STATUS [0x10] 0xffff lsk ha (by decide)
      exact ⟨_, hw, rfl⟩
    · exact ⟨_, rfl, rfl⟩
  obtain ⟨self1, hs1, hs1k⟩ := hreq
  refine ⟨_, sk, self1, hc, hlen, hsk, ?_, hs1k⟩
  unfold gattc_event_handler_read_char
  rw [hconn, hstatus, hpair]
  simp only [Bool.not_true, Bool.false_eq_true, if_false, if_true]
  rw [hgen]
  rw [hval] at hgen ⊢
  simp only [hv0, if_true]
  exact hs1

/-- C5 at the example device and the response 0x0D, 0x21, ..., 0x28. -/
theorem pairing_read_session_key_witness :
    ∃ combined_key session_key self1,
      example_device.combine_name_and_password = some combined_key ∧
      (example_device.random_key ++
        (List.drop 1 [0x0d, 0x21, 0x22, 0x23, 0x24, 0x25, 0x26, 0x27, 0x28]).take 8).length =
        16 ∧
      encrypt combined_key (example_device.random_key ++
        (List.drop 1 [0x0d, 0x21, 0x22, 0x23, 0x24, 0x25, 0x26, 0x27, 0x28]).take 8) =
        some session_key ∧
      gattc_event_handler_read_char 0xda example_device
        (ReadCharEvt.mk true true true [0x0d, 0x21, 0x22, 0x23, 0x24, 0x25, 0x26, 0x27, 0x28]) =
        some self1 ∧
      self1.session_key = session_key :=
  pairing_read_session_key 0xda example_device
    (ReadCharEvt.mk true true true [0x0d, 0x21, 0x22, 0x23, 0x24, 0x25, 0x26, 0x27, 0x28])
    (by decide) (by decide) (by decide) (by decide) rfl rfl rfl (by decide) (by decide)

/-! ## The command queue and the pacer -/

/-- What `build_packet` changes: the packet counter only. -/
theorem build_packet_state (self self1 : MeshDevice) (dest command : Nat) (data packet : List Nat)
    (h : self.build_packet dest command data = some (packet, self1)) :
    self1 = { self with packet_count :=
      if self.packet_count + 1 > 0xffff then 1 else self.packet_count + 1 } := by
  simp only [build_packet] at h
  split at h
  · cases h
  · split at h
    · cases h
    · cases h
      rfl

/-- What `write_command` changes: the call is appended to `sent`, a packet to `written`, and
the packet counter advances. -/
theorem write_command_state (self self1 : MeshDevice) (command : Nat) (data : List Nat)
    (dest : Nat) (h : self.write_command command data dest = some self1) :
    ∃ packet, self1 = { self with
      sent := self.sent ++ [QueuedCommand.mk data command dest],
      packet_count := if self.packet_count + 1 > 0xffff then 1 else self.packet_count + 1,
      written := self.written ++ [(Characteristic.command_char, packet)] } := by
  simp only [write_command] at h
  split at h
  · cases h
  · rename_i packet self2 hb
    cases h
    have e := build_packet_state _ _ _ _ _ _ hb
    subst e
    exact ⟨packet, rfl⟩

/-- The packet builder reads the session key, the reversed address and the packet counter of
the device, and nothing else. -/
theorem encrypt_packet_congr (a b : MeshDevice) (packet : List Nat)
    (h1 : a.session_key = b.session_key) (h2 : a.reverse_address = b.reverse_address) :
    a.encrypt_packet packet = b.encrypt_packet packet := by
  simp only [encrypt_packet, h1, h2]

theorem build_packet_congr (a b a1 : MeshDevice) (dest command : Nat) (data packet : List Nat)
    (h : a.build_packet dest command data = some (packet, a1))
    (h1 : a.session_key = b.session_key) (h2 : a.reverse_address = b.reverse_address)
    (h3 : a.packet_count = b.packet_count) :
    ∃ b1, b.build_packet dest command data = some (packet, b1) ∧
      a1.session_key = b1.session_key ∧ a1.reverse_address = b1.reverse_address ∧
      a1.packet_count = b1.packet_count := by
  have ea := build_packet_state _ _ _ _ _ _ h
  simp only [build_packet, h3, encrypt_packet_congr a b _ h1 h2] at h
  split at h
  · cases h
  · rename_i packet1 hcopy
    split at h
    · cases h
    · rename_i enc henc
      cases h
      refine ⟨{ b with packet_count :=
        if b.packet_count + 1 > 0xffff then 1 else b.packet_count + 1 }, ?_, ?_, ?_, ?_⟩
      · simp only [build_packet, hcopy, henc]
      · rw [ea]; exact h1
      · rw [ea]; exact h2
      · rw [ea]; show (if a.packet_count + 1 > 0xffff then 1 else a.packet_count + 1) = _
        rw [h3]

theorem build_packets_congr : ∀ (calls : List QueuedCommand) (a b a1 : MeshDevice)
    (packets : List (List Nat)),
    build_packets a calls = some (packets, a1) →
    a.session_key = b.session_key → a.reverse_address = b.reverse_address →
    a.packet_count = b.packet_count →
    ∃ b1, build_packets b calls = some (packets, b1) ∧
      a1.session_key = b1.session_key ∧ a1.reverse_address = b1.reverse_address ∧
      a1.packet_count = b1.packet_count
  | [], a, b, a1, packets, h, h1, h2, h3 => by
    cases h
    exact ⟨b, rfl, h1, h2, h3⟩
  | call :: calls, a, b, a1, packets, h, h1, h2, h3 => by
    simp only [build_packets] at h
    split at h
    · cases h
    · rename_i packet a2 hb
      split at h
      · cases h
      · rename_i packets1 a3 hbs
        cases h
        obtain ⟨b2, hb2, k1, k2, k3⟩ := build_packet_congr a b a2 _ _ _ _ hb h1 h2 h3
        obtain ⟨b3, hb3, m1, m2, m3⟩ := build_packets_congr calls a2 b2 _ _ hbs k1 k2 k3
        refine ⟨b3, ?_, m1, m2, m3⟩
        simp only [build_packets, hb2, hb3]

/-- The availability loop leaves the pacer alone: it changes `delayed_availability_publish`
and `published` only, and the entries it leaves queued are among those it was given. -/
theorem loop_availability_state (now : Nat) :
    ∀ (l : List PublishOnlineStatus) (self self1 : MeshDevice),
      loop_availability now l self = some self1 →
      self1.command_queue = self.command_queue ∧ self1.sent = self.sent ∧
      self1.session_key = self.session_key ∧ self1.reverse_address = self.reverse_address ∧
      self1.devices_ = self.devices_ ∧ self1.connected = self.connected ∧
      self1.last_send_command = self.last_send_command ∧
      self1.written = self.written ∧ self1.packet_count = self.packet_count ∧
      (∀ p, p ∈ self1.delayed_availability_publish → p ∈ l)
  | [], self, self1, h => by
    cases h
    exact ⟨rfl, rfl, rfl, rfl, rfl, rfl, rfl, rfl, rfl, fun p hp => hp⟩
  | publish :: rest, self, self1, h => by
    simp only [loop_availability] at h
    split at h
    · cases h
      exact ⟨rfl, rfl, rfl, rfl, rfl, rfl, rfl, rfl, rfl, fun p hp => hp⟩
    · split at h
      · cases h
      · rename_i d hd
        split at h
        · simp only [publish_availability, hd] at h
          obtain ⟨h1, h2, h3, h4, h5, h6, h7, h8, hc, h9⟩ :=
            loop_availability_state now rest _ _ h
          exact ⟨h1, h2, h3, h4, h5, h6, h7, h8, hc,
            fun p hp => List.mem_cons_of_mem _ (h9 p hp)⟩
        · obtain ⟨h1, h2, h3, h4, h5, h6, h7, h8, hc, h9⟩ :=
            loop_availability_state now rest _ _ h
          exact ⟨h1, h2, h3, h4, h5, h6, h7, h8, hc,
            fun p hp => List.mem_cons_of_mem _ (h9 p hp)⟩

/-- The availability loop returns when every queued entry refers to a device of `devices_`. -/
theorem loop_availability_eq_some (now : Nat) :
    ∀ (l : List PublishOnlineStatus) (self : MeshDevice),
      (∀ p, p ∈ l → p.device < self.devices_.length) →
      ∃ self1, loop_availability now l self = some self1
  | [], self, _ => ⟨_, rfl⟩
  | publish :: rest, self, hv => by
    have hlt := hv publish (List.mem_cons_self _ _)
    have hrest : ∀ p, p ∈ rest → p.device < self.devices_.length :=
      fun p hp => hv p (List.mem_cons_of_mem _ hp)
    have hget : self.devices_.get? publish.device = some (self.devices_[publish.device]) := by
      simp [List.getElem?_eq_getElem hlt]
    simp only [loop_availability, publish_availability, hget]
    split
    · exact ⟨_, rfl⟩
    · split
      · exact loop_availability_eq_some now rest _ hrest
      · exact loop_availability_eq_some now rest _ hrest

/-- What the pacer changes: either nothing, or the front entry of the queue moves to the end
of `sent`. -/
theorem loop_commands_state (self self1 : MeshDevice) (now : Nat)
    (h : self.loop_commands now = some self1) :
    self1.sent ++ self1.command_queue = self.sent ++ self.command_queue ∧
    self1.session_key = self.session_key ∧ self1.reverse_address = self.reverse_address ∧
    self1.devices_ = self.devices_ ∧
    self1.delayed_availability_publish = self.delayed_availability_publish ∧
    (∀ c, c ∈ self1.command_queue → c ∈ self.command_queue) := by
  unfold loop_commands at h
  split at h
  · cases h
    exact ⟨rfl, rfl, rfl, rfl, rfl, fun c hc => hc⟩
  · rename_i item rest hq
    split at h
    · obtain ⟨packet, e⟩ := write_command_state _ _ _ _ _ h
      subst e
      refine ⟨?_, rfl, rfl, rfl, rfl, ?_⟩
      · show (self.sent ++ [QueuedCommand.mk item.data item.command item.dest]) ++ rest =
          self.sent ++ self.command_queue
        rw [hq, List.append_assoc]
        rfl
      · intro c hc
        rw [hq]
        exact List.mem_cons_of_mem _ hc
    · cases h
      exact ⟨rfl, rfl, rfl, rfl, rfl, fun c hc => hc⟩

/-- What a tick changes on the side of the pacer. -/
theorem loop_state (self self1 : MeshDevice) (now : Nat) (h : self.loop now = some self1) :
    self1.sent ++ self1.command_queue = self.sent ++ self.command_queue ∧
    self1.session_key = self.session_key ∧ self1.reverse_address = self.reverse_address ∧
    self1.devices_ = self.devices_ ∧
    (∀ p, p ∈ self1.delayed_availability_publish → p ∈ self.delayed_availability_publish) ∧
    (∀ c, c ∈ self1.command_queue → c ∈ self.command_queue) := by
  unfold loop at h
  split at h
  · cases h
  · rename_i self2 hc
    obtain ⟨c1, c2, c3, c4, c5, c6⟩ := loop_commands_state _ _ _ hc
    obtain ⟨a1, a2, a3, a4, a5, _, _, _, _, a9⟩ := loop_availability_state _ _ _ _ h
    refine ⟨?_, ?_, ?_, ?_, ?_, ?_⟩
    · rw [a1, a2, c1]
    · rw [a3, c2]
    · rw [a4, c3]
    · rw [a5, c4]
    · intro p hp
      rw [← c5]
      exact a9 p hp
    · intro c hcm
      rw [a1] at hcm
      exact c6 c hcm

/-- A device on which every tick returns: a 16 byte session key, a reversed address of at
least 3 bytes, queued payloads of at most 10 bytes, and queued availability entries that
refer to devices of `devices_`. -/
theorem loop_eq_some (self : MeshDevice) (now : Nat)
    (hk : self.session_key.length = 16) (ha : 3 ≤ self.reverse_address.length)
    (hq : ∀ c, c ∈ self.command_queue → c.data.length ≤ 10)
    (hv : ∀ p, p ∈ self.delayed_availability_publish → p.device < self.devices_.length) :
    ∃ self1, self.loop now = some self1 := by
  have hcmd : ∃ self2, self.loop_commands now = some self2 := by
    unfold loop_commands
    split
    · exact ⟨_, rfl⟩
    · rename_i item rest hqe
      split
      · obtain ⟨packet, hw, _⟩ := write_command_eq_some
          { self with last_send_command := now, command_queue := rest }
          item.command item.data item.dest hk ha
          (hq item (by rw [hqe]; exact List.mem_cons_self _ _))
        exact ⟨_, hw⟩
      · exact ⟨_, rfl⟩
  obtain ⟨self2, h2⟩ := hcmd
  obtain ⟨_, _, _, c4, c5, _⟩ := loop_commands_state _ _ _ h2
  obtain ⟨self1, h1⟩ := loop_availability_eq_some now self2.delayed_availability_publish self2
    (by rw [c4, c5]; exact hv)
  refine ⟨self1, ?_⟩
  unfold loop
  rw [h2]
  exact h1

/-- Over a sequence of events, the dispatched commands followed by the queued ones are the
commands that were there at the start followed by the enqueued ones. -/
theorem run_sent_queue : ∀ (events : List Event) (self self1 : MeshDevice),
    run self events = some self1 →
    self1.sent ++ self1.command_queue = self.sent ++ self.command_queue ++ enqueued events
  | [], self, self1, h => by
    cases h
    simp [enqueued]
  | Event.queue_command command data dest :: events, self, self1, h => by
    have ih := run_sent_queue events _ _ (show run (self.queue_command command data dest) events =
      some self1 from h)
    rw [ih]
    simp [queue_command, enqueued]
  | Event.tick now :: events, self, self1, h => by
    simp only [run] at h
    split at h
    · cases h
    · rename_i self2 hl
      rw [run_sent_queue events _ _ h, (loop_state _ _ _ hl).1]
      rfl
  | Event.connection connected :: events, self, self1, h => by
    have ih := run_sent_queue events _ _ (show run { self with connected := connected } events =
      some self1 from h)
    rw [ih]
    rfl

/-- A sequence of events returns on a device on which every tick returns, when the enqueued
payloads have at most 10 bytes. -/
theorem run_eq_some : ∀ (events : List Event) (self : MeshDevice),
    self.session_key.length = 16 → 3 ≤ self.reverse_address.length →
    (∀ c, c ∈ self.command_queue → c.data.length ≤ 10) →
    (∀ p, p ∈ self.delayed_availability_publish → p.device < self.devices_.length) →
    (∀ c, c ∈ enqueued events → c.data.length ≤ 10) →
    ∃ self1, run self events = some self1
  | [], self, _, _, _, _, _ => ⟨self, rfl⟩
  | Event.queue_command command data dest :: events, self, hk, ha, hq, hv, he => by
    have hdata : data.length ≤ 10 :=
      he (QueuedCommand.mk data command dest) (List.mem_cons_self _ _)
    exact run_eq_some events (self.queue_command command data dest) hk ha
      (by
        intro c hc
        simp only [queue_command, List.mem_append, List.mem_singleton] at hc
        rcases hc with hc | hc
        · exact hq c hc
        · rw [hc]; exact hdata)
      hv (fun c hc => he c (List.mem_cons_of_mem _ hc))
  | Event.tick now :: events, self, hk, ha, hq, hv, he => by
    obtain ⟨self2, hl⟩ := loop_eq_some self now hk ha hq hv
    obtain ⟨_, s2, s3, s4, s5, s6⟩ := loop_state _ _ _ hl
    obtain ⟨self1, h1⟩ := run_eq_some events self2 (by rw [s2]; exact hk) (by rw [s3]; exact ha)
      (fun c hc => hq c (s6 c hc)) (fun p hp => by rw [s4]; exact hv p (s5 p hp)) he
    refine ⟨self1, ?_⟩
    simp only [run, hl]
    exact h1
  | Event.connection connected :: events, self, hk, ha, hq, hv, he =>
    run_eq_some events { self with connected := connected } hk ha hq hv he

/-- What the pacer hands to the transport: either nothing, or the packet `build_packet`
returns for the command it appends to `sent`. -/
theorem loop_commands_written (self self2 : MeshDevice) (now : Nat)
    (h : self.loop_commands now = some self2) :
    self2.session_key = self.session_key ∧ self2.reverse_address = self.reverse_address ∧
    ((self2.sent = self.sent ∧ self2.written = self.written ∧
        self2.packet_count = self.packet_count) ∨
     (∃ item packet s1, self2.sent = self.sent ++ [item] ∧
        self2.written = self.written ++ [(Characteristic.command_char, packet)] ∧
        self.build_packet item.dest item.command item.data = some (packet, s1) ∧
        s1.packet_count = self2.packet_count)) := by
  unfold loop_commands at h
  split at h
  · cases h
    exact ⟨rfl, rfl, Or.inl ⟨rfl, rfl, rfl⟩⟩
  · rename_i item rest hq
    split at h
    · simp only [write_command] at h
      split at h
      · cases h
      · rename_i packet s2 hb
        cases h
        have e := build_packet_state _ _ _ _ _ _ hb
        obtain ⟨s1, hs1, _, _, k3⟩ := build_packet_congr _ self _ _ _ _ _ hb rfl rfl rfl
        subst e
        exact ⟨rfl, rfl, Or.inr ⟨item, packet, s1, rfl, rfl, hs1, k3.symm⟩⟩
    · cases h
      exact ⟨rfl, rfl, Or.inl ⟨rfl, rfl, rfl⟩⟩

/-- What a tick hands to the transport. -/
theorem loop_written (self self1 : MeshDevice) (now : Nat) (h : self.loop now = some self1) :
    self1.session_key = self.session_key ∧ self1.reverse_address = self.reverse_address ∧
    ((self1.sent = self.sent ∧ self1.written = self.written ∧
        self1.packet_count = self.packet_count) ∨
     (∃ item packet s1, self1.sent = self.sent ++ [item] ∧
        self1.written = self.written ++ [(Characteristic.command_char, packet)] ∧
        self.build_packet item.dest item.command item.data = some (packet, s1) ∧
        s1.packet_count = self1.packet_count)) := by
  unfold loop at h
  split at h
  · cases h
  · rename_i self2 hc
    obtain ⟨c1, c2, c3⟩ := loop_commands_written _ _ _ hc
    obtain ⟨_, a2, a3, a4, _, _, _, a8, a9, _⟩ := loop_availability_state _ _ _ _ h
    refine ⟨by rw [a3, c1], by rw [a4, c2], ?_⟩
    rcases c3 with ⟨d1, d2, d3⟩ | ⟨item, packet, s1, d1, d2, d3, d4⟩
    · exact Or.inl ⟨by rw [a2, d1], by rw [a8, d2], by rw [a9, d3]⟩
    · exact Or.inr ⟨item, packet, s1, by rw [a2, d1], by rw [a8, d2], d3, by rw [a9, d4]⟩

/-- Over a sequence of events, the packets written to the command characteristic are the
packets `build_packet` returns for the dispatched commands, in order. -/
theorem run_written : ∀ (events : List Event) (self self1 : MeshDevice),
    run self events = some self1 →
    ∃ dispatched packets st, self1.sent = self.sent ++ dispatched ∧
      self1.written = self.written ++ packets.map (fun p => (Characteristic.command_char, p)) ∧
      build_packets self dispatched = some (packets, st) ∧
      st.session_key = self1.session_key ∧ st.reverse_address = self1.reverse_address ∧
      st.packet_count = self1.packet_count
  | [], self, self1, h => by
    cases h
    exact ⟨[], [], self, by simp, by simp, rfl, rfl, rfl, rfl⟩
  | Event.queue_command command data dest :: events, self, self1, h => by
    obtain ⟨ds, ps, st, e1, e2, e3, e4, e5, e6⟩ := run_written events _ _
      (show run (self.queue_command command data dest) events = some self1 from h)
    obtain ⟨st1, f1, f2, f3, f4⟩ := build_packets_congr ds _ self _ _ e3 rfl rfl rfl
    exact ⟨ds, ps, st1, e1, e2, f1, by rw [← f2, e4], by rw [← f3, e5], by rw [← f4, e6]⟩
  | Event.connection connected :: events, self, self1, h => by
    obtain ⟨ds, ps, st, e1, e2, e3, e4, e5, e6⟩ := run_written events _ _
      (show run { self with connected := connected } events = some self1 from h)
    obtain ⟨st1, f1, f2, f3, f4⟩ := build_packets_congr ds _ self _ _ e3 rfl rfl rfl
    exact ⟨ds, ps, st1, e1, e2, f1, by rw [← f2, e4], by rw [← f3, e5], by rw [← f4, e6]⟩
  | Event.tick now :: events, self, self1, h => by
    simp only [run] at h
    split at h
    · cases h
    · rename_i self2 hl
      obtain ⟨ds, ps, st, e1, e2, e3, e4, e5, e6⟩ := run_written events self2 self1 h
      obtain ⟨k1, k2, k3⟩ := loop_written _ _ _ hl
      rcases k3 with ⟨d1, d2, d3⟩ | ⟨item, packet, s1, d1, d2, d3, d4⟩
      · obtain ⟨st1, f1, f2, f3, f4⟩ := build_packets_congr ds self2 self _ _ e3 k1 k2 d3
        exact ⟨ds, ps, st1, by rw [e1, d1], by rw [e2, d2], f1, by rw [← f2, e4],
          by rw [← f3, e5], by rw [← f4, e6]⟩
      · have es := build_packet_state _ _ _ _ _ _ d3
        obtain ⟨st1, f1, f2, f3, f4⟩ := build_packets_congr ds self2 s1 _ _ e3
          (by rw [k1, es]) (by rw [k2, es]) d4.symm
        refine ⟨item :: ds, packet :: ps, st1, ?_, ?_, ?_, by rw [← f2, e4], by rw [← f3, e5],
          by rw [← f4, e6]⟩
        · rw [e1, d1, List.append_assoc]
          rfl
        · rw [e2, d2, List.append_assoc]
          rfl
        · simp only [build_packets, d3, f1]

/-- C10: from a device with an empty command queue and no dispatched command, after any
sequence of `queue_command` calls, ticks and connection changes, the commands the pacer has
handed to `write_command`, in order, followed by the commands still queued, in order, are the
enqueued commands in the order of their `queue_command` calls, each with its own opcode,
payload and destination: the dispatched commands are a prefix of the enqueued ones, and the
packets written to the command characteristic are the packets `build_packet` returns for the
dispatched commands, one each, in the same order.  With a 16 byte session key, a reversed
address of at least 3 bytes, payloads of at most 10 bytes and availability entries that refer
to known devices, the sequence of events does return. -/
theorem pacer_fifo (self : MeshDevice) (events : List Event)
    (hq : self.command_queue = []) (hs : self.sent = []) :
    (∀ self1, run self events = some self1 →
      self1.sent ++ self1.command_queue = enqueued events ∧
      ∃ packets st, build_packets self self1.sent = some (packets, st) ∧
        self1.written =
          self.written ++ packets.map (fun p => (Characteristic.command_char, p))) ∧
    (self.session_key.length = 16 → 3 ≤ self.reverse_address.length →
      (∀ p, p ∈ self.delayed_availability_publish → p.device < self.devices_.length) →
      (∀ c, c ∈ enqueued events → c.data.length ≤ 10) →
      ∃ self1, run self events = some self1) := by
  constructor
  · intro self1 h
    constructor
    · rw [run_sent_queue events self self1 h, hq, hs]
      rfl
    · obtain ⟨ds, ps, st, e1, e2, e3, _⟩ := run_written events self self1 h
      rw [hs, List.nil_append] at e1
      rw [e1]
      exact ⟨ps, st, e3, e2⟩
  · intro hk ha hv he
    exact run_eq_some events self hk ha (by rw [hq]; intro c hc; cases hc) hv he

/-- C10 at the example device: two commands are enqueued, a tick, a third command, a tick. -/
theorem pacer_fifo_witness :
    (∀ self1, run example_device
        [Event.queue_command 0xd0 [1, 0, 0] 5, Event.queue_command 0xd0 [0, 0, 0] 5,
          Event.tick 1000, Event.queue_command 0xd0 [1, 0, 0] 6, Event.tick 2000] = some self1 →
      self1.sent ++ self1.command_queue = enqueued
        [Event.queue_command 0xd0 [1, 0, 0] 5, Event.queue_command 0xd0 [0, 0, 0] 5,
          Event.tick 1000, Event.queue_command 0xd0 [1, 0, 0] 6, Event.tick 2000] ∧
      ∃ packets st, build_packets example_device self1.sent = some (packets, st) ∧
        self1.written = example_device.written ++
          packets.map (fun p => (Characteristic.command_char, p))) ∧
    ∃ self1, run example_device
        [Event.queue_command 0xd0 [1, 0, 0] 5, Event.queue_command 0xd0 [0, 0, 0] 5,
          Event.tick 1000, Event.queue_command 0xd0 [1, 0, 0] 6, Event.tick 2000] = some self1 :=
  have h := pacer_fifo example_device
    [Event.queue_command 0xd0 [1, 0, 0] 5, Event.queue_command 0xd0 [0, 0, 0] 5,
      Event.tick 1000, Event.queue_command 0xd0 [1, 0, 0] 6, Event.tick 2000] rfl rfl
  ⟨h.1, h.2 (by decide) (by decide) (by decide) (by decide)⟩

set_option maxRecDepth 100000 in
/-- C9 fails on the code below the clock value 120: `millis() - 120` is unsigned and wraps
around, so the guard of the pacer holds at every tick.  On the example device, after the
32 bit clock has wrapped around (the last command went out at 4294967000), with two queued
commands, the tick at 100 dispatches the first command and the tick at 101 dispatches the
second one, 1 time unit later. -/
theorem pacer_dispatches_twice_below_120 :
    (run { example_device with last_send_command := 4294967000 }
        [Event.queue_command 0xd0 [1, 0, 0] 5, Event.queue_command 0xd0 [0, 0, 0] 5,
          Event.tick 100]).map
        (fun self1 => (self1.sent, self1.command_queue, self1.last_send_command,
          self1.written.length)) =
      some ([QueuedCommand.mk [1, 0, 0] 0xd0 5], [QueuedCommand.mk [0, 0, 0] 0xd0 5], 100, 1) ∧
    (run { example_device with last_send_command := 4294967000 }
        [Event.queue_command 0xd0 [1, 0, 0] 5, Event.queue_command 0xd0 [0, 0, 0] 5,
          Event.tick 100, Event.tick 101]).map
        (fun self1 => (self1.sent, self1.command_queue, self1.last_send_command,
          self1.written.length)) =
      some ([QueuedCommand.mk [1, 0, 0] 0xd0 5, QueuedCommand.mk [0, 0, 0] 0xd0 5], [], 101,
        2) := by
  refine ⟨by decide, by decide⟩

/-! ## The ciphertext of `encrypt_packet` -/

/-- C20: with a 16 byte session key, a reversed address of at least 4 bytes and a 20 byte
packet `p`, `encrypt_packet` returns a 20 byte packet whose bytes 0..2 are those of `p` and
whose byte `5 + i`, for `i` in 0..14, is byte `5 + i` of `p` XOR byte `i` of the key stream,
the encryption under the session key of the 16 byte block 0x00, four address bytes, 0x01,
bytes 0..2 of `p`, seven zero bytes; the authenticator pass leaves nothing in bytes 5..19. -/
theorem encrypt_packet_ciphertext (self : MeshDevice) (p : List Nat)
    (hk : self.session_key.length = 16) (ha : 4 ≤ self.reverse_address.length)
    (hp : p.length = 20) :
    ∃ keystream out,
      ([0] ++ self.reverse_address.take 4 ++ [1] ++ p.take 3 ++ List.replicate 7 0).length =
        16 ∧
      encrypt self.session_key ([0] ++ self.reverse_address.take 4 ++ [1] ++ p.take 3 ++
        List.replicate 7 0) = some keystream ∧
      keystream.length = 16 ∧
      self.encrypt_packet p = some out ∧ out.length = 20 ∧
      (∀ j, j < 3 → out.getD j 0 = p.getD j 0) ∧
      (∀ i, i < 15 → out.getD (5 + i) 0 = p.getD (5 + i) 0 ^^^ keystream.getD i 0) := by
  obtain ⟨_, _, _, ks, out, _, _, _, _, hks, he, le, je⟩ :=
    encrypt_packet_bytes self p hk (by omega) hp
  refine ⟨ks, out, ?_, hks, encrypt_length _ _ _ hks, he, le, ?_, ?_⟩
  · simp only [List.length_append, List.length_take, List.length_replicate,
      List.length_singleton]
    omega
  · intro j hj
    rw [je j, if_pos hj]
  · intro i hi
    rw [je (5 + i), if_neg (by omega), if_neg (by omega), if_pos (by omega)]
    simp

/-- C20 at the example device and the plaintext packet of a power command. -/
theorem encrypt_packet_ciphertext_witness :
    ∃ keystream out,
      ([0] ++ example_device.reverse_address.take 4 ++ [1] ++
        [1, 0, 0, 0, 0, 5, 0, 0xd0, 0x60, 0x01, 1, 0, 0, 0, 0, 0, 0, 0, 0, 0].take 3 ++
        List.replicate 7 0).length = 16 ∧
      encrypt example_device.session_key ([0] ++ example_device.reverse_address.take 4 ++ [1] ++
        [1, 0, 0, 0, 0, 5, 0, 0xd0, 0x60, 0x01, 1, 0, 0, 0, 0, 0, 0, 0, 0, 0].take 3 ++
        List.replicate 7 0) = some keystream ∧
      keystream.length = 16 ∧
      example_device.encrypt_packet
        [1, 0, 0, 0, 0, 5, 0, 0xd0, 0x60, 0x01, 1, 0, 0, 0, 0, 0, 0, 0, 0, 0] = some out ∧
      out.length = 20 ∧
      (∀ j, j < 3 → out.getD j 0 =
        [1, 0, 0, 0, 0, 5, 0, 0xd0, 0x60, 0x01, 1, 0, 0, 0, 0, 0, 0, 0, 0, 0].getD j 0) ∧
      (∀ i, i < 15 → out.getD (5 + i) 0 =
        [1, 0, 0, 0, 0, 5, 0, 0xd0, 0x60, 0x01, 1, 0, 0, 0, 0, 0, 0, 0, 0, 0].getD (5 + i) 0 ^^^
          keystream.getD i 0) :=
  encrypt_packet_ciphertext example_device
    [1, 0, 0, 0, 0, 5, 0, 0xd0, 0x60, 0x01, 1, 0, 0, 0, 0, 0, 0, 0, 0, 0]
    (by decide) (by decide) (by decide)

/-! ## The device store and the reports -/

theorem find_if_lt (m : Nat) : ∀ (ds : List Device) (i : Nat), find_if m ds = some i →
    ∃ d, ds.get? i = some d ∧ d.mesh_id = m
  | [], i, h => by cases h
  | d :: ds, i, h => by
    unfold find_if at h
    split at h
    · rename_i hm
      cases h
      exact ⟨d, rfl, hm⟩
    · cases hf : find_if m ds with
      | none => rw [hf] at h; cases h
      | some j =>
        rw [hf] at h
        cases h
        obtain ⟨d1, h1, h2⟩ := find_if_lt m ds j hf
        exact ⟨d1, by simpa using h1, h2⟩

theorem find_if_eq_none (m : Nat) : ∀ (ds : List Device),
    find_if m ds = none ↔ ∀ d, d ∈ ds → d.mesh_id ≠ m
  | [] => by simp [find_if]
  | d :: ds => by
    have ih := find_if_eq_none m ds
    unfold find_if
    by_cases hm : d.mesh_id = m
    · simp [hm]
    · simp only [hm, if_false, Option.map_eq_none', ih, List.mem_cons]
      constructor
      · intro h x hx
        rcases hx with rfl | hx
        · exact hm
        · exact h x hx
      · intro h x hx
        exact h x (Or.inr hx)

/-- The search reads the mesh ids of the store only. -/
theorem find_if_congr (m : Nat) : ∀ (ds ds1 : List Device),
    ds.map Device.mesh_id = ds1.map Device.mesh_id → find_if m ds = find_if m ds1
  | [], [], _ => rfl
  | [], _ :: _, h => by simp at h
  | _ :: _, [], h => by simp at h
  | d :: ds, d1 :: ds1, h => by
    simp only [List.map_cons, List.cons.injEq] at h
    unfold find_if
    rw [h.1, find_if_congr m ds ds1 h.2]

theorem find_if_append_new (m : Nat) (d : Device) (hd : d.mesh_id = m) :
    ∀ (ds : List Device), find_if m ds = none → find_if m (ds ++ [d]) = some ds.length
  | [], _ => by simp [find_if, hd]
  | x :: ds, h => by
    unfold find_if at h
    split at h
    · cases h
    · rename_i hx
      have hn : find_if m ds = none := by
        cases hf : find_if m ds with
        | none => rfl
        | some j => rw [hf] at h; cases h
      simp [find_if, hx, find_if_append_new m d hd ds hn]

theorem map_mesh_id_set (ds : List Device) (i : Nat) (d d1 : Device)
    (h : ds.get? i = some d) (hm : d1.mesh_id = d.mesh_id) :
    (ds.set i d1).map Device.mesh_id = ds.map Device.mesh_id := by
  apply List.ext_getElem
  · simp
  · intro j h1 h2
    simp only [List.getElem_map, List.getElem_set]
    split
    · rename_i hij
      subst hij
      have hlt : i < ds.length := by simpa using h2
      have e : ds[i] = d := by
        have := List.get?_eq_get hlt
        rw [h] at this
        simpa using this.symm
      rw [hm, e]
    · rfl

/-- What `get_device` returns: the position of a device with the mesh id, in a store that is
the old one, or the old one with a new device at its end and a discovery message. -/
theorem get_device_spec (env : Env) (self : MeshDevice) (m : Nat) :
    ∃ i d self1, self.get_device env m = (i, self1) ∧ self1.devices_.get? i = some d ∧
      d.mesh_id = m ∧
      ((find_if m self.devices_ = some i ∧ self1 = self) ∨
       (find_if m self.devices_ = none ∧ i = self.devices_.length ∧
        d = { env.new_Device with mesh_id := m } ∧
        self1 = { self with
          devices_ := self.devices_ ++ [{ env.new_Device with mesh_id := m }],
          published := self.published ++ [Published.discovery m] })) := by
  cases hf : find_if m self.devices_ with
  | some i =>
    obtain ⟨d, h1, h2⟩ := find_if_lt m _ i hf
    refine ⟨i, d, self, ?_, h1, h2, Or.inl ⟨rfl, rfl⟩⟩
    simp only [get_device, hf]
  | none =>
    refine ⟨self.devices_.length, { env.new_Device with mesh_id := m }, _, ?_, ?_, rfl,
      Or.inr ⟨rfl, rfl, rfl, rfl⟩⟩
    · simp only [get_device, hf]
    · simp

/-- What `handle_report` does: it returns; the device `get_device` gives is overwritten, its
state is published, and a change of its online flag is queued with the new flag and the
time. -/
theorem handle_report_spec (env : Env) (self : MeshDevice) (m : Nat) (online : Bool)
    (mode w t c R G B now : Nat) :
    ∃ i d self1, self.get_device env m = (i, self1) ∧ self1.devices_.get? i = some d ∧
      d.mesh_id = m ∧
      self.handle_report env m online mode w t c R G B now =
        some { self1 with
          devices_ := self1.devices_.set i (assign_report d online mode w t c R G B now),
          published := self1.published ++
            [Published.state (assign_report d online mode w t c R G B now)],
          delayed_availability_publish :=
            if d.online = online then self1.delayed_availability_publish
            else self1.delayed_availability_publish ++ [PublishOnlineStatus.mk i online now] } := by
  obtain ⟨i, d, self1, hg, hd, hm, _⟩ := get_device_spec env self m
  refine ⟨i, d, self1, hg, hd, hm, ?_⟩
  have hlt : i < self1.devices_.length := by
    rcases List.get?_eq_some.mp hd with ⟨h, _⟩
    exact h
  simp only [handle_report, hg, hd]
  by_cases ho : d.online = online
  · simp [ho]
  · have hne : (d.online != online) = true := by simpa using ho
    simp only [hne, if_true, ho, if_false, publish_availability]
    have hget : (self1.devices_.set i (assign_report d online mode w t c R G B now)).get? i =
        some (assign_report d online mode w t c R G B now) := by
      simp [hlt]
    simp only [hget]
    rfl

theorem and_one_eq_testBit (m k : Nat) : decide ((m >>> k) &&& 1 = 1) = m.testBit k := by
  unfold Nat.testBit
  rw [Nat.and_comm 1, Nat.and_one_is_mod]
  by_cases h : (m >>> k) % 2 = 1
  · simp [h]
  · have h0 : (m >>> k) % 2 = 0 := by omega
    simp [h0]

theorem and_one_eq_testBit_zero (m : Nat) : decide (m &&& 1 = 1) = m.testBit 0 :=
  and_one_eq_testBit m 0

/-- After `handle_report` the store has, at the position the search gives for the mesh id, the
device with the fields of the report. -/
theorem handle_report_device (env : Env) (self : MeshDevice) (m : Nat) (online : Bool)
    (mode w t c R G B now : Nat) :
    ∃ i d final, self.handle_report env m online mode w t c R G B now = some final ∧
      find_if m final.devices_ = some i ∧
      final.devices_.get? i = some (assign_report d online mode w t c R G B now) ∧
      d.mesh_id = m := by
  obtain ⟨i, d, self1, hg, hd, hm, hcase⟩ := get_device_spec env self m
  obtain ⟨i2, d2, self2, hg2, hd2, _, hr⟩ := handle_report_spec env self m online mode w t c R G B now
  rw [hg] at hg2
  cases hg2
  rw [hd] at hd2
  cases hd2
  have hlt : i < self1.devices_.length := by
    rcases List.get?_eq_some.mp hd with ⟨h, _⟩
    exact h
  refine ⟨i, d, _, hr, ?_, ?_, hm⟩
  · show find_if m (self1.devices_.set i (assign_report d online mode w t c R G B now)) = some i
    rw [find_if_congr m _ self1.devices_ (map_mesh_id_set self1.devices_ i d
      (assign_report d online mode w t c R G B now) hd rfl)]
    rcases hcase with ⟨hf, hs⟩ | ⟨hf, hi, _, hs⟩
    · rw [hs]; exact hf
    · rw [hs, hi]
      exact find_if_append_new m _ rfl _ hf
  · show (self1.devices_.set i (assign_report d online mode w t c R G B now)).get? i = _
    simp [hlt]

theorem handle_packet_online_report (env : Env) (self : MeshDevice) (packet : List Nat)
    (now : Nat) (hl : 20 ≤ packet.length)
    (h7 : packet.getD 7 0 = env.COMMAND_ONLINE_STATUS_REPORT) :
    self.handle_packet env packet now =
      self.handle_report env (packet.getD 19 0 * 256 + packet.getD 10 0)
        (char_gt_zero env.char_signed (packet.getD 11 0)) (packet.getD 12 0)
        (packet.getD 13 0) (packet.getD 14 0) (packet.getD 15 0) (packet.getD 16 0)
        (packet.getD 17 0) (packet.getD 18 0) now := by
  simp only [handle_packet, str_get_of_lt packet 7 (by omega),
    str_get_of_lt packet 19 (by omega), str_get_of_lt packet 10 (by omega),
    str_get_of_lt packet 11 (by omega), str_get_of_lt packet 12 (by omega),
    str_get_of_lt packet 13 (by omega), str_get_of_lt packet 14 (by omega),
    str_get_of_lt packet 15 (by omega), str_get_of_lt packet 16 (by omega),
    str_get_of_lt packet 17 (by omega), str_get_of_lt packet 18 (by omega),
    Option.some_bind, h7, if_true]

theorem handle_packet_status_report (env : Env) (self : MeshDevice) (packet : List Nat)
    (now : Nat) (hl : 17 ≤ packet.length)
    (h7 : packet.getD 7 0 = env.COMMAND_STATUS_REPORT)
    (hne : env.COMMAND_STATUS_REPORT ≠ env.COMMAND_ONLINE_STATUS_REPORT) :
    self.handle_packet env packet now =
      self.handle_report env (packet.getD 4 0 * 256 + packet.getD 3 0) true
        (packet.getD 10 0) (packet.getD 11 0) (packet.getD 12 0) (packet.getD 13 0)
        (packet.getD 14 0) (packet.getD 15 0) (packet.getD 16 0) now := by
  simp only [handle_packet, str_get_of_lt packet 7 (by omega),
    str_get_of_lt packet 3 (by omega), str_get_of_lt packet 4 (by omega),
    str_get_of_lt packet 10 (by omega),
    str_get_of_lt packet 11 (by omega), str_get_of_lt packet 12 (by omega),
    str_get_of_lt packet 13 (by omega), str_get_of_lt packet 14 (by omega),
    str_get_of_lt packet 15 (by omega), str_get_of_lt packet 16 (by omega),
    Option.some_bind, h7, hne, if_true, if_false]

/-- One report, in full: `handle_report` returns; the store has the device of the report at
the position the search gives; a device that was not known is appended and announced before
its state is published; the rest of the device is as before, except for a queued
availability change. -/
theorem handle_report_step (env : Env) (self : MeshDevice) (m : Nat) (online : Bool)
    (mode w t c R G B now : Nat) :
    ∃ final d1 i, self.handle_report env m online mode w t c R G B now = some final ∧
      d1.mesh_id = m ∧ d1.online = online ∧
      find_if m final.devices_ = some i ∧ final.devices_.get? i = some d1 ∧
      final.session_key = self.session_key ∧
      final.reverse_address = self.reverse_address ∧
      final.command_queue = self.command_queue ∧
      ((find_if m self.devices_ = some i ∧
          final.published = self.published ++ [Published.state d1] ∧
          mesh_ids final = mesh_ids self ∧
          ∃ d0, self.devices_.get? i = some d0 ∧
            final.delayed_availability_publish =
              if d0.online = online then self.delayed_availability_publish
              else self.delayed_availability_publish ++
                [PublishOnlineStatus.mk i online now]) ∨
       (find_if m self.devices_ = none ∧
          final.published = self.published ++ [Published.discovery m, Published.state d1] ∧
          mesh_ids final = mesh_ids self ++ [m])) ∧
      (∀ p, p ∈ final.delayed_availability_publish →
        p ∈ self.delayed_availability_publish ∨ p.device < final.devices_.length) := by
  obtain ⟨i, d, self1, hg, hd, hm, hcase⟩ := get_device_spec env self m
  obtain ⟨i2, d2, self2, hg2, hd2, _, hr⟩ :=
    handle_report_spec env self m online mode w t c R G B now
  rw [hg] at hg2
  cases hg2
  rw [hd] at hd2
  cases hd2
  obtain ⟨i3, d3, final, hr3, hf, hget, _⟩ :=
    handle_report_device env self m online mode w t c R G B now
  rw [hr] at hr3
  cases hr3
  have hlt : i < self1.devices_.length := by
    rcases List.get?_eq_some.mp hd with ⟨h, _⟩
    exact h
  have hi3 : i3 = i := by
    have hget2 : (self1.devices_.set i (assign_report d online mode w t c R G B now)).get? i =
        some (assign_report d online mode w t c R G B now) := by simp [hlt]
    have hf2 : find_if m (self1.devices_.set i (assign_report d online mode w t c R G B now)) =
        some i := by
      rw [find_if_congr m _ self1.devices_ (map_mesh_id_set self1.devices_ i d
        (assign_report d online mode w t c R G B now) hd rfl)]
      rcases hcase with ⟨hf0, hs⟩ | ⟨hf0, hi, _, hs⟩
      · rw [hs]; exact hf0
      · rw [hs, hi]
        exact find_if_append_new m _ rfl _ hf0
    have := hf.symm.trans hf2
    exact Option.some.inj this
  subst hi3
  have hids : List.map Device.mesh_id
      (self1.devices_.set i3 (assign_report d online mode w t c R G B now)) =
      List.map Device.mesh_id self1.devices_ :=
    map_mesh_id_set self1.devices_ i3 d (assign_report d online mode w t c R G B now) hd rfl
  refine ⟨_, assign_report d online mode w t c R G B now, i3, hr, hm, rfl, hf, ?_, ?_, ?_, ?_,
    ?_, ?_⟩
  · show (self1.devices_.set i3 (assign_report d online mode w t c R G B now)).get? i3 = _
    simp [hlt]
  · rcases hcase with ⟨_, hs⟩ | ⟨_, _, _, hs⟩ <;> rw [hs]
  · rcases hcase with ⟨_, hs⟩ | ⟨_, _, _, hs⟩ <;> rw [hs]
  · rcases hcase with ⟨_, hs⟩ | ⟨_, _, _, hs⟩ <;> rw [hs]
  · rcases hcase with ⟨hf0, hs⟩ | ⟨hf0, _, _, hs⟩
    · left
      refine ⟨hf0, ?_, ?_, d, ?_, ?_⟩
      · rw [hs]
      · show List.map Device.mesh_id _ = _
        rw [hids, hs]
        rfl
      · rw [← hs]; exact hd
      · rw [hs]
    · right
      refine ⟨hf0, ?_, ?_⟩
      · rw [hs]
        show self.published ++ [Published.discovery m] ++ _ = _
        simp
      · show List.map Device.mesh_id _ = _
        rw [hids, hs]
        simp [mesh_ids]
  · intro p hp
    have hlen : (self1.devices_.set i3 (assign_report d online mode w t c R G B now)).length =
        self1.devices_.length := by simp
    have hp2 : p ∈ self1.delayed_availability_publish ∨
        p = PublishOnlineStatus.mk i3 online now := by
      have hp3 : p ∈ (if d.online = online then self1.delayed_availability_publish
          else self1.delayed_availability_publish ++ [PublishOnlineStatus.mk i3 online now]) := hp
      split at hp3
      · exact Or.inl hp3
      · simpa using hp3
    rcases hp2 with hp2 | hp2
    · left
      rcases hcase with ⟨_, hs⟩ | ⟨_, _, _, hs⟩ <;> rw [hs] at hp2 <;> exact hp2
    · right
      rw [hp2]
      show i3 < (self1.devices_.set i3 (assign_report d online mode w t c R G B now)).length
      rw [hlen]
      exact hlt

/-! ## The decoding of the reports -/

/-- C12: for a packet of at least 20 bytes whose byte 7 is the opcode of the online status
report (plain `char` being unsigned, so that byte 11 is read as a value 0..255), after
`handle_packet` the device with the mesh id byte 19 * 256 + byte 10 exists and has
online = (byte 11 > 0), state, color mode and transition mode = bits 0, 1 and 2 of byte 12,
white brightness, temperature and color brightness = bytes 13, 14 and 15, and R, G, B =
bytes 16, 17 and 18. -/
theorem handle_packet_online_status_report (env : Env) (self : MeshDevice) (packet : List Nat)
    (now : Nat) (hl : 20 ≤ packet.length)
    (h7 : packet.getD 7 0 = env.COMMAND_ONLINE_STATUS_REPORT)
    (hu : env.char_signed = false) :
    ∃ self1 i d, self.handle_packet env packet now = some self1 ∧
      find_if (packet.getD 19 0 * 256 + packet.getD 10 0) self1.devices_ = some i ∧
      self1.devices_.get? i = some d ∧
      d.mesh_id = packet.getD 19 0 * 256 + packet.getD 10 0 ∧
      d.online = decide (0 < packet.getD 11 0) ∧
      d.state = (packet.getD 12 0).testBit 0 ∧
      d.color_mode = (packet.getD 12 0).testBit 1 ∧
      d.transition_mode = (packet.getD 12 0).testBit 2 ∧
      d.white_brightness = packet.getD 13 0 ∧ d.temperature = packet.getD 14 0 ∧
      d.color_brightness = packet.getD 15 0 ∧
      d.R = packet.getD 16 0 ∧ d.G = packet.getD 17 0 ∧ d.B = packet.getD 18 0 := by
  obtain ⟨i, d, final, hr, hf, hg, hm⟩ := handle_report_device env self
    (packet.getD 19 0 * 256 + packet.getD 10 0)
    (char_gt_zero env.char_signed (packet.getD 11 0)) (packet.getD 12 0)
    (packet.getD 13 0) (packet.getD 14 0) (packet.getD 15 0) (packet.getD 16 0)
    (packet.getD 17 0) (packet.getD 18 0) now
  refine ⟨final, i, _, ?_, hf, hg, hm, ?_, ?_, ?_, ?_, rfl, rfl, rfl, rfl, rfl, rfl⟩
  · rw [handle_packet_online_report env self packet now hl h7]
    exact hr
  · show char_gt_zero env.char_signed (packet.getD 11 0) = _
    rw [hu]
    rfl
  · exact and_one_eq_testBit_zero _
  · exact and_one_eq_testBit _ 1
  · exact and_one_eq_testBit _ 2

/-- C12 at the example device: an online status report for the mesh id 0x0105, online byte
0x80, mode byte 5. -/
theorem handle_packet_online_status_report_witness :
    ∃ self1 i d, example_device.handle_packet example_env
        [0, 0, 0, 0, 0, 0, 0, 0xdc, 0, 0, 5, 0x80, 5, 0x7f, 0x10, 0x64, 1, 2, 3, 1] 1000 =
        some self1 ∧
      find_if ([0, 0, 0, 0, 0, 0, 0, 0xdc, 0, 0, 5, 0x80, 5, 0x7f, 0x10, 0x64, 1, 2, 3, 1].getD 19 0
        * 256 +
        [0, 0, 0, 0, 0, 0, 0, 0xdc, 0, 0, 5, 0x80, 5, 0x7f, 0x10, 0x64, 1, 2, 3, 1].getD 10 0)
        self1.devices_ = some i ∧
      self1.devices_.get? i = some d ∧
      d.mesh_id = 0x0105 ∧ d.online = true ∧ d.state = true ∧ d.color_mode = false ∧
      d.transition_mode = true ∧ d.white_brightness = 0x7f ∧ d.temperature = 0x10 ∧
      d.color_brightness = 0x64 ∧ d.R = 1 ∧ d.G = 2 ∧ d.B = 3 :=
  handle_packet_online_status_report example_env example_device
    [0, 0, 0, 0, 0, 0, 0, 0xdc, 0, 0, 5, 0x80, 5, 0x7f, 0x10, 0x64, 1, 2, 3, 1] 1000
    (by decide) (by decide) rfl

/-- C13: for a packet of at least 17 bytes whose byte 7 is the opcode of the status report
(another opcode than the one of the online status report), after `handle_packet` the device
with the mesh id byte 4 * 256 + byte 3 exists and has online = true, state, color mode and
transition mode = bits 0, 1 and 2 of byte 10, white brightness, temperature and color
brightness = bytes 11, 12 and 13, and R, G, B = bytes 14, 15 and 16. -/
theorem handle_packet_status_report_fields (env : Env) (self : MeshDevice) (packet : List Nat)
    (now : Nat) (hl : 17 ≤ packet.length)
    (h7 : packet.getD 7 0 = env.COMMAND_STATUS_REPORT)
    (hne : env.COMMAND_STATUS_REPORT ≠ env.COMMAND_ONLINE_STATUS_REPORT) :
    ∃ self1 i d, self.handle_packet env packet now = some self1 ∧
      find_if (packet.getD 4 0 * 256 + packet.getD 3 0) self1.devices_ = some i ∧
      self1.devices_.get? i = some d ∧
      d.mesh_id = packet.getD 4 0 * 256 + packet.getD 3 0 ∧
      d.online = true ∧
      d.state = (packet.getD 10 0).testBit 0 ∧
      d.color_mode = (packet.getD 10 0).testBit 1 ∧
      d.transition_mode = (packet.getD 10 0).testBit 2 ∧
      d.white_brightness = packet.getD 11 0 ∧ d.temperature = packet.getD 12 0 ∧
      d.color_brightness = packet.getD 13 0 ∧
      d.R = packet.getD 14 0 ∧ d.G = packet.getD 15 0 ∧ d.B = packet.getD 16 0 := by
  obtain ⟨i, d, final, hr, hf, hg, hm⟩ := handle_report_device env self
    (packet.getD 4 0 * 256 + packet.getD 3 0) true (packet.getD 10 0)
    (packet.getD 11 0) (packet.getD 12 0) (packet.getD 13 0) (packet.getD 14 0)
    (packet.getD 15 0) (packet.getD 16 0) now
  refine ⟨final, i, _, ?_, hf, hg, hm, rfl, ?_, ?_, ?_, rfl, rfl, rfl, rfl, rfl, rfl⟩
  · rw [handle_packet_status_report env self packet now hl h7 hne]
    exact hr
  · exact and_one_eq_testBit_zero _
  · exact and_one_eq_testBit _ 1
  · exact and_one_eq_testBit _ 2

/-- C13 at the example device: a status report of 17 bytes for the mesh id 0x0207. -/
theorem handle_packet_status_report_fields_witness :
    ∃ self1 i d, example_device.handle_packet example_env
        [0, 0, 0, 7, 2, 0, 0, 0xdb, 0, 0, 3, 0x40, 0x20, 0x50, 9, 8, 7] 1000 = some self1 ∧
      find_if ([0, 0, 0, 7, 2, 0, 0, 0xdb, 0, 0, 3, 0x40, 0x20, 0x50, 9, 8, 7].getD 4 0 * 256 +
        [0, 0, 0, 7, 2, 0, 0, 0xdb, 0, 0, 3, 0x40, 0x20, 0x50, 9, 8, 7].getD 3 0)
        self1.devices_ = some i ∧
      self1.devices_.get? i = some d ∧
      d.mesh_id = 0x0207 ∧ d.online = true ∧ d.state = true ∧ d.color_mode = true ∧
      d.transition_mode = false ∧ d.white_brightness = 0x40 ∧ d.temperature = 0x20 ∧
      d.color_brightness = 0x50 ∧ d.R = 9 ∧ d.G = 8 ∧ d.B = 7 :=
  handle_packet_status_report_fields example_env example_device
    [0, 0, 0, 7, 2, 0, 0, 0xdb, 0, 0, 3, 0x40, 0x20, 0x50, 9, 8, 7] 1000
    (by decide) (by decide) (by decide)

/-- C17: for a packet of at least 8 bytes whose byte 7 is neither the opcode of the online
status report nor the opcode of the status report, `handle_packet` returns the device as it
was: the device store, every field of its devices, the queue of delayed availability changes
and the published messages are unchanged. -/
theorem handle_packet_unknown_report (env : Env) (self : MeshDevice) (packet : List Nat)
    (now : Nat) (hl : 8 ≤ packet.length)
    (h1 : packet.getD 7 0 ≠ env.COMMAND_ONLINE_STATUS_REPORT)
    (h2 : packet.getD 7 0 ≠ env.COMMAND_STATUS_REPORT) :
    self.handle_packet env packet now = some self ∧
    ∀ self1, self.handle_packet env packet now = some self1 →
      self1.devices_ = self.devices_ ∧
      self1.delayed_availability_publish = self.delayed_availability_publish ∧
      self1.published = self.published := by
  have h : self.handle_packet env packet now = some self := by
    simp only [handle_packet, str_get_of_lt packet 7 (by omega), Option.some_bind, h1, h2,
      if_false]
  refine ⟨h, ?_⟩
  intro self1 hs
  rw [h] at hs
  cases hs
  exact ⟨rfl, rfl, rfl⟩

/-- C17 at the example device: a packet of 8 bytes with the opcode 0xd0. -/
theorem handle_packet_unknown_report_witness :
    example_device.handle_packet example_env [0, 0, 0, 0, 0, 0, 0, 0xd0] 1000 =
      some example_device ∧
    ∀ self1, example_device.handle_packet example_env [0, 0, 0, 0, 0, 0, 0, 0xd0] 1000 =
        some self1 →
      self1.devices_ = example_device.devices_ ∧
      self1.delayed_availability_publish = example_device.delayed_availability_publish ∧
      self1.published = example_device.published :=
  handle_packet_unknown_report example_env example_device [0, 0, 0, 0, 0, 0, 0, 0xd0] 1000
    (by decide) (by decide) (by decide)

/-- The online flag where plain `char` is signed: the comparison `packet[11] > 0` has no cast,
so the online byte 0x80 is read as -128 and the device is set offline.  The ESP32 targets of
the component have an unsigned plain `char`, where C12 applies. -/
theorem handle_packet_online_byte_signed_char :
    (handle_packet { example_env with char_signed := true } example_device
        (example_report 0x80) 1000).map (fun self1 => self1.devices_.map Device.online) =
      some [false] ∧
    (handle_packet example_env example_device (example_report 0x80) 1000).map
        (fun self1 => self1.devices_.map Device.online) = some [true] := by
  refine ⟨by decide, by decide⟩

/-! ## The range conversion -/

theorem round_half_even_intCast (m : ℤ) : round_half_even (m : ℚ) = m := by
  simp [round_half_even]

theorem round_half_even_err (y : ℚ) : |(round_half_even y : ℚ) - y| ≤ 1 / 2 := by
  unfold round_half_even
  have h1 := Int.floor_le y
  have h2 := Int.lt_floor_add_one y
  split_ifs <;> push_cast <;> rw [abs_le] <;> constructor <;> linarith

theorem round_half_away_intCast (m : ℤ) : round_half_away (m : ℚ) = m := by
  unfold round_half_away
  split
  · rw [Int.floor_eq_iff]
    constructor <;> linarith
  · rw [Int.ceil_eq_iff]
    constructor <;> linarith

theorem round_half_away_err (y : ℚ) : |(round_half_away y : ℚ) - y| ≤ 1 / 2 := by
  unfold round_half_away
  split
  · have h1 := Int.floor_le (y + 1 / 2)
    have h2 := Int.lt_floor_add_one (y + 1 / 2)
    rw [abs_le]
    constructor <;> linarith
  · have h1 := Int.le_ceil (y - 1 / 2)
    have h2 := Int.ceil_lt_add_one (y - 1 / 2)
    rw [abs_le]
    constructor <;> linarith

/-- A nonzero value that is an integer multiple of the unit in the last place of its binade
is a `float`. -/
theorem float_round_exact (x : ℚ) (m : ℤ)
    (hm : x = m * (2 : ℚ) ^ (max (Int.log 2 |x|) (-126) - 23))
    (hfin : |x| < (2 : ℚ) ^ (128 : ℕ)) : float_round x = some x := by
  by_cases hx : x = 0
  · simp [float_round, hx]
  · have hu : (2 : ℚ) ^ (max (Int.log 2 |x|) (-126) - 23) ≠ 0 := zpow_ne_zero _ (by norm_num)
    have hd : x / (2 : ℚ) ^ (max (Int.log 2 |x|) (-126) - 23) = m := by
      rw [div_eq_iff hu]
      exact hm
    simp only [float_round, if_neg hx, hd, round_half_even_intCast, ← hm, if_pos hfin]

/-- Rounding to `float` moves a value by at most half a unit in the last place. -/
theorem float_round_err (x : ℚ)
    (h : |x| + (|x| + 1) / 2 ^ (24 : ℕ) < (2 : ℚ) ^ (128 : ℕ)) :
    ∃ r, float_round x = some r ∧ |r - x| ≤ (|x| + 1) / 2 ^ (24 : ℕ) := by
  by_cases hx : x = 0
  · refine ⟨0, by simp [float_round, hx], ?_⟩
    rw [hx]
    norm_num
  · have hpos : 0 < |x| := abs_pos.mpr hx
    have hu : (0 : ℚ) < (2 : ℚ) ^ (max (Int.log 2 |x|) (-126) - 23) := zpow_pos (by norm_num) _
    have he : (2 : ℚ) ^ (max (Int.log 2 |x|) (-126)) ≤ |x| + 1 := by
      rcases max_cases (Int.log 2 |x|) (-126) with ⟨e, _⟩ | ⟨e, _⟩
      · rw [e]
        have := @Int.zpow_log_le_self ℚ _ _ 2 |x| (by norm_num) hpos
        push_cast at this
        linarith
      · rw [e]
        have : (2 : ℚ) ^ (-126 : ℤ) ≤ 1 := by
          apply zpow_le_one_of_nonpos₀ <;> norm_num
        linarith
    have hulp : (2 : ℚ) ^ (max (Int.log 2 |x|) (-126) - 23) =
        (2 : ℚ) ^ (max (Int.log 2 |x|) (-126)) / 2 ^ (23 : ℕ) := by
      rw [zpow_sub₀ (by norm_num)]
      norm_num
    have hr := round_half_even_err (x / (2 : ℚ) ^ (max (Int.log 2 |x|) (-126) - 23))
    have herr : |(round_half_even (x / (2 : ℚ) ^ (max (Int.log 2 |x|) (-126) - 23)) : ℚ) *
        (2 : ℚ) ^ (max (Int.log 2 |x|) (-126) - 23) - x| ≤ (|x| + 1) / 2 ^ (24 : ℕ) := by
      have e1 : (round_half_even (x / (2 : ℚ) ^ (max (Int.log 2 |x|) (-126) - 23)) : ℚ) *
          (2 : ℚ) ^ (max (Int.log 2 |x|) (-126) - 23) - x =
          ((round_half_even (x / (2 : ℚ) ^ (max (Int.log 2 |x|) (-126) - 23)) : ℚ) -
            x / (2 : ℚ) ^ (max (Int.log 2 |x|) (-126) - 23)) *
          (2 : ℚ) ^ (max (Int.log 2 |x|) (-126) - 23) := by
        field_simp
      rw [e1, abs_mul, abs_of_pos hu]
      calc _ ≤ 1 / 2 * (2 : ℚ) ^ (max (Int.log 2 |x|) (-126) - 23) :=
            mul_le_mul_of_nonneg_right hr hu.le
        _ = (2 : ℚ) ^ (max (Int.log 2 |x|) (-126)) / 2 ^ (24 : ℕ) := by
            rw [hulp]
            ring
        _ ≤ (|x| + 1) / 2 ^ (24 : ℕ) := by
            apply div_le_div_of_nonneg_right he
            norm_num
    refine ⟨_, ?_, herr⟩
    have hfin : |(round_half_even (x / (2 : ℚ) ^ (max (Int.log 2 |x|) (-126) - 23)) : ℚ) *
        (2 : ℚ) ^ (max (Int.log 2 |x|) (-126) - 23)| < (2 : ℚ) ^ (128 : ℕ) := by
      have := abs_sub_abs_le_abs_sub
        ((round_half_even (x / (2 : ℚ) ^ (max (Int.log 2 |x|) (-126) - 23)) : ℚ) *
          (2 : ℚ) ^ (max (Int.log 2 |x|) (-126) - 23)) x
      linarith
    simp only [float_round, if_neg hx, if_pos hfin]

/-- An integer of magnitude at most 2^24 is a `float`. -/
theorem float_round_intCast (n : ℤ) (h : |n| ≤ 16777216) : float_round (n : ℚ) = some (n : ℚ) := by
  by_cases hn : n = 0
  · simp [float_round, hn]
  · have habs : |(n : ℚ)| = ((n.natAbs : ℕ) : ℚ) := by
      rw [Nat.cast_natAbs, Int.cast_abs]
    have hb := abs_le.mp h
    have hnat : n.natAbs ≤ 16777216 := by omega
    have hpos : n.natAbs ≠ 0 := by omega
    have hlog : Int.log 2 |(n : ℚ)| = (Nat.log 2 n.natAbs : ℤ) := by
      rw [habs, Int.log_natCast]
    have hk : Nat.log 2 n.natAbs ≤ 24 := by
      have : Nat.log 2 n.natAbs < 25 := Nat.log_lt_of_lt_pow hpos (by norm_num; omega)
      omega
    have hle : 2 ^ Nat.log 2 n.natAbs ≤ n.natAbs := Nat.pow_log_le_self 2 hpos
    have hmax : max (Int.log 2 |(n : ℚ)|) (-126) = (Nat.log 2 n.natAbs : ℤ) := by
      rw [hlog]
      omega
    have hfin : |(n : ℚ)| < (2 : ℚ) ^ (128 : ℕ) := by
      rw [habs]
      have : ((n.natAbs : ℕ) : ℚ) ≤ 16777216 := by exact_mod_cast hnat
      norm_num
      linarith
    by_cases hk2 : Nat.log 2 n.natAbs ≤ 23
    · apply float_round_exact (n : ℚ) (n * 2 ^ (23 - Nat.log 2 n.natAbs)) _ hfin
      rw [hmax]
      push_cast
      rw [mul_assoc, ← zpow_natCast, ← zpow_add₀ (by norm_num)]
      have : ((23 - Nat.log 2 n.natAbs : ℕ) : ℤ) + ((Nat.log 2 n.natAbs : ℤ) - 23) = 0 := by
        omega
      rw [this]
      simp
    · have hk3 : Nat.log 2 n.natAbs = 24 := by omega
      rw [hk3] at hle
      have hn2 : n = 16777216 ∨ n = -16777216 := by
        norm_num at hle
        omega
      apply float_round_exact (n : ℚ) (n / 2) _ hfin
      rw [hmax, hk3]
      rcases hn2 with e | e <;> subst e <;> norm_num

theorem float_round_zero : float_round 0 = some 0 := by
  simp [float_round]

theorem float_to_int_intCast (m : ℤ) (h1 : -2147483648 ≤ m) (h2 : m ≤ 2147483647) :
    float_to_int (m : ℚ) = some m := by
  unfold float_to_int
  simp only [Int.floor_intCast, Int.ceil_intCast, ite_self]
  rw [if_pos ⟨h1, h2⟩]

theorem int_sub_eq_some (a b : ℤ) (h1 : -2147483648 ≤ a - b) (h2 : a - b ≤ 2147483647) :
    int_sub a b = some (a - b) := by
  unfold int_sub
  rw [if_pos ⟨h1, h2⟩]

/-- Whenever `convert_value_to_available_range` has a result, the result is clamped. -/
theorem convert_value_to_available_range_clamp (fused : Bool)
    (value min_from max_from min_to max_to r : ℤ) (ht : min_to ≤ max_to)
    (h : convert_value_to_available_range fused value min_from max_from min_to max_to =
      some r) :
    min_to ≤ r ∧ r ≤ max_to := by
  unfold convert_value_to_available_range at h
  simp only [Option.bind_eq_some] at h
  obtain ⟨_, _, _, _, _, _, _, _, _, _, _, _, _, _, _, _, _, _, _, _, h⟩ := h
  have e := Option.some.inj h
  subst e
  exact ⟨le_max_right _ _, max_le (min_le_right _ _) ht⟩

/-- The expression `a * b + c` for a factor 0 and a `float` `c`. -/
theorem float_mul_add_zero (fused : Bool) (b c : ℚ) (hc : float_round c = some c) :
    float_mul_add fused 0 b c = some c := by
  unfold float_mul_add
  cases fused
  · simp only [Bool.false_eq_true, if_false, float_mul, float_add, zero_mul, float_round_zero,
      Option.some_bind, zero_add, hc]
  · simp only [if_true, zero_mul, zero_add, hc]

/-- The expression `a * b + c` for a factor 1, when `b` and `b + c` are `float`. -/
theorem float_mul_add_one (fused : Bool) (b c : ℚ) (hb : float_round b = some b)
    (hs : float_round (b + c) = some (b + c)) :
    float_mul_add fused 1 b c = some (b + c) := by
  unfold float_mul_add
  cases fused
  · simp only [Bool.false_eq_true, if_false, float_mul, float_add, one_mul, hb,
      Option.some_bind, hs]
  · simp only [if_true, one_mul, hs]

/-- The function at `value = min_from`. -/
theorem convert_value_to_available_range_min (fused : Bool)
    (min_from max_from min_to max_to : ℤ)
    (hf : min_from < max_from) (ht : min_to ≤ max_to)
    (hb : max_from - min_from ≤ 16777216) (hlo : -16777216 ≤ min_to)
    (hhi : max_to ≤ 16777216) (hc : max_to - min_to ≤ 16777216) :
    convert_value_to_available_range fused min_from min_from max_from min_to max_to =
      some min_to := by
  have hbne : ((max_from - min_from : ℤ) : ℚ) ≠ 0 := by
    have : max_from - min_from ≠ 0 := by omega
    exact_mod_cast this
  have hm := float_round_intCast min_to (abs_le.mpr ⟨hlo, by omega⟩)
  unfold convert_value_to_available_range
  rw [int_sub_eq_some min_from min_from (by omega) (by omega),
    int_sub_eq_some max_from min_from (by omega) (by omega),
    int_sub_eq_some max_to min_to (by omega) (by omega)]
  simp only [Option.some_bind, int_to_float, float_div,
    float_round_intCast (max_from - min_from) (abs_le.mpr ⟨by omega, hb⟩),
    float_round_intCast (max_to - min_to) (abs_le.mpr ⟨by omega, hc⟩), hm,
    sub_self, Int.cast_zero, float_round_zero, if_neg hbne, zero_div,
    float_mul_add_zero fused _ _ hm, round_half_away_intCast]
  rw [float_to_int_intCast min_to (by omega) (by omega)]
  simp only [Option.some_bind]
  rw [min_eq_left ht, max_self]

/-- The function at `value = max_from`. -/
theorem convert_value_to_available_range_max (fused : Bool)
    (min_from max_from min_to max_to : ℤ)
    (hf : min_from < max_from) (ht : min_to ≤ max_to)
    (hb : max_from - min_from ≤ 16777216) (hlo : -16777216 ≤ min_to)
    (hhi : max_to ≤ 16777216) (hc : max_to - min_to ≤ 16777216) :
    convert_value_to_available_range fused max_from min_from max_from min_to max_to =
      some max_to := by
  have hbne : ((max_from - min_from : ℤ) : ℚ) ≠ 0 := by
    have : max_from - min_from ≠ 0 := by omega
    exact_mod_cast this
  have hone : float_round 1 = some 1 := by
    have := float_round_intCast 1 (by norm_num)
    simpa using this
  have hsum : ((max_to - min_to : ℤ) : ℚ) + (min_to : ℚ) = (max_to : ℚ) := by
    push_cast
    ring
  have hm := float_round_intCast min_to (abs_le.mpr ⟨hlo, by omega⟩)
  have hcc := float_round_intCast (max_to - min_to) (abs_le.mpr ⟨by omega, hc⟩)
  have hmx := float_round_intCast max_to (abs_le.mpr ⟨by omega, hhi⟩)
  have hma := float_mul_add_one fused ((max_to - min_to : ℤ) : ℚ) (min_to : ℚ) hcc
    (by rw [hsum]; exact hmx)
  rw [hsum] at hma
  unfold convert_value_to_available_range
  rw [int_sub_eq_some max_from min_from (by omega) (by omega),
    int_sub_eq_some max_to min_to (by omega) (by omega)]
  simp only [Option.some_bind, int_to_float, float_div,
    float_round_intCast (max_from - min_from) (abs_le.mpr ⟨by omega, hb⟩), hcc, hm,
    if_neg hbne, div_self hbne, hone, hma, round_half_away_intCast]
  rw [float_to_int_intCast max_to (by omega) (by omega)]
  simp only [Option.some_bind]
  rw [min_self, max_eq_left ht]

theorem scaled_bound (q c n : ℚ) (hc0 : 0 ≤ c) (hc : c ≤ 16777216) (hq : q * c ≤ 1073741824)
    (hn : n ≤ q + (q + 1) / 2 ^ (24 : ℕ)) : n * c ≤ 1073741824 + 65 := by
  have h1 := mul_le_mul_of_nonneg_right hn hc0
  have h2 : (q + (q + 1) / 2 ^ (24 : ℕ)) * c = q * c + (q * c + c) / 16777216 := by
    norm_num
    ring
  rw [h2] at h1
  have h3 : (q * c + c) / 16777216 ≤ 65 := by
    rw [div_le_iff₀ (by norm_num)]
    linarith
  linarith

/-- The function has a result when the bounds are small enough for `float` to hold them
exactly and the scaled value stays away from the ends of `int`. -/
theorem convert_value_to_available_range_eq_some (fused : Bool)
    (value min_from max_from min_to max_to : ℤ) (hf : min_from < max_from) (ht : min_to ≤ max_to)
    (hb : max_from - min_from ≤ 16777216) (hlo : -16777216 ≤ min_to)
    (hhi : max_to ≤ 16777216) (hc : max_to - min_to ≤ 16777216)
    (ha1 : -16777216 ≤ value - min_from) (ha2 : value - min_from ≤ 16777216)
    (hp1 : -(1073741824 * (max_from - min_from)) ≤ (value - min_from) * (max_to - min_to))
    (hp2 : (value - min_from) * (max_to - min_to) ≤ 1073741824 * (max_from - min_from)) :
    ∃ r, convert_value_to_available_range fused value min_from max_from min_to max_to =
      some r := by
  have hbne : ((max_from - min_from : ℤ) : ℚ) ≠ 0 := by
    have : max_from - min_from ≠ 0 := by omega
    exact_mod_cast this
  have hbpos : (0 : ℚ) < ((max_from - min_from : ℤ) : ℚ) := by
    have : 0 < max_from - min_from := by omega
    exact_mod_cast this
  have hb1 : (1 : ℚ) ≤ ((max_from - min_from : ℤ) : ℚ) := by
    have : 1 ≤ max_from - min_from := by omega
    exact_mod_cast this
  have hc0 : (0 : ℚ) ≤ ((max_to - min_to : ℤ) : ℚ) := by
    have : 0 ≤ max_to - min_to := by omega
    exact_mod_cast this
  have hcq : ((max_to - min_to : ℤ) : ℚ) ≤ 16777216 := by exact_mod_cast hc
  have haq : |((value - min_from : ℤ) : ℚ)| ≤ 16777216 := by
    rw [abs_le]
    exact ⟨by exact_mod_cast ha1, by exact_mod_cast ha2⟩
  have hmq : |(min_to : ℚ)| ≤ 16777216 := by
    rw [abs_le]
    have : min_to ≤ 16777216 := by omega
    exact ⟨by exact_mod_cast hlo, by exact_mod_cast this⟩
  -- the quotient
  have hq1 : |((value - min_from : ℤ) : ℚ) / ((max_from - min_from : ℤ) : ℚ)| ≤ 16777216 := by
    rw [abs_div, abs_of_pos hbpos, div_le_iff₀ hbpos]
    calc |((value - min_from : ℤ) : ℚ)| ≤ 16777216 := haq
      _ = 16777216 * 1 := by ring
      _ ≤ 16777216 * ((max_from - min_from : ℤ) : ℚ) := by
        apply mul_le_mul_of_nonneg_left hb1
        norm_num
  have hq2 : |((value - min_from : ℤ) : ℚ) / ((max_from - min_from : ℤ) : ℚ)| *
      ((max_to - min_to : ℤ) : ℚ) ≤ 1073741824 := by
    have hp : |((value - min_from : ℤ) : ℚ)| * ((max_to - min_to : ℤ) : ℚ) ≤
        1073741824 * ((max_from - min_from : ℤ) : ℚ) := by
      rw [← abs_of_nonneg hc0, ← abs_mul, abs_le]
      constructor
      · exact_mod_cast hp1
      · exact_mod_cast hp2
    rw [abs_div, abs_of_pos hbpos, div_mul_eq_mul_div, div_le_iff₀ hbpos]
    exact hp
  obtain ⟨normalized, hn, hne⟩ := float_round_err
    (((value - min_from : ℤ) : ℚ) / ((max_from - min_from : ℤ) : ℚ))
    (by norm_num at hq1 ⊢; linarith)
  have hn1 : |normalized| ≤
      |((value - min_from : ℤ) : ℚ) / ((max_from - min_from : ℤ) : ℚ)| +
      (|((value - min_from : ℤ) : ℚ) / ((max_from - min_from : ℤ) : ℚ)| + 1) /
        2 ^ (24 : ℕ) := by
    have := abs_sub_abs_le_abs_sub normalized
      (((value - min_from : ℤ) : ℚ) / ((max_from - min_from : ℤ) : ℚ))
    linarith
  -- the product
  have hx : |normalized * ((max_to - min_to : ℤ) : ℚ)| ≤ 1073741824 + 65 := by
    rw [abs_mul, abs_of_nonneg hc0]
    exact scaled_bound _ _ _ hc0 hcq hq2 hn1
  -- the product and the sum
  have hma : ∃ sum, float_mul_add fused normalized ((max_to - min_to : ℤ) : ℚ) (min_to : ℚ) =
      some sum ∧ |sum| ≤ 1073741824 + 16777216 + 196 := by
    cases fused
    · obtain ⟨product, hpr, hpe⟩ := float_round_err
        (normalized * ((max_to - min_to : ℤ) : ℚ)) (by norm_num at hx ⊢; linarith)
      have hp3 : |product| ≤ 1073741824 + 130 := by
        have := abs_sub_abs_le_abs_sub product (normalized * ((max_to - min_to : ℤ) : ℚ))
        norm_num at hx hpe this ⊢
        linarith
      have hy : |product + (min_to : ℚ)| ≤ 1073741824 + 130 + 16777216 :=
        (abs_add _ _).trans (by linarith)
      obtain ⟨sum, hs, hse⟩ := float_round_err (product + (min_to : ℚ))
        (by norm_num at hy ⊢; linarith)
      refine ⟨sum, ?_, ?_⟩
      · simp only [float_mul_add, Bool.false_eq_true, if_false, float_mul, float_add, hpr,
          Option.some_bind, hs]
      · have := abs_sub_abs_le_abs_sub sum (product + (min_to : ℚ))
        norm_num at hy hse this ⊢
        linarith
    · have hy : |normalized * ((max_to - min_to : ℤ) : ℚ) + (min_to : ℚ)| ≤
          1073741824 + 65 + 16777216 := (abs_add _ _).trans (by linarith)
      obtain ⟨sum, hs, hse⟩ := float_round_err
        (normalized * ((max_to - min_to : ℤ) : ℚ) + (min_to : ℚ))
        (by norm_num at hy ⊢; linarith)
      refine ⟨sum, ?_, ?_⟩
      · simp only [float_mul_add, if_true, hs]
      · have := abs_sub_abs_le_abs_sub sum
          (normalized * ((max_to - min_to : ℤ) : ℚ) + (min_to : ℚ))
        norm_num at hy hse this ⊢
        linarith
  obtain ⟨sum, hs, hs3⟩ := hma
  -- the rounding and the conversion
  have hr := round_half_away_err sum
  have hr3 : |(round_half_away sum : ℚ)| ≤ 2147483647 := by
    have := abs_sub_abs_le_abs_sub (round_half_away sum : ℚ) sum
    norm_num at hs3 ⊢
    linarith
  have hr4 : -2147483648 ≤ round_half_away sum ∧ round_half_away sum ≤ 2147483647 := by
    rw [abs_le] at hr3
    constructor
    · have : (-2147483648 : ℚ) ≤ (round_half_away sum : ℚ) := by linarith
      exact_mod_cast this
    · exact_mod_cast hr3.2
  refine ⟨max (min (round_half_away sum) max_to) min_to, ?_⟩
  unfold convert_value_to_available_range
  rw [int_sub_eq_some value min_from (by omega) (by omega),
    int_sub_eq_some max_from min_from (by omega) (by omega),
    int_sub_eq_some max_to min_to (by omega) (by omega)]
  simp only [Option.some_bind, int_to_float, float_div,
    float_round_intCast (value - min_from) (abs_le.mpr ⟨ha1, ha2⟩),
    float_round_intCast (max_from - min_from) (abs_le.mpr ⟨by omega, hb⟩),
    float_round_intCast (max_to - min_to) (abs_le.mpr ⟨by omega, hc⟩),
    float_round_intCast min_to (abs_le.mpr ⟨hlo, by omega⟩),
    if_neg hbne, hn, hs, float_to_int_intCast _ hr4.1 hr4.2]

/-- The function has a result for every value between the bounds, when the bounds are small
enough for `float` to hold them exactly. -/
theorem convert_value_to_available_range_in_range (fused : Bool)
    (value min_from max_from min_to max_to : ℤ) (hf : min_from < max_from)
    (ht : min_to ≤ max_to) (hb : max_from - min_from ≤ 16777216) (hlo : -16777216 ≤ min_to)
    (hhi : max_to ≤ 16777216) (hc : max_to - min_to ≤ 16777216)
    (h1 : min_from ≤ value) (h2 : value ≤ max_from) :
    ∃ r, convert_value_to_available_range fused value min_from max_from min_to max_to =
      some r := by
  have ha0 : 0 ≤ value - min_from := by omega
  have hc0 : 0 ≤ max_to - min_to := by omega
  have hab : value - min_from ≤ max_from - min_from := by omega
  have hb0 : 0 ≤ max_from - min_from := by omega
  have hp0 : 0 ≤ (value - min_from) * (max_to - min_to) := mul_nonneg ha0 hc0
  have hp1 : (value - min_from) * (max_to - min_to) ≤
      (max_from - min_from) * 16777216 := mul_le_mul hab hc hc0 hb0
  exact convert_value_to_available_range_eq_some fused value min_from max_from min_to max_to
    hf ht hb hlo hhi hc (by omega) (by omega) (by omega) (by omega)

theorem round_half_even_near (y : ℚ) (m : ℤ) (h1 : (m : ℚ) - 1 / 2 < y)
    (h2 : y < (m : ℚ) + 1 / 2) : round_half_even y = m := by
  unfold round_half_even
  by_cases c : (m : ℚ) ≤ y
  · have hfl : ⌊y⌋ = m := by
      rw [Int.floor_eq_iff]
      exact ⟨c, by linarith⟩
    rw [hfl, if_pos (by linarith)]
  · have hfl : ⌊y⌋ = m - 1 := by
      rw [Int.floor_eq_iff]
      push_cast
      exact ⟨by linarith, by linarith⟩
    rw [hfl]
    push_cast
    rw [if_neg (by linarith), if_pos (by linarith)]
    ring

theorem round_half_even_tie (y : ℚ) (m : ℤ) (h : y = (m : ℚ) + 1 / 2) (hm : m % 2 = 0) :
    round_half_even y = m := by
  unfold round_half_even
  have hfl : ⌊y⌋ = m := by
    rw [Int.floor_eq_iff]
    exact ⟨by linarith, by linarith⟩
  rw [hfl, if_neg (by linarith), if_neg (by linarith), if_pos hm]

/-- The `float` of a positive value, from its binade and its rounded significand. -/
theorem float_round_eval (x : ℚ) (e m : ℤ) (h1 : (2 : ℚ) ^ e ≤ x) (h2 : x < (2 : ℚ) ^ (e + 1))
    (he : -126 ≤ e) (hm : round_half_even (x / (2 : ℚ) ^ (e - 23)) = m) (hm0 : 0 ≤ m)
    (hlt : (m : ℚ) * (2 : ℚ) ^ (e - 23) < (2 : ℚ) ^ (128 : ℕ)) :
    float_round x = some ((m : ℚ) * (2 : ℚ) ^ (e - 23)) := by
  have hfin : |(m : ℚ) * (2 : ℚ) ^ (e - 23)| < (2 : ℚ) ^ (128 : ℕ) := by
    rw [abs_of_nonneg (mul_nonneg (by exact_mod_cast hm0) (zpow_pos (by norm_num) _).le)]
    exact hlt
  have hpos : 0 < x := lt_of_lt_of_le (zpow_pos (by norm_num) e) h1
  have hlog : Int.log 2 |x| = e := by
    rw [abs_of_pos hpos]
    have a1 : e ≤ Int.log 2 x := by
      rw [← Int.zpow_le_iff_le_log (by norm_num) hpos]
      exact_mod_cast h1
    have a2 : Int.log 2 x < e + 1 := by
      rw [← Int.lt_zpow_iff_log_lt (by norm_num) hpos]
      exact_mod_cast h2
    omega
  have hmax : max (Int.log 2 |x|) (-126) = e := by
    rw [hlog]
    omega
  simp only [float_round, if_neg hpos.ne', hmax, hm, if_pos hfin]

theorem round_half_away_eval (y : ℚ) (m : ℤ) (h0 : 0 ≤ y) (h1 : (m : ℚ) - 1 / 2 ≤ y)
    (h2 : y < (m : ℚ) + 1 / 2) : round_half_away y = m := by
  unfold round_half_away
  rw [if_pos h0, Int.floor_eq_iff]
  exact ⟨by linarith, by linarith⟩

theorem float_round_one : float_round 1 = some 1 := by
  have := float_round_intCast 1 (by norm_num)
  simpa using this

/-- The `float` nearest to 16777217 = 2^24 + 1 is 16777216. -/
theorem float_round_16777217 : float_round 16777217 = some 16777216 := by
  have h := float_round_eval 16777217 24 8388608 (by norm_num) (by norm_num) (by norm_num)
    (round_half_even_tie _ 8388608 (by norm_num) (by norm_num)) (by norm_num) (by norm_num)
  rw [h]
  norm_num


theorem float_round_16777216 : float_round 16777216 = some 16777216 := by
  have := float_round_intCast 16777216 (by norm_num)
  simpa using this

/-- The `float` arithmetic is not the exact one: for the value 7 from the range 0..12 to the
range 0..54 the function returns 31 (the quotient 7/12 is rounded down to a `float`, and the
product with 54 stays below 31.5), where the exact value 31.5 rounds to 32. -/
theorem convert_value_to_available_range_7_12_54 (fused : Bool) :
    convert_value_to_available_range fused 7 0 12 0 54 = some 31 ∧
    round_half_away ((7 : ℚ) / 12 * 54 + 0) = 32 := by
  constructor
  · have hne : ¬ ((12 : ℚ) = 0) := by norm_num
    have hs7 : int_sub 7 0 = some 7 := by
      have := int_sub_eq_some 7 0 (by norm_num) (by norm_num)
      simpa using this
    have hs12 : int_sub 12 0 = some 12 := by
      have := int_sub_eq_some 12 0 (by norm_num) (by norm_num)
      simpa using this
    have hs54 : int_sub 54 0 = some 54 := by
      have := int_sub_eq_some 54 0 (by norm_num) (by norm_num)
      simpa using this
    have h7 : int_to_float 7 = some 7 := by
      have := float_round_intCast 7 (by norm_num)
      unfold int_to_float
      simpa using this
    have h12 : int_to_float 12 = some 12 := by
      have := float_round_intCast 12 (by norm_num)
      unfold int_to_float
      simpa using this
    have h54 : int_to_float 54 = some 54 := by
      have := float_round_intCast 54 (by norm_num)
      unfold int_to_float
      simpa using this
    have h0 : int_to_float 0 = some 0 := by
      unfold int_to_float
      simpa using float_round_zero
    have hq : float_div 7 12 = some (9786709 / 16777216) := by
      have h := float_round_eval (7 / 12) (-1) 9786709 (by norm_num) (by norm_num)
        (by norm_num) (round_half_even_near _ 9786709 (by norm_num) (by norm_num))
        (by norm_num) (by norm_num)
      unfold float_div
      rw [if_neg hne, h]
      norm_num
    have hp : float_round (9786709 / 16777216 * 54) = some (16515071 / 524288) := by
      have h := float_round_eval (9786709 / 16777216 * 54) 4 16515071 (by norm_num)
        (by norm_num) (by norm_num)
        (round_half_even_near _ 16515071 (by norm_num) (by norm_num)) (by norm_num)
        (by norm_num)
      rw [h]
      norm_num
    have ha : float_round (16515071 / 524288) = some (16515071 / 524288) := by
      have h := float_round_eval (16515071 / 524288) 4 16515071 (by norm_num)
        (by norm_num) (by norm_num)
        (round_half_even_near _ 16515071 (by norm_num) (by norm_num)) (by norm_num)
        (by norm_num)
      rw [h]
      norm_num
    have hma : float_mul_add fused (9786709 / 16777216) 54 0 = some (16515071 / 524288) := by
      unfold float_mul_add
      cases fused
      · simp only [Bool.false_eq_true, if_false, float_mul, float_add, hp, Option.some_bind,
          add_zero, ha]
      · simp only [if_true, add_zero, hp]
    have hi : float_to_int ((round_half_away (16515071 / 524288) : ℤ) : ℚ) = some 31 := by
      have hr : round_half_away (16515071 / 524288) = 31 :=
        round_half_away_eval _ 31 (by norm_num) (by norm_num) (by norm_num)
      rw [hr]
      exact float_to_int_intCast 31 (by norm_num) (by norm_num)
    unfold convert_value_to_available_range
    simp only [Option.bind_eq_some]
    exact ⟨_, hs7, _, h7, _, hs12, _, h12, _, hq, _, hs54, _, h54, _, h0, _, hma, _, hi,
      by norm_num⟩
  · exact round_half_away_eval _ 32 (by norm_num) (by norm_num) (by norm_num)

/-- The end point that `float` misses, for either evaluation of the product and the sum. -/
theorem convert_value_to_available_range_16777217 (fused : Bool) :
    convert_value_to_available_range fused 16777217 0 16777217 0 16777217 =
      some 16777216 := by
  have hne : ¬ ((16777216 : ℚ) = 0) := by norm_num
  have hs : int_sub 16777217 0 = some 16777217 := by
    have := int_sub_eq_some 16777217 0 (by norm_num) (by norm_num)
    simpa using this
  have hf : int_to_float 16777217 = some 16777216 := by
    unfold int_to_float
    have := float_round_16777217
    simpa using this
  have hf0 : int_to_float 0 = some 0 := by
    unfold int_to_float
    simpa using float_round_zero
  have hd : float_div 16777216 16777216 = some 1 := by
    unfold float_div
    rw [if_neg hne, div_self hne]
    exact float_round_one
  have hma : float_mul_add fused 1 16777216 0 = some 16777216 := by
    have := float_mul_add_one fused 16777216 0 float_round_16777216
      (by rw [add_zero]; exact float_round_16777216)
    rw [add_zero] at this
    exact this
  have hi : float_to_int ((round_half_away 16777216 : ℤ) : ℚ) = some 16777216 := by
    have hr : round_half_away 16777216 = 16777216 := by
      have := round_half_away_intCast 16777216
      simpa using this
    rw [hr]
    exact float_to_int_intCast 16777216 (by norm_num) (by norm_num)
  unfold convert_value_to_available_range
  simp only [Option.bind_eq_some]
  exact ⟨_, hs, _, hf, _, hs, _, hf, _, hd, _, hs, _, hf, _, hf0, _, hma, _, hi,
    by norm_num⟩

/-- C15, as the code has it: for every integer value (inside or outside
`[min_from, max_from]`) and all bounds with `min_from < max_from` and `min_to ≤ max_to`,
whenever `convert_value_to_available_range` has a result, the result lies in
`[min_to, max_to]`.  When moreover `max_from - min_from`, `max_to - min_to` and the
magnitudes of `min_to` and `max_to` are at most 2^24 = 16777216 (`float` holds such integers
exactly), the function returns `min_to` at `value = min_from` and `max_to` at
`value = max_from`, it has a result for every value in `[min_from, max_from]`, and more
generally for every value with `|value - min_from| ≤ 2^24` and
`|value - min_from| * (max_to - min_to) ≤ 2^30 * (max_from - min_from)`.  The arithmetic is
that of `float`, every operation rounded, whether or not the product and the sum are
fused. -/
theorem convert_value_to_available_range_bounds (fused : Bool)
    (value min_from max_from min_to max_to : ℤ)
    (hf : min_from < max_from) (ht : min_to ≤ max_to) :
    (∀ r, convert_value_to_available_range fused value min_from max_from min_to max_to =
        some r → min_to ≤ r ∧ r ≤ max_to) ∧
    (max_from - min_from ≤ 16777216 → -16777216 ≤ min_to → max_to ≤ 16777216 →
      max_to - min_to ≤ 16777216 →
      convert_value_to_available_range fused min_from min_from max_from min_to max_to =
        some min_to ∧
      convert_value_to_available_range fused max_from min_from max_from min_to max_to =
        some max_to ∧
      (min_from ≤ value → value ≤ max_from →
        ∃ r, convert_value_to_available_range fused value min_from max_from min_to max_to =
          some r) ∧
      (-16777216 ≤ value - min_from → value - min_from ≤ 16777216 →
        -(1073741824 * (max_from - min_from)) ≤ (value - min_from) * (max_to - min_to) →
        (value - min_from) * (max_to - min_to) ≤ 1073741824 * (max_from - min_from) →
        ∃ r, convert_value_to_available_range fused value min_from max_from min_to max_to =
          some r)) := by
  refine ⟨fun r h => convert_value_to_available_range_clamp fused _ _ _ _ _ r ht h, ?_⟩
  intro hb hlo hhi hc
  exact ⟨convert_value_to_available_range_min fused _ _ _ _ hf ht hb hlo hhi hc,
    convert_value_to_available_range_max fused _ _ _ _ hf ht hb hlo hhi hc,
    fun h1 h2 =>
      convert_value_to_available_range_in_range fused _ _ _ _ _ hf ht hb hlo hhi hc h1 h2,
    fun ha1 ha2 hp1 hp2 =>
      convert_value_to_available_range_eq_some fused _ _ _ _ _ hf ht hb hlo hhi hc ha1 ha2
        hp1 hp2⟩

/-- C15, as the code has it, at the conversions of the source: the white brightness 64 from
the range 1..0x7f of the device to the range 0..255, and the brightness 300, outside the
range 0..255, to the range 1..0x7f. -/
theorem convert_value_to_available_range_bounds_witness :
    ((1 : ℤ) < 0x7f ∧ (0 : ℤ) ≤ 255) ∧
    (∃ r, convert_value_to_available_range false 64 1 0x7f 0 255 = some r ∧
      0 ≤ r ∧ r ≤ 255) ∧
    convert_value_to_available_range false 1 1 0x7f 0 255 = some 0 ∧
    convert_value_to_available_range false 0x7f 1 0x7f 0 255 = some 255 ∧
    ((0 : ℤ) < 255 ∧ (1 : ℤ) ≤ 0x7f) ∧
    (∃ r, convert_value_to_available_range true 300 0 255 1 0x7f = some r ∧
      1 ≤ r ∧ r ≤ 0x7f) := by
  have h := convert_value_to_available_range_bounds false 64 1 0x7f 0 255 (by decide)
    (by decide)
  obtain ⟨hmin, hmax, hin, _⟩ := h.2 (by decide) (by decide) (by decide) (by decide)
  obtain ⟨r, hr⟩ := hin (by decide) (by decide)
  have g := convert_value_to_available_range_bounds true 300 0 255 1 0x7f (by decide)
    (by decide)
  obtain ⟨_, _, _, hout⟩ := g.2 (by decide) (by decide) (by decide) (by decide)
  obtain ⟨q, hq⟩ := hout (by decide) (by decide) (by decide) (by decide)
  exact ⟨⟨by decide, by decide⟩, ⟨r, hr, h.1 r hr⟩, hmin, hmax, ⟨by decide, by decide⟩,
    ⟨q, hq, g.1 q hq⟩⟩

/-- C15 as stated fails on the `float` arithmetic of the code: with `min_from = 0 <
max_from = 16777217` and `min_to = 0 ≤ max_to = 16777217` the function returns 16777216 at
`value = max_from`, not `max_to` (the `float` nearest to 16777217 = 2^24 + 1 is 16777216),
whether or not the product and the sum are fused. -/
theorem convert_value_to_available_range_end_point_missed :
    (0 : ℤ) < 16777217 ∧ (0 : ℤ) ≤ 16777217 ∧
    convert_value_to_available_range false 16777217 0 16777217 0 16777217 = some 16777216 ∧
    convert_value_to_available_range true 16777217 0 16777217 0 16777217 = some 16777216 ∧
    (16777216 : ℤ) ≠ 16777217 :=
  ⟨by norm_num, by norm_num, convert_value_to_available_range_16777217 false,
    convert_value_to_available_range_16777217 true, by norm_num⟩

/-! ## The length of a decrypted packet -/

set_option maxRecDepth 100000 in
/-- C16 fails on the code for long packets: the loop of `decrypt_packet` runs over
`packet.size() - 7` bytes and indexes the 16 byte key stream with the same counter.  For a
packet of 24 bytes byte 23 is XORed with `result[16]`, the terminator of the string and no
key stream byte (the byte stays 9); for a packet of 25 bytes the loop reads `result[17]`, past
the end of the key stream string, and the call has no defined result. -/
theorem decrypt_packet_25_bytes_out_of_range :
    (example_device.decrypt_packet
        [1, 0, 0, 217, 242, 5, 0, 0xdc, 0, 0, 5, 1, 1, 0x7f, 0x10, 0x64, 1, 2, 3, 0, 9, 9, 9,
          9]).map (fun out => out.getD 23 0) = some 9 ∧
    example_device.decrypt_packet
        [1, 0, 0, 217, 242, 5, 0, 0xdc, 0, 0, 5, 1, 1, 0x7f, 0x10, 0x64, 1, 2, 3, 0, 9, 9, 9, 9,
          9] = none := by
  refine ⟨by decide, by decide⟩

/-! ## The guard of the pacer -/

/-- The guard of the pacer at a clock value from 120 on (below 2^32): it holds when the
device is connected and more than 120 time units have passed since the last dispatch. -/
theorem loop_commands_cases (self : MeshDevice) (now : Nat) (h120 : 120 ≤ now)
    (h32 : now < 4294967296) :
    (∀ item rest, self.command_queue = item :: rest → self.connected = true →
      120 < now - self.last_send_command →
      self.loop_commands now =
        write_command { self with last_send_command := now, command_queue := rest }
          item.command item.data item.dest) ∧
    (¬ (self.connected = true ∧ self.command_queue ≠ [] ∧
        120 < now - self.last_send_command) → self.loop_commands now = some self) := by
  have e : (now + 4294967296 - 120) % 4294967296 = now - 120 := by omega
  constructor
  · intro item rest hq hc ht
    have hg : self.connected = true ∧ self.last_send_command < now - 120 := ⟨hc, by omega⟩
    simp only [loop_commands, hq, e, hg, and_self, if_true]
  · intro hn
    unfold loop_commands
    split
    · rfl
    · rename_i item rest hq
      have hg : ¬ (self.connected = true ∧ self.last_send_command < now - 120) := by
        intro ⟨hc, ht⟩
        exact hn ⟨hc, by rw [hq]; simp, by omega⟩
      rw [e, if_neg hg]

/-- C18, as the code has it: at a clock value `now` from 120 on that is not before the last
dispatch (`last_send_command ≤ now`: the 32 bit clock has not wrapped since, so that
`now - last_send_command` is the time that has passed), a tick dispatches a command exactly
when the connection is active, the command queue is not empty and more than 120 time units
have passed since the last dispatch (`now - last_send_command > 120`; at exactly 120 nothing
is dispatched).  In that case it removes the front entry of the queue, hands that entry to
`write_command`, which writes its packet, and sets `last_send_command` to `now`; otherwise the
queue, `last_send_command` and what was sent are unchanged.  With a 16 byte session key, a
reversed address of at least 3 bytes, queued payloads of at most 10 bytes and availability
entries that refer to known devices, the tick does return. -/
theorem loop_pacer_guard (self : MeshDevice) (now : Nat) (h120 : 120 ≤ now)
    (h32 : now < 4294967296) (hlast : self.last_send_command ≤ now) :
    (∀ self1, self.loop now = some self1 →
      ((self.connected = true ∧ self.command_queue ≠ [] ∧
          120 < now - self.last_send_command) →
        ∃ item rest packet, self.command_queue = item :: rest ∧
          self1.command_queue = rest ∧ self1.sent = self.sent ++ [item] ∧
          self1.written = self.written ++ [(Characteristic.command_char, packet)] ∧
          self1.last_send_command = now) ∧
      (¬ (self.connected = true ∧ self.command_queue ≠ [] ∧
          120 < now - self.last_send_command) →
        self1.command_queue = self.command_queue ∧ self1.sent = self.sent ∧
        self1.written = self.written ∧
        self1.last_send_command = self.last_send_command)) ∧
    (self.session_key.length = 16 → 3 ≤ self.reverse_address.length →
      (∀ c, c ∈ self.command_queue → c.data.length ≤ 10) →
      (∀ p, p ∈ self.delayed_availability_publish → p.device < self.devices_.length) →
      ∃ self1, self.loop now = some self1) := by
  obtain ⟨hyes, hno⟩ := loop_commands_cases self now h120 h32
  have hpassed : self.last_send_command + (now - self.last_send_command) = now := by omega
  constructor
  · intro self1 h
    unfold loop at h
    split at h
    · cases h
    · rename_i self2 hc
      obtain ⟨a1, a2, _, _, _, _, a7, a8, _, _⟩ := loop_availability_state _ _ _ _ h
      constructor
      · intro ⟨hconn, hq, ht⟩
        obtain ⟨item, rest, hqe⟩ : ∃ item rest, self.command_queue = item :: rest := by
          cases hcq : self.command_queue with
          | nil => exact absurd hcq hq
          | cons item rest => exact ⟨item, rest, rfl⟩
        rw [hyes item rest hqe hconn ht] at hc
        obtain ⟨packet, e⟩ := write_command_state _ _ _ _ _ hc
        subst e
        exact ⟨item, rest, packet, hqe, a1, a2, a8, a7⟩
      · intro hn
        rw [hno hn] at hc
        cases hc
        exact ⟨a1, a2, a8, a7⟩
  · intro hk ha hq hv
    exact loop_eq_some self now hk ha hq hv

/-- C18 at the example device with one queued command, the last dispatch at 1000 and a tick
at 1121. -/
theorem loop_pacer_guard_witness :
    (1000 : Nat) ≤ 1121 ∧ ∃ self1,
      loop { example_device with
        command_queue := [QueuedCommand.mk [1, 0, 0] 0xd0 5], last_send_command := 1000 }
        1121 = some self1 ∧
      ∃ item rest packet,
        [QueuedCommand.mk [1, 0, 0] 0xd0 5] = item :: rest ∧
        self1.command_queue = rest ∧ self1.sent = example_device.sent ++ [item] ∧
        self1.written = example_device.written ++ [(Characteristic.command_char, packet)] ∧
        self1.last_send_command = 1121 := by
  have h := loop_pacer_guard
    { example_device with
      command_queue := [QueuedCommand.mk [1, 0, 0] 0xd0 5], last_send_command := 1000 }
    1121 (by decide) (by decide) (by decide)
  obtain ⟨self1, hs⟩ := h.2 (by decide) (by decide) (by decide) (by decide)
  exact ⟨by decide, self1, hs, (h.1 self1 hs).1 ⟨rfl, by decide, by decide⟩⟩

/-- C18 as stated fails at exactly 120: on the example device, connected, with one queued
command and the last dispatch at 1000, the tick at 1120 (no wrap of the clock in between)
dispatches nothing and leaves the device as it was. -/
theorem loop_no_dispatch_at_exactly_120 :
    example_device.connected = true ∧
    1120 - 1000 ≥ 120 ∧
    loop { example_device with
      command_queue := [QueuedCommand.mk [1, 0, 0] 0xd0 5], last_send_command := 1000 }
      1120 =
      some { example_device with
        command_queue := [QueuedCommand.mk [1, 0, 0] 0xd0 5], last_send_command := 1000 } := by
  refine ⟨by decide, by decide, by decide⟩

/-! ## The hold-off of the availability changes -/

/-- C19 fails on the code below the clock value 3000: `millis() - 3000` is unsigned and
wraps around, so the guard `time > millis() - 3000` of the availability loop does not hold
and the entry is delivered at once.  On the example device a report at 100 brings a device
online and queues the change; the tick at 200, 100 time units later, delivers the entry and
publishes the availability. -/
theorem availability_delivered_before_hold_off :
    (steps example_env example_device
        [Step.report [0, 0, 0, 0, 0, 0, 0, 0xdc, 0, 0, 5, 1, 1, 0x7f, 0x10, 0x64, 1, 2, 3, 0]
          100]).map
        (fun self1 => (self1.delayed_availability_publish, self1.published.length)) =
      some ([PublishOnlineStatus.mk 0 true 100], 2) ∧
    (steps example_env example_device
        [Step.report [0, 0, 0, 0, 0, 0, 0, 0xdc, 0, 0, 5, 1, 1, 0x7f, 0x10, 0x64, 1, 2, 3, 0]
          100,
         Step.tick 200]).map
        (fun self1 => (self1.delayed_availability_publish, self1.published.drop 2)) =
      some ([], [Published.availability 5 true]) := by
  refine ⟨by decide, by decide⟩

/-! ## Reports and ticks in sequence -/

/-- What the availability loop publishes: availability messages that carry the mesh id and
the current online flag of a device of the store. -/
theorem loop_availability_published (now : Nat) :
    ∀ (l : List PublishOnlineStatus) (self self1 : MeshDevice),
      loop_availability now l self = some self1 →
      ∃ new, self1.published = self.published ++ new ∧
        ∀ msg, msg ∈ new →
          ∃ d, d ∈ self.devices_ ∧ msg = Published.availability d.mesh_id d.online
  | [], self, self1, h => by
    cases h
    exact ⟨[], by simp, fun msg hm => absurd hm (by simp)⟩
  | publish :: rest, self, self1, h => by
    simp only [loop_availability] at h
    split at h
    · cases h
      exact ⟨[], by simp, fun msg hm => absurd hm (by simp)⟩
    · split at h
      · cases h
      · rename_i d hd
        have hmem : d ∈ self.devices_ := List.get?_mem hd
        split at h
        · simp only [publish_availability, hd] at h
          obtain ⟨new, h1, h2⟩ := loop_availability_published now rest _ _ h
          refine ⟨Published.availability d.mesh_id d.online :: new, ?_, ?_⟩
          · rw [h1]
            simp
          · intro msg hm
            rcases List.mem_cons.mp hm with hm | hm
            · exact ⟨d, hmem, hm⟩
            · exact h2 msg hm
        · obtain ⟨new, h1, h2⟩ := loop_availability_published now rest _ _ h
          exact ⟨new, h1, h2⟩

/-- What a tick publishes. -/
theorem loop_published (self self1 : MeshDevice) (now : Nat) (h : self.loop now = some self1) :
    self1.devices_ = self.devices_ ∧
    ∃ new, self1.published = self.published ++ new ∧
      ∀ msg, msg ∈ new →
        ∃ d, d ∈ self.devices_ ∧ msg = Published.availability d.mesh_id d.online := by
  have hdev := (loop_state self self1 now h).2.2.2.1
  refine ⟨hdev, ?_⟩
  unfold loop at h
  split at h
  · cases h
  · rename_i self2 hc
    have h2 : self2.published = self.published ∧ self2.devices_ = self.devices_ := by
      unfold loop_commands at hc
      split at hc
      · cases hc
        exact ⟨rfl, rfl⟩
      · split at hc
        · obtain ⟨packet, e⟩ := write_command_state _ _ _ _ _ hc
          subst e
          exact ⟨rfl, rfl⟩
        · cases hc
          exact ⟨rfl, rfl⟩
    obtain ⟨new, h3, h4⟩ := loop_availability_published _ _ _ _ h
    rw [h2.1, h2.2] at *
    exact ⟨new, h3, h4⟩

theorem steps_append (env : Env) : ∀ (a b : List Step) (self : MeshDevice),
    steps env self (a ++ b) = (steps env self a).bind (fun self1 => steps env self1 b)
  | [], b, self => rfl
  | Step.report packet now :: a, b, self => by
    simp only [List.cons_append, steps]
    cases self.handle_packet env packet now with
    | none => rfl
    | some self1 => exact steps_append env a b self1
  | Step.tick now :: a, b, self => by
    simp only [List.cons_append, steps]
    cases self.loop now with
    | none => rfl
    | some self1 => exact steps_append env a b self1

theorem loop_ready (self self1 : MeshDevice) (now : Nat) (h : self.loop now = some self1)
    (hr : ready self) : ready self1 := by
  obtain ⟨_, s2, s3, s4, s5, s6⟩ := loop_state _ _ _ h
  obtain ⟨r1, r2, r3, r4⟩ := hr
  exact ⟨by rw [s2]; exact r1, by rw [s3]; exact r2, fun c hc => r3 c (s6 c hc),
    fun p hp => by rw [s4]; exact r4 p (s5 p hp)⟩

/-- A sequence of ticks on a ready device: it returns, the store is unchanged, and the
messages published are availability messages with the current online flag of a device. -/
theorem steps_ticks (env : Env) : ∀ (ticks : List Nat) (self : MeshDevice), ready self →
    ∃ self1, steps env self (ticks.map Step.tick) = some self1 ∧ ready self1 ∧
      self1.devices_ = self.devices_ ∧
      ∃ new, self1.published = self.published ++ new ∧
        ∀ msg, msg ∈ new →
          ∃ d, d ∈ self.devices_ ∧ msg = Published.availability d.mesh_id d.online
  | [], self, hr => ⟨self, rfl, hr, rfl, [], by simp, fun msg hm => absurd hm (by simp)⟩
  | now :: ticks, self, hr => by
    obtain ⟨self2, hl⟩ := loop_eq_some self now hr.1 hr.2.1 hr.2.2.1 hr.2.2.2
    obtain ⟨hd2, new2, hp2, hm2⟩ := loop_published _ _ _ hl
    obtain ⟨self1, hs, hr1, hd1, new1, hp1, hm1⟩ := steps_ticks env ticks self2
      (loop_ready _ _ _ hl hr)
    refine ⟨self1, ?_, hr1, by rw [hd1, hd2], new2 ++ new1, ?_, ?_⟩
    · simp only [List.map_cons, steps, hl]
      exact hs
    · rw [hp1, hp2, List.append_assoc]
    · intro msg hm
      rcases List.mem_append.mp hm with hm | hm
      · exact hm2 msg hm
      · rw [hd2] at hm1
        exact hm1 msg hm

/-- In a store with distinct mesh ids the device the search finds is the only one with its
mesh id. -/
theorem unique_of_nodup (ds : List Device) (m i : Nat) (d0 : Device)
    (hn : (ds.map Device.mesh_id).Nodup) (hg : ds.get? i = some d0) (hm0 : d0.mesh_id = m) :
    ∀ d, d ∈ ds → d.mesh_id = m → d = d0 := by
  intro d hd hm
  obtain ⟨j, hj, hjd⟩ := List.mem_iff_getElem.mp hd
  obtain ⟨hi, hid⟩ := List.get?_eq_some.mp hg
  have hid2 : ds[i] = d0 := by simpa using hid
  have hji : j = i := by
    have hj2 : j < (ds.map Device.mesh_id).length := by simpa using hj
    have hi2 : i < (ds.map Device.mesh_id).length := by simpa using hi
    apply (@List.Nodup.getElem_inj_iff _ (ds.map Device.mesh_id) hn j hj2 i hi2).mp
    simp only [List.getElem_map]
    rw [hjd, hid2, hm, hm0]
  subst hji
  rw [← hjd, hid2]

theorem mesh_ids_length (self : MeshDevice) : (mesh_ids self).length = self.devices_.length := by
  simp [mesh_ids]

/-- A report keeps a ready device ready and a store of distinct mesh ids distinct. -/
theorem handle_report_ready (env : Env) (self final : MeshDevice) (m : Nat) (online : Bool)
    (mode w t c R G B now : Nat)
    (h : self.handle_report env m online mode w t c R G B now = some final) :
    (ready self → ready final) ∧ ((mesh_ids self).Nodup → (mesh_ids final).Nodup) := by
  obtain ⟨final2, d1, i, hr, _, _, _, _, hk, ha, hq, hcase, hdel⟩ :=
    handle_report_step env self m online mode w t c R G B now
  rw [h] at hr
  cases hr
  have hlen : self.devices_.length ≤ final.devices_.length := by
    rw [← mesh_ids_length self, ← mesh_ids_length final]
    rcases hcase with ⟨_, _, e, _⟩ | ⟨_, _, e⟩ <;> rw [e]
    simp
  constructor
  · intro ⟨r1, r2, r3, r4⟩
    refine ⟨by rw [hk]; exact r1, by rw [ha]; exact r2, by rw [hq]; exact r3, ?_⟩
    intro p hp
    rcases hdel p hp with hp | hp
    · exact Nat.lt_of_lt_of_le (r4 p hp) hlen
    · exact hp
  · intro hn
    rcases hcase with ⟨_, _, e, _⟩ | ⟨hf, _, e⟩
    · rw [e]; exact hn
    · rw [e]
      refine List.Nodup.append hn (List.nodup_singleton m) ?_
      intro x hx hx2
      rw [List.mem_singleton] at hx2
      subst hx2
      obtain ⟨d, hd, hdm⟩ := List.mem_map.mp hx
      exact (find_if_eq_none x _).mp hf d hd hdm

/-! ## The debounce of the availability -/

/-- The availability loop at a clock value from 3000 on (below 2^32), front entry not yet
3000 time units old: the loop stops at once and leaves the queue as it is. -/
theorem loop_availability_hold (now : Nat) (e : PublishOnlineStatus)
    (rest : List PublishOnlineStatus) (self : MeshDevice) (h3 : 3000 ≤ now)
    (h32 : now < 4294967296) (he : now < e.time + 3000) :
    loop_availability now (e :: rest) self =
      some { self with delayed_availability_publish := e :: rest } := by
  have hg : e.time > (now + 4294967296 - 3000) % 4294967296 := by omega
  simp only [loop_availability, hg, if_true]

/-- The availability loop at a clock value from 3000 on (below 2^32), front entry at least
3000 time units old: the entry is removed, and the current flag of its device is published
when it equals the queued flag. -/
theorem loop_availability_due (now : Nat) (e : PublishOnlineStatus)
    (rest : List PublishOnlineStatus) (self : MeshDevice) (d : Device) (h3 : 3000 ≤ now)
    (h32 : now < 4294967296) (he : e.time + 3000 ≤ now)
    (hd : self.devices_.get? e.device = some d) :
    loop_availability now (e :: rest) self =
      if e.online = d.online then
        loop_availability now rest
          { self with
            delayed_availability_publish := rest,
            published := self.published ++ [Published.availability d.mesh_id d.online] }
      else loop_availability now rest { self with delayed_availability_publish := rest } := by
  have hg : ¬ e.time > (now + 4294967296 - 3000) % 4294967296 := by omega
  simp only [loop_availability, hg, if_false, hd, publish_availability, Bool.false_eq_true]

/-- A tick is the availability loop on a device that has the store, the queued availability
changes and the published messages of the device before the tick. -/
theorem loop_split (self self1 : MeshDevice) (now : Nat) (h : self.loop now = some self1) :
    ∃ self2, self2.devices_ = self.devices_ ∧
      self2.delayed_availability_publish = self.delayed_availability_publish ∧
      self2.published = self.published ∧
      loop_availability now self.delayed_availability_publish self2 = some self1 := by
  unfold loop at h
  split at h
  · cases h
  · rename_i self2 hc
    obtain ⟨_, _, _, c4, c5, _⟩ := loop_commands_state _ _ _ hc
    have hp : self2.published = self.published := by
      unfold loop_commands at hc
      split at hc
      · cases hc
        rfl
      · split at hc
        · obtain ⟨packet, e⟩ := write_command_state _ _ _ _ _ hc
          subst e
          rfl
        · cases hc
          rfl
    rw [c5] at h
    exact ⟨self2, c4, c5, hp, h⟩

/-- Ticks with no availability change queued publish nothing. -/
theorem steps_ticks_idle (env : Env) : ∀ (ticks : List Nat) (self : MeshDevice), ready self →
    self.delayed_availability_publish = [] →
    ∃ self1, steps env self (ticks.map Step.tick) = some self1 ∧
      self1.delayed_availability_publish = [] ∧ self1.published = self.published
  | [], self, _, hq => ⟨self, rfl, hq, rfl⟩
  | now :: ticks, self, hr, hq => by
    obtain ⟨self2, hl⟩ := loop_eq_some self now hr.1 hr.2.1 hr.2.2.1 hr.2.2.2
    obtain ⟨self3, _, _, c3, hla⟩ := loop_split _ _ _ hl
    rw [hq] at hla
    simp only [loop_availability] at hla
    cases hla
    obtain ⟨self1, hs, h1, h2⟩ := steps_ticks_idle env ticks _ (loop_ready _ _ _ hl hr) rfl
    refine ⟨self1, ?_, h1, ?_⟩
    · simp only [List.map_cons, steps, hl]
      exact hs
    · rw [h2]
      exact c3

/-- Ticks at clock values from 3000 on at which the front entry of the queued availability
changes is not yet 3000 time units old: they publish nothing and leave the queue as it is. -/
theorem steps_ticks_hold (env : Env) (e : PublishOnlineStatus)
    (rest : List PublishOnlineStatus) : ∀ (ticks : List Nat) (self : MeshDevice), ready self →
    self.delayed_availability_publish = e :: rest →
    (∀ now, now ∈ ticks → 3000 ≤ now ∧ now < 4294967296 ∧ now < e.time + 3000) →
    ∃ self1, steps env self (ticks.map Step.tick) = some self1 ∧ ready self1 ∧
      self1.devices_ = self.devices_ ∧
      self1.delayed_availability_publish = e :: rest ∧ self1.published = self.published
  | [], self, hr, hq, _ => ⟨self, rfl, hr, rfl, hq, rfl⟩
  | now :: ticks, self, hr, hq, ht => by
    obtain ⟨h3, h32, he⟩ := ht now (List.mem_cons_self _ _)
    obtain ⟨self2, hl⟩ := loop_eq_some self now hr.1 hr.2.1 hr.2.2.1 hr.2.2.2
    obtain ⟨self3, c1, _, c3, hla⟩ := loop_split _ _ _ hl
    rw [hq, loop_availability_hold now e rest self3 h3 h32 he] at hla
    cases hla
    obtain ⟨self1, hs, h0, h1, h2, h4⟩ := steps_ticks_hold env e rest ticks _
      (loop_ready _ _ _ hl hr) rfl (fun n hn => ht n (List.mem_cons_of_mem _ hn))
    refine ⟨self1, ?_, h0, ?_, h2, ?_⟩
    · simp only [List.map_cons, steps, hl]
      exact hs
    · rw [h1]
      exact c1
    · rw [h4]
      exact c3

/-- Ticks at clock values from 3000 on (below 2^32) with one availability change queued
whose flag is the current flag of its device: the first tick at which the entry is at least
3000 time units old publishes the flag, and no other tick publishes anything. -/
theorem steps_ticks_single (env : Env) (e : PublishOnlineStatus) (d : Device) :
    ∀ (ticks : List Nat) (self : MeshDevice), ready self →
    self.delayed_availability_publish = [e] →
    self.devices_.get? e.device = some d → e.online = d.online →
    (∀ now, now ∈ ticks → 3000 ≤ now ∧ now < 4294967296) →
    ∃ self1, steps env self (ticks.map Step.tick) = some self1 ∧
      self1.published = self.published ++
        (if ticks.any (fun now => decide (e.time + 3000 ≤ now)) = true then
          [Published.availability d.mesh_id d.online] else []) ∧
      self1.delayed_availability_publish =
        (if ticks.any (fun now => decide (e.time + 3000 ≤ now)) = true then [] else [e])
  | [], self, _, hq, _, _, _ => ⟨self, rfl, by simp, by simpa using hq⟩
  | now :: ticks, self, hr, hq, hd, ho, ht => by
    obtain ⟨h3, h32⟩ := ht now (List.mem_cons_self _ _)
    obtain ⟨self2, hl⟩ := loop_eq_some self now hr.1 hr.2.1 hr.2.2.1 hr.2.2.2
    obtain ⟨self3, c1, _, c3, hla⟩ := loop_split _ _ _ hl
    have hr2 := loop_ready _ _ _ hl hr
    by_cases hdue : e.time + 3000 ≤ now
    · rw [hq, loop_availability_due now e [] self3 d h3 h32 hdue (by rw [c1]; exact hd),
        if_pos ho] at hla
      simp only [loop_availability] at hla
      cases hla
      obtain ⟨self1, hs, h1, h2⟩ := steps_ticks_idle env ticks _ hr2 rfl
      refine ⟨self1, ?_, ?_, ?_⟩
      · simp only [List.map_cons, steps, hl]
        exact hs
      · rw [h2]
        simp only [List.any_cons, hdue, decide_True, Bool.true_or, if_true]
        rw [c3]
      · rw [h1]
        simp only [List.any_cons, hdue, decide_True, Bool.true_or, if_true]
    · rw [hq, loop_availability_hold now e [] self3 h3 h32 (by omega)] at hla
      cases hla
      obtain ⟨self1, hs, h1, h2⟩ := steps_ticks_single env e d ticks _ hr2 rfl
        (by show self3.devices_.get? e.device = some d; rw [c1]; exact hd) ho
        (fun n hn => ht n (List.mem_cons_of_mem _ hn))
      refine ⟨self1, ?_, ?_, ?_⟩
      · simp only [List.map_cons, steps, hl]
        exact hs
      · rw [h1]
        simp only [List.any_cons, hdue, decide_False, Bool.false_or]
        rw [show self3.published = self.published from c3]
      · rw [h2]
        simp only [List.any_cons, hdue, decide_False, Bool.false_or]

/-- Ticks at clock values from 3000 on (below 2^32) with two availability changes of one
device queued, the first with the flag the device no longer has and the second, not older,
with its current flag: the first entry is dropped without a message, the first tick at which
the second entry is at least 3000 time units old publishes the current flag, and no other
tick publishes anything. -/
theorem steps_ticks_flap (env : Env) (e0 e1 : PublishOnlineStatus) (d : Device)
    (h01 : e0.time ≤ e1.time) (hdev : e0.device = e1.device) (ho0 : e0.online ≠ d.online)
    (ho1 : e1.online = d.online) :
    ∀ (ticks : List Nat) (self : MeshDevice), ready self →
    self.delayed_availability_publish = [e0, e1] →
    self.devices_.get? e1.device = some d →
    (∀ now, now ∈ ticks → 3000 ≤ now ∧ now < 4294967296) →
    ∃ self1, steps env self (ticks.map Step.tick) = some self1 ∧
      self1.published = self.published ++
        (if ticks.any (fun now => decide (e1.time + 3000 ≤ now)) = true then
          [Published.availability d.mesh_id d.online] else []) ∧
      (ticks.any (fun now => decide (e1.time + 3000 ≤ now)) = true →
        self1.delayed_availability_publish = [])
  | [], self, _, _, _, _ => ⟨self, rfl, by simp, by simp⟩
  | now :: ticks, self, hr, hq, hd, ht => by
    obtain ⟨h3, h32⟩ := ht now (List.mem_cons_self _ _)
    obtain ⟨self2, hl⟩ := loop_eq_some self now hr.1 hr.2.1 hr.2.2.1 hr.2.2.2
    obtain ⟨self3, c1, _, c3, hla⟩ := loop_split _ _ _ hl
    have hr2 := loop_ready _ _ _ hl hr
    have htl : ∀ n, n ∈ ticks → 3000 ≤ n ∧ n < 4294967296 :=
      fun n hn => ht n (List.mem_cons_of_mem _ hn)
    by_cases hdue0 : e0.time + 3000 ≤ now
    · rw [hq, loop_availability_due now e0 [e1] self3 d h3 h32 hdue0
        (by rw [c1, hdev]; exact hd), if_neg ho0] at hla
      by_cases hdue1 : e1.time + 3000 ≤ now
      · rw [loop_availability_due now e1 [] _ d h3 h32 hdue1
          (by show self3.devices_.get? e1.device = some d; rw [c1]; exact hd),
          if_pos ho1] at hla
        simp only [loop_availability] at hla
        cases hla
        obtain ⟨self1, hs, h1, h2⟩ := steps_ticks_idle env ticks _ hr2 rfl
        refine ⟨self1, ?_, ?_, fun _ => h1⟩
        · simp only [List.map_cons, steps, hl]
          exact hs
        · rw [h2]
          simp only [List.any_cons, hdue1, decide_True, Bool.true_or, if_true]
          rw [c3]
      · rw [loop_availability_hold now e1 [] _ h3 h32 (by omega)] at hla
        cases hla
        obtain ⟨self1, hs, h1, h2⟩ := steps_ticks_single env e1 d ticks _ hr2 rfl
          (by show self3.devices_.get? e1.device = some d; rw [c1]; exact hd) ho1 htl
        refine ⟨self1, ?_, ?_, ?_⟩
        · simp only [List.map_cons, steps, hl]
          exact hs
        · rw [h1]
          simp only [List.any_cons, hdue1, decide_False, Bool.false_or]
          rw [show self3.published = self.published from c3]
        · intro hany
          simp only [List.any_cons, hdue1, decide_False, Bool.false_or] at hany
          rw [h2, if_pos hany]
    · have hdue1 : ¬ e1.time + 3000 ≤ now := by omega
      rw [hq, loop_availability_hold now e0 [e1] self3 h3 h32 (by omega)] at hla
      cases hla
      obtain ⟨self1, hs, h1, h2⟩ := steps_ticks_flap env e0 e1 d h01 hdev ho0 ho1 ticks _ hr2 rfl
        (by show self3.devices_.get? e1.device = some d; rw [c1]; exact hd) htl
      refine ⟨self1, ?_, ?_, ?_⟩
      · simp only [List.map_cons, steps, hl]
        exact hs
      · rw [h1]
        simp only [List.any_cons, hdue1, decide_False, Bool.false_or]
        rw [show self3.published = self.published from c3]
      · intro hany
        simp only [List.any_cons, hdue1, decide_False, Bool.false_or] at hany
        exact h2 hany

/-- A known device is online, in a store with distinct mesh ids; an online status report
marks it offline at `t0` and a later one marks it online again at `t1`, with ticks in between
and after, at any clock values.  Both changes are queued, and no tick after the second report
publishes an availability message that reports the device offline: an availability message
of a later tick for its mesh id reports it online. -/
theorem flap_online_only (env : Env) (self : MeshDevice) (p0 p1 : List Nat) (t0 t1 : Nat)
    (mid later : List Nat) (i : Nat) (d : Device)
    (hr : ready self) (hn : (mesh_ids self).Nodup)
    (hf : find_if (report_mesh_id env p1) self.devices_ = some i)
    (hd : self.devices_.get? i = some d) (hdo : d.online = true)
    (hl0 : 20 ≤ p0.length) (h70 : p0.getD 7 0 = env.COMMAND_ONLINE_STATUS_REPORT)
    (hoff : char_gt_zero env.char_signed (p0.getD 11 0) = false)
    (hl1 : 20 ≤ p1.length) (h71 : p1.getD 7 0 = env.COMMAND_ONLINE_STATUS_REPORT)
    (hon : char_gt_zero env.char_signed (p1.getD 11 0) = true)
    (hsame : report_mesh_id env p0 = report_mesh_id env p1) :
    ∃ s1 s2 s3 s4 new,
      self.handle_packet env p0 t0 = some s1 ∧
      steps env s1 (mid.map Step.tick) = some s2 ∧
      s2.handle_packet env p1 t1 = some s3 ∧
      steps env s3 (later.map Step.tick) = some s4 ∧
      PublishOnlineStatus.mk i false t0 ∈ s1.delayed_availability_publish ∧
      PublishOnlineStatus.mk i true t1 ∈ s3.delayed_availability_publish ∧
      s4.published = s3.published ++ new ∧
      ∀ o, Published.availability (report_mesh_id env p1) o ∈ new → o = true := by
  have hm1 : report_mesh_id env p1 = p1.getD 19 0 * 256 + p1.getD 10 0 := by
    simp only [report_mesh_id, h71, if_true]
  have hm0 : report_mesh_id env p0 = p0.getD 19 0 * 256 + p0.getD 10 0 := by
    simp only [report_mesh_id, h70, if_true]
  -- the report at t0
  have hp0 := handle_packet_online_report env self p0 t0 hl0 h70
  rw [hoff, ← hm0, hsame] at hp0
  obtain ⟨s1, d1, i1, hs1, hd1m, hd1o, hf1, hg1, _, _, _, hcase1, _⟩ :=
    handle_report_step env self (report_mesh_id env p1) false (p0.getD 12 0) (p0.getD 13 0)
      (p0.getD 14 0) (p0.getD 15 0) (p0.getD 16 0) (p0.getD 17 0) (p0.getD 18 0) t0
  rw [← hp0] at hs1
  obtain ⟨hr1, hn1⟩ := handle_report_ready env self s1 _ _ _ _ _ _ _ _ _ _ (hp0 ▸ hs1)
  have hi1 : i1 = i ∧ PublishOnlineStatus.mk i false t0 ∈ s1.delayed_availability_publish := by
    rcases hcase1 with ⟨hf0, _, _, d0, hd0, hdel⟩ | ⟨hf0, _⟩
    · have e : i1 = i := Option.some.inj (hf0.symm.trans hf)
      subst e
      rw [hd] at hd0
      cases hd0
      refine ⟨rfl, ?_⟩
      rw [hdel, hdo]
      simp
    · rw [hf] at hf0
      cases hf0
  obtain ⟨hi1e, hq1⟩ := hi1
  subst hi1e
  -- the ticks in between
  obtain ⟨s2, hs2, hr2, hdev2, _⟩ := steps_ticks env mid s1 (hr1 hr)
  have hn2 : (mesh_ids s2).Nodup := by
    unfold mesh_ids
    rw [hdev2]
    exact hn1 hn
  -- the report at t1
  have hp1 := handle_packet_online_report env s2 p1 t1 hl1 h71
  rw [hon, ← hm1] at hp1
  obtain ⟨s3, d3, i3, hs3, hd3m, hd3o, hf3, hg3, _, _, _, hcase3, _⟩ :=
    handle_report_step env s2 (report_mesh_id env p1) true (p1.getD 12 0) (p1.getD 13 0)
      (p1.getD 14 0) (p1.getD 15 0) (p1.getD 16 0) (p1.getD 17 0) (p1.getD 18 0) t1
  rw [← hp1] at hs3
  obtain ⟨hr3, hn3⟩ := handle_report_ready env s2 s3 _ _ _ _ _ _ _ _ _ _ (hp1 ▸ hs3)
  have hi3 : PublishOnlineStatus.mk i1 true t1 ∈ s3.delayed_availability_publish := by
    rcases hcase3 with ⟨hf0, _, _, d0, hd0, hdel⟩ | ⟨hf0, _⟩
    · rw [hdev2] at hf0 hd0
      have e : i3 = i1 := Option.some.inj (hf0.symm.trans hf1)
      subst e
      rw [hg1] at hd0
      cases hd0
      rw [hdel, hd1o]
      simp
    · rw [hdev2, hf1] at hf0
      cases hf0
  -- the ticks after
  obtain ⟨s4, hs4, _, _, new, hpub, hmsg⟩ := steps_ticks env later s3 (hr3 hr2)
  refine ⟨s1, s2, s3, s4, new, hs1, hs2, hs3, hs4, hq1, hi3, hpub, ?_⟩
  intro o ho
  obtain ⟨dd, hdd, he⟩ := hmsg _ ho
  injection he with e1 e2
  have hu := unique_of_nodup s3.devices_ (report_mesh_id env p1) i3 d3 (hn3 hn2) hg3 hd3m
    dd hdd e1.symm
  rw [e2, hu, hd3o]

/-- The account of a flap: a known device is online and no availability change is queued; at
clock values from 3000 on (below 2^32) an online status report marks the device offline at
`t0` and a later one marks it online again at `t1`, with `t1 - t0 < 3000`; there are ticks in
between (at clock values up to `t1`) and ticks after.  Both changes are queued, the offline
one first.  The ticks between the two reports publish nothing and leave the offline change
queued.  The ticks after the second report never publish an offline notification: the queued
offline change is dropped without a message, and exactly one availability notification is
published, which reports the device online, by the first tick at which the online change is
at least 3000 time units old (`t1 + 3000 ≤ now`); before that tick, and after it, no tick
publishes anything.  In all, the messages published are the two state messages of the
reports and that one notification. -/
theorem flap_account (env : Env) (self : MeshDevice) (p0 p1 : List Nat) (t0 t1 : Nat)
    (mid later : List Nat) (i : Nat) (d : Device)
    (hr : ready self) (hq : self.delayed_availability_publish = [])
    (hf : find_if (report_mesh_id env p1) self.devices_ = some i)
    (hd : self.devices_.get? i = some d) (hdo : d.online = true)
    (hl0 : 20 ≤ p0.length) (h70 : p0.getD 7 0 = env.COMMAND_ONLINE_STATUS_REPORT)
    (hoff : char_gt_zero env.char_signed (p0.getD 11 0) = false)
    (hl1 : 20 ≤ p1.length) (h71 : p1.getD 7 0 = env.COMMAND_ONLINE_STATUS_REPORT)
    (hon : char_gt_zero env.char_signed (p1.getD 11 0) = true)
    (hsame : report_mesh_id env p0 = report_mesh_id env p1)
    (h01 : t0 ≤ t1) (hlt : t1 - t0 < 3000) (h32 : t1 < 4294967296)
    (hmid : ∀ now, now ∈ mid → 3000 ≤ now ∧ now ≤ t1)
    (hlater : ∀ now, now ∈ later → 3000 ≤ now ∧ now < 4294967296) :
    ∃ s1 s2 s3 s4 d1 d3,
      self.handle_packet env p0 t0 = some s1 ∧
      steps env s1 (mid.map Step.tick) = some s2 ∧
      s2.handle_packet env p1 t1 = some s3 ∧
      steps env s3 (later.map Step.tick) = some s4 ∧
      s1.delayed_availability_publish = [PublishOnlineStatus.mk i false t0] ∧
      s1.published = self.published ++ [Published.state d1] ∧
      s2.delayed_availability_publish = [PublishOnlineStatus.mk i false t0] ∧
      s2.published = s1.published ∧
      s3.delayed_availability_publish =
        [PublishOnlineStatus.mk i false t0, PublishOnlineStatus.mk i true t1] ∧
      s3.published = s2.published ++ [Published.state d3] ∧
      s4.published = s3.published ++
        (if later.any (fun now => decide (t1 + 3000 ≤ now)) = true then
          [Published.availability (report_mesh_id env p1) true] else []) ∧
      (later.any (fun now => decide (t1 + 3000 ≤ now)) = true →
        s4.delayed_availability_publish = []) := by
  have hm1 : report_mesh_id env p1 = p1.getD 19 0 * 256 + p1.getD 10 0 := by
    simp only [report_mesh_id, h71, if_true]
  have hm0 : report_mesh_id env p0 = p0.getD 19 0 * 256 + p0.getD 10 0 := by
    simp only [report_mesh_id, h70, if_true]
  -- the report at t0
  have hp0 := handle_packet_online_report env self p0 t0 hl0 h70
  rw [hoff, ← hm0, hsame] at hp0
  obtain ⟨s1, d1, i1, hs1, hd1m, hd1o, hf1, hg1, _, _, _, hcase1, _⟩ :=
    handle_report_step env self (report_mesh_id env p1) false (p0.getD 12 0) (p0.getD 13 0)
      (p0.getD 14 0) (p0.getD 15 0) (p0.getD 16 0) (p0.getD 17 0) (p0.getD 18 0) t0
  rw [← hp0] at hs1
  obtain ⟨hr1, _⟩ := handle_report_ready env self s1 _ _ _ _ _ _ _ _ _ _ (hp0 ▸ hs1)
  have hi1 : i1 = i ∧ s1.published = self.published ++ [Published.state d1] ∧
      s1.delayed_availability_publish = [PublishOnlineStatus.mk i false t0] := by
    rcases hcase1 with ⟨hf0, hpub, _, d0, hd0, hdel⟩ | ⟨hf0, _⟩
    · have e : i1 = i := Option.some.inj (hf0.symm.trans hf)
      subst e
      rw [hd] at hd0
      cases hd0
      refine ⟨rfl, hpub, ?_⟩
      rw [hdel, hdo, hq]
      simp
    · rw [hf] at hf0
      cases hf0
  obtain ⟨hi1e, hpub1, hq1⟩ := hi1
  subst hi1e
  -- the ticks in between
  obtain ⟨s2, hs2, hr2, hdev2, hq2, hpub2⟩ := steps_ticks_hold env
    (PublishOnlineStatus.mk i1 false t0) [] mid s1 (hr1 hr) hq1
    (fun now hn => ⟨(hmid now hn).1, by have := (hmid now hn).2; omega,
      by show now < t0 + 3000; have := (hmid now hn).2; omega⟩)
  -- the report at t1
  have hp1 := handle_packet_online_report env s2 p1 t1 hl1 h71
  rw [hon, ← hm1] at hp1
  obtain ⟨s3, d3, i3, hs3, hd3m, hd3o, hf3, hg3, _, _, _, hcase3, _⟩ :=
    handle_report_step env s2 (report_mesh_id env p1) true (p1.getD 12 0) (p1.getD 13 0)
      (p1.getD 14 0) (p1.getD 15 0) (p1.getD 16 0) (p1.getD 17 0) (p1.getD 18 0) t1
  rw [← hp1] at hs3
  obtain ⟨hr3, _⟩ := handle_report_ready env s2 s3 _ _ _ _ _ _ _ _ _ _ (hp1 ▸ hs3)
  have hi3 : i3 = i1 ∧ s3.published = s2.published ++ [Published.state d3] ∧
      s3.delayed_availability_publish =
        [PublishOnlineStatus.mk i1 false t0, PublishOnlineStatus.mk i1 true t1] := by
    rcases hcase3 with ⟨hf0, hpub, _, d0, hd0, hdel⟩ | ⟨hf0, _⟩
    · rw [hdev2] at hf0 hd0
      have e : i3 = i1 := Option.some.inj (hf0.symm.trans hf1)
      subst e
      rw [hg1] at hd0
      cases hd0
      refine ⟨rfl, hpub, ?_⟩
      rw [hdel, hd1o, hq2]
      simp
    · rw [hdev2, hf1] at hf0
      cases hf0
  obtain ⟨hi3e, hpub3, hq3⟩ := hi3
  subst hi3e
  -- the ticks after
  obtain ⟨s4, hs4, hpub4, hq4⟩ := steps_ticks_flap env (PublishOnlineStatus.mk i3 false t0)
    (PublishOnlineStatus.mk i3 true t1) d3 h01 rfl (by rw [hd3o]; simp) hd3o.symm later s3
    (hr3 hr2) hq3 hg3 hlater
  rw [hd3m, hd3o] at hpub4
  exact ⟨s1, s2, s3, s4, d1, d3, hs1, hs2, hs3, hs4, hq1, hpub1, hq2, hpub2, hq3, hpub3,
    hpub4, hq4⟩

/-- C11, as the code has it: a known device is online, an online status report marks it
offline at `t0` and a later one marks it online again at `t1`, with ticks in between and
after; the reports and the ticks return.  In a store with distinct mesh ids no tick after
the second report publishes an availability notification that reports the device offline.
When moreover no availability change was queued before the first report, `t1 - t0 < 3000`
and the clock values are from 3000 on (below 2^32, the ticks in between up to `t1`): both
changes are queued, the offline one first; the ticks between the two reports publish nothing
and leave the offline change queued; after the second report the offline change is dropped
without a message, and exactly one availability notification is published, which reports
the device online, by the first tick at which the online change is at least 3000 time units
old (`t1 + 3000 ≤ now`); no other tick publishes anything. -/
theorem debounce_flap (env : Env) (self : MeshDevice) (p0 p1 : List Nat) (t0 t1 : Nat)
    (mid later : List Nat) (i : Nat) (d : Device)
    (hr : ready self)
    (hf : find_if (report_mesh_id env p1) self.devices_ = some i)
    (hd : self.devices_.get? i = some d) (hdo : d.online = true)
    (hl0 : 20 ≤ p0.length) (h70 : p0.getD 7 0 = env.COMMAND_ONLINE_STATUS_REPORT)
    (hoff : char_gt_zero env.char_signed (p0.getD 11 0) = false)
    (hl1 : 20 ≤ p1.length) (h71 : p1.getD 7 0 = env.COMMAND_ONLINE_STATUS_REPORT)
    (hon : char_gt_zero env.char_signed (p1.getD 11 0) = true)
    (hsame : report_mesh_id env p0 = report_mesh_id env p1) :
    ∃ s1 s2 s3 s4,
      self.handle_packet env p0 t0 = some s1 ∧
      steps env s1 (mid.map Step.tick) = some s2 ∧
      s2.handle_packet env p1 t1 = some s3 ∧
      steps env s3 (later.map Step.tick) = some s4 ∧
      ((mesh_ids self).Nodup →
        ∃ new, s4.published = s3.published ++ new ∧
          ∀ o, Published.availability (report_mesh_id env p1) o ∈ new → o = true) ∧
      (self.delayed_availability_publish = [] → t0 ≤ t1 → t1 - t0 < 3000 →
        t1 < 4294967296 →
        (∀ now, now ∈ mid → 3000 ≤ now ∧ now ≤ t1) →
        (∀ now, now ∈ later → 3000 ≤ now ∧ now < 4294967296) →
        ∃ d1 d3,
          s1.delayed_availability_publish = [PublishOnlineStatus.mk i false t0] ∧
          s1.published = self.published ++ [Published.state d1] ∧
          s2.delayed_availability_publish = [PublishOnlineStatus.mk i false t0] ∧
          s2.published = s1.published ∧
          s3.delayed_availability_publish =
            [PublishOnlineStatus.mk i false t0, PublishOnlineStatus.mk i true t1] ∧
          s3.published = s2.published ++ [Published.state d3] ∧
          s4.published = s3.published ++
            (if later.any (fun now => decide (t1 + 3000 ≤ now)) = true then
              [Published.availability (report_mesh_id env p1) true] else []) ∧
          (later.any (fun now => decide (t1 + 3000 ≤ now)) = true →
            s4.delayed_availability_publish = [])) := by
  -- the four steps return on a ready device
  have hm1 : report_mesh_id env p1 = p1.getD 19 0 * 256 + p1.getD 10 0 := by
    simp only [report_mesh_id, h71, if_true]
  have hm0 : report_mesh_id env p0 = p0.getD 19 0 * 256 + p0.getD 10 0 := by
    simp only [report_mesh_id, h70, if_true]
  have hp0 := handle_packet_online_report env self p0 t0 hl0 h70
  rw [hoff, ← hm0, hsame] at hp0
  obtain ⟨s1, _, _, hs1, _⟩ :=
    handle_report_step env self (report_mesh_id env p1) false (p0.getD 12 0) (p0.getD 13 0)
      (p0.getD 14 0) (p0.getD 15 0) (p0.getD 16 0) (p0.getD 17 0) (p0.getD 18 0) t0
  rw [← hp0] at hs1
  obtain ⟨hr1, _⟩ := handle_report_ready env self s1 _ _ _ _ _ _ _ _ _ _ (hp0 ▸ hs1)
  obtain ⟨s2, hs2, hr2, _⟩ := steps_ticks env mid s1 (hr1 hr)
  have hp1 := handle_packet_online_report env s2 p1 t1 hl1 h71
  rw [hon, ← hm1] at hp1
  obtain ⟨s3, _, _, hs3, _⟩ :=
    handle_report_step env s2 (report_mesh_id env p1) true (p1.getD 12 0) (p1.getD 13 0)
      (p1.getD 14 0) (p1.getD 15 0) (p1.getD 16 0) (p1.getD 17 0) (p1.getD 18 0) t1
  rw [← hp1] at hs3
  obtain ⟨hr3, _⟩ := handle_report_ready env s2 s3 _ _ _ _ _ _ _ _ _ _ (hp1 ▸ hs3)
  obtain ⟨s4, hs4, _⟩ := steps_ticks env later s3 (hr3 hr2)
  refine ⟨s1, s2, s3, s4, hs1, hs2, hs3, hs4, ?_, ?_⟩
  · intro hn
    obtain ⟨a1, a2, a3, a4, new, ha1, ha2, ha3, ha4, _, _, hpub, hmsg⟩ :=
      flap_online_only env self p0 p1 t0 t1 mid later i d hr hn hf hd hdo hl0 h70
        hoff hl1 h71 hon hsame
    have e1 : a1 = s1 := Option.some.inj (ha1.symm.trans hs1)
    subst e1
    have e2 : a2 = s2 := Option.some.inj (ha2.symm.trans hs2)
    subst e2
    have e3 : a3 = s3 := Option.some.inj (ha3.symm.trans hs3)
    subst e3
    have e4 : a4 = s4 := Option.some.inj (ha4.symm.trans hs4)
    subst e4
    exact ⟨new, hpub, hmsg⟩
  · intro hq h01 hlt h32 hmid hlater
    obtain ⟨a1, a2, a3, a4, d1, d3, ha1, ha2, ha3, ha4, b1, b2, b3, b4, b5, b6, b7, b8⟩ :=
      flap_account env self p0 p1 t0 t1 mid later i d hr hq hf hd hdo hl0 h70
        hoff hl1 h71 hon hsame h01 hlt h32 hmid hlater
    have e1 : a1 = s1 := Option.some.inj (ha1.symm.trans hs1)
    subst e1
    have e2 : a2 = s2 := Option.some.inj (ha2.symm.trans hs2)
    subst e2
    have e3 : a3 = s3 := Option.some.inj (ha3.symm.trans hs3)
    subst e3
    have e4 : a4 = s4 := Option.some.inj (ha4.symm.trans hs4)
    subst e4
    exact ⟨d1, d3, b1, b2, b3, b4, b5, b6, b7, b8⟩

/-- C11, as the code has it, at the example device with the known device 5 online: a report
marks it offline at 10000, a tick at 10500, a report marks it online at 11000, ticks at
12000, 13500 and 14000; the tick at 14000 is the first with `11000 + 3000 ≤ now`. -/
theorem debounce_flap_witness :
    ∃ s1 s2 s3 s4,
      example_store_device.handle_packet example_env (example_report 0) 10000 = some s1 ∧
      steps example_env s1 ([10500].map Step.tick) = some s2 ∧
      s2.handle_packet example_env (example_report 1) 11000 = some s3 ∧
      steps example_env s3 ([12000, 13500, 14000].map Step.tick) = some s4 ∧
      (∃ new, s4.published = s3.published ++ new ∧
        ∀ o, Published.availability (report_mesh_id example_env (example_report 1)) o ∈
          new → o = true) ∧
      ∃ d1 d3,
        s1.delayed_availability_publish = [PublishOnlineStatus.mk 0 false 10000] ∧
        s1.published = example_store_device.published ++ [Published.state d1] ∧
        s2.delayed_availability_publish = [PublishOnlineStatus.mk 0 false 10000] ∧
        s2.published = s1.published ∧
        s3.delayed_availability_publish =
          [PublishOnlineStatus.mk 0 false 10000, PublishOnlineStatus.mk 0 true 11000] ∧
        s3.published = s2.published ++ [Published.state d3] ∧
        s4.published = s3.published ++
          (if [12000, 13500, 14000].any (fun now => decide (11000 + 3000 ≤ now)) = true then
            [Published.availability (report_mesh_id example_env (example_report 1)) true]
          else []) ∧
        ([12000, 13500, 14000].any (fun now => decide (11000 + 3000 ≤ now)) = true →
          s4.delayed_availability_publish = []) := by
  obtain ⟨s1, s2, s3, s4, h1, h2, h3, h4, ha, hb⟩ :=
    debounce_flap example_env example_store_device (example_report 0) (example_report 1)
      10000 11000 [10500] [12000, 13500, 14000] 0
      { example_env.new_Device with mesh_id := 5, online := true }
      ⟨by decide, by decide, by decide, by decide⟩ (by decide) rfl rfl
      (by decide) (by decide) (by decide) (by decide) (by decide) (by decide) (by decide)
  exact ⟨s1, s2, s3, s4, h1, h2, h3, h4, ha (by decide),
    hb rfl (by decide) (by decide) (by decide) (by decide) (by decide)⟩

/-- C11 as stated fails: on the example device with the known device 5 online, a report
marks it offline at 10000 and a report marks it online again at 11000, 1000 time units
later; both changes are queued, and the tick at 14000 publishes an availability message for
the device (online). -/
theorem debounce_online_notification_published :
    11000 - 10000 < 3000 ∧
    (steps example_env example_store_device
        [Step.report (example_report 0) 10000, Step.report (example_report 1) 11000]).map
        (fun self1 => (self1.delayed_availability_publish, self1.published.length)) =
      some ([PublishOnlineStatus.mk 0 false 10000, PublishOnlineStatus.mk 0 true 11000], 2) ∧
    (steps example_env example_store_device
        [Step.report (example_report 0) 10000, Step.report (example_report 1) 11000,
          Step.tick 14000]).map
        (fun self1 => (self1.delayed_availability_publish, self1.published.drop 2)) =
      some ([], [Published.availability 5 true]) := by
  refine ⟨by decide, by decide, by decide⟩

/-! ## The device store and the discovery -/

theorem handle_packet_recognised (env : Env) (self : MeshDevice) (packet : List Nat) (now : Nat)
    (hne : env.COMMAND_STATUS_REPORT ≠ env.COMMAND_ONLINE_STATUS_REPORT)
    (hr : recognised env packet) :
    ∃ online mode w t c R G B, self.handle_packet env packet now =
      self.handle_report env (report_mesh_id env packet) online mode w t c R G B now := by
  rcases hr with ⟨hl, h7⟩ | ⟨hl, h7⟩
  · refine ⟨char_gt_zero env.char_signed (packet.getD 11 0), packet.getD 12 0,
      packet.getD 13 0, packet.getD 14 0, packet.getD 15 0, packet.getD 16 0,
      packet.getD 17 0, packet.getD 18 0, ?_⟩
    rw [handle_packet_online_report env self packet now hl h7]
    simp only [report_mesh_id, h7, if_true]
  · refine ⟨true, packet.getD 10 0, packet.getD 11 0, packet.getD 12 0, packet.getD 13 0,
      packet.getD 14 0, packet.getD 15 0, packet.getD 16 0, ?_⟩
    rw [handle_packet_status_report env self packet now hl h7 hne]
    have h : ¬ packet.getD 7 0 = env.COMMAND_ONLINE_STATUS_REPORT := by
      rw [h7]; exact hne
    simp only [report_mesh_id, h, if_false]

theorem find_if_mem (m : Nat) (ds : List Device) (i : Nat) (h : find_if m ds = some i) :
    m ∈ ds.map Device.mesh_id := by
  obtain ⟨d, hd, hm⟩ := find_if_lt m ds i h
  exact List.mem_map.mpr ⟨d, List.get?_mem hd, hm⟩

/-- Reports in sequence, from a store of distinct mesh ids: the store stays distinct and
grows at its end by the mesh ids that are announced; each report publishes one state
message; a state message comes after the discovery message of its mesh id unless the mesh id
was in the store at the start. -/
theorem reports_invariant (env : Env)
    (hne : env.COMMAND_STATUS_REPORT ≠ env.COMMAND_ONLINE_STATUS_REPORT) :
    ∀ (reports : List (List Nat × Nat)) (self : MeshDevice), (mesh_ids self).Nodup →
      (∀ r, r ∈ reports → recognised env r.1) →
      ∃ self1 new,
        steps env self (reports.map (fun r => Step.report r.1 r.2)) = some self1 ∧
        self1.published = self.published ++ new ∧
        (mesh_ids self1).Nodup ∧
        mesh_ids self1 = mesh_ids self ++ discovered new ∧
        state_ids new = reports.map (fun r => report_mesh_id env r.1) ∧
        (∀ m, m ∈ mesh_ids self1 ↔
          m ∈ mesh_ids self ∨ m ∈ reports.map (fun r => report_mesh_id env r.1)) ∧
        (∀ pre d post, new = pre ++ Published.state d :: post →
          d.mesh_id ∈ mesh_ids self ∨ Published.discovery d.mesh_id ∈ pre) ∧
        (∀ msg, msg ∈ new → (∃ m, msg = Published.discovery m) ∨ ∃ d, msg = Published.state d)
  | [], self, hn, _ => by
    refine ⟨self, [], rfl, by simp, hn, by simp [discovered], by simp [state_ids], by simp,
      ?_, ?_⟩
    · intro pre d post h
      cases pre <;> cases h
    · intro msg hm
      cases hm
  | r :: reports, self, hn, hrec => by
    obtain ⟨online, mode, w, t, c, R, G, B, hp⟩ := handle_packet_recognised env self r.1 r.2 hne
      (hrec r (List.mem_cons_self _ _))
    obtain ⟨s1, d1, i, hs1, hd1m, _, _, _, _, _, _, hcase, _⟩ :=
      handle_report_step env self (report_mesh_id env r.1) online mode w t c R G B r.2
    rw [← hp] at hs1
    have hn1 := (handle_report_ready env self s1 _ _ _ _ _ _ _ _ _ _ (hp ▸ hs1)).2 hn
    obtain ⟨self1, new, hst, hpub, hnd, hids, hstate, hmem, hpre, honly⟩ :=
      reports_invariant env hne reports s1 hn1 (fun r hr => hrec r (List.mem_cons_of_mem _ hr))
    have hsteps : steps env self ((r :: reports).map (fun r => Step.report r.1 r.2)) =
        some self1 := by
      simp only [List.map_cons, steps, hs1]
      exact hst
    rcases hcase with ⟨hf, hp1, hi1, _⟩ | ⟨hf, hp1, hi1⟩
    · -- the device was in the store
      have hin : report_mesh_id env r.1 ∈ mesh_ids self := find_if_mem _ _ _ hf
      refine ⟨self1, Published.state d1 :: new, hsteps, ?_, hnd, ?_, ?_, ?_, ?_, ?_⟩
      · rw [hpub, hp1]; simp
      · rw [hids, hi1]; simp [discovered]
      · simp only [state_ids, List.filterMap_cons, List.map_cons, hd1m]
        exact congrArg _ hstate
      · intro m
        rw [hmem m, hi1]
        have hin2 : m = report_mesh_id env r.1 → m ∈ mesh_ids self := fun h => h ▸ hin
        simp only [List.map_cons, List.mem_cons]
        tauto
      · intro pre d post h
        cases pre with
        | nil =>
          simp only [List.nil_append, List.cons.injEq, Published.state.injEq] at h
          left
          rw [← h.1, hd1m]
          exact hin
        | cons x pre1 =>
          simp only [List.cons_append, List.cons.injEq] at h
          rcases hpre pre1 d post h.2 with h2 | h2
          · left; rw [hi1] at h2; exact h2
          · right; exact List.mem_cons_of_mem _ h2
      · intro msg hm
        rcases List.mem_cons.mp hm with hm | hm
        · exact Or.inr ⟨d1, hm⟩
        · exact honly msg hm
    · -- the device is new
      refine ⟨self1, Published.discovery (report_mesh_id env r.1) :: Published.state d1 :: new,
        hsteps, ?_, hnd, ?_, ?_, ?_, ?_, ?_⟩
      · rw [hpub, hp1]; simp
      · rw [hids, hi1]; simp [discovered]
      · simp only [state_ids, List.filterMap_cons, List.map_cons, hd1m]
        exact congrArg _ hstate
      · intro m
        rw [hmem m, hi1]
        simp only [List.map_cons, List.mem_cons, List.mem_append, List.mem_nil_iff, or_false]
        tauto
      · intro pre d post h
        cases pre with
        | nil => simp at h
        | cons x pre1 =>
          simp only [List.cons_append, List.cons.injEq] at h
          obtain ⟨hx, h⟩ := h
          cases pre1 with
          | nil =>
            simp only [List.nil_append, List.cons.injEq, Published.state.injEq] at h
            right
            rw [← h.1, hd1m, ← hx]
            exact List.mem_singleton.mpr rfl
          | cons y pre2 =>
            simp only [List.cons_append, List.cons.injEq] at h
            rcases hpre pre2 d post h.2 with h2 | h2
            · rw [hi1, List.mem_append, List.mem_singleton] at h2
              rcases h2 with h2 | h2
              · exact Or.inl h2
              · right
                rw [h2, ← hx]
                exact List.mem_cons_self _ _
            · right
              exact List.mem_cons_of_mem _ (List.mem_cons_of_mem _ h2)
      · intro msg hm
        rcases List.mem_cons.mp hm with hm | hm
        · exact Or.inl ⟨_, hm⟩
        · rcases List.mem_cons.mp hm with hm | hm
          · exact Or.inr ⟨d1, hm⟩
          · exact honly msg hm

/-- C14: for a sequence of recognised reports handled from an empty device store (the two
report opcodes being different), the store ends with distinct mesh ids, exactly those of the
reports, and it only grows: the store after the first `n` reports is a beginning of the
final one.  The discovery messages carry the mesh ids of the store, one each; each report
publishes one state message, for its mesh id and in the order of the reports; a state message
comes after the discovery message of its mesh id; nothing else is published. -/
theorem device_store_discovery (env : Env) (self : MeshDevice)
    (reports : List (List Nat × Nat))
    (hne : env.COMMAND_STATUS_REPORT ≠ env.COMMAND_ONLINE_STATUS_REPORT)
    (hempty : self.devices_ = [])
    (hrec : ∀ r, r ∈ reports → recognised env r.1) :
    ∃ self1 new,
      steps env self (reports.map (fun r => Step.report r.1 r.2)) = some self1 ∧
      self1.published = self.published ++ new ∧
      (mesh_ids self1).Nodup ∧
      (∀ m, m ∈ mesh_ids self1 ↔ m ∈ reports.map (fun r => report_mesh_id env r.1)) ∧
      (∀ n, ∃ smid rest,
        steps env self ((reports.take n).map (fun r => Step.report r.1 r.2)) = some smid ∧
        mesh_ids smid ++ rest = mesh_ids self1) ∧
      discovered new = mesh_ids self1 ∧
      state_ids new = reports.map (fun r => report_mesh_id env r.1) ∧
      (∀ pre d post, new = pre ++ Published.state d :: post →
        Published.discovery d.mesh_id ∈ pre) ∧
      (∀ msg, msg ∈ new → (∃ m, msg = Published.discovery m) ∨ ∃ d, msg = Published.state d) := by
  have hids0 : mesh_ids self = [] := by simp [mesh_ids, hempty]
  have hn0 : (mesh_ids self).Nodup := by rw [hids0]; exact List.nodup_nil
  obtain ⟨self1, new, hst, hpub, hnd, hids, hstate, hmem, hpre, honly⟩ :=
    reports_invariant env hne reports self hn0 hrec
  refine ⟨self1, new, hst, hpub, hnd, ?_, ?_, ?_, hstate, ?_, honly⟩
  · intro m
    rw [hmem m, hids0]
    simp
  · intro n
    obtain ⟨smid, _, hsm, _, hnm, _⟩ := reports_invariant env hne (reports.take n) self hn0
      (fun r hr => hrec r (List.mem_of_mem_take hr))
    obtain ⟨send, new2, hse, _, _, hie, _⟩ := reports_invariant env hne (reports.drop n) smid hnm
      (fun r hr => hrec r (List.mem_of_mem_drop hr))
    have hall : steps env self (reports.map (fun r => Step.report r.1 r.2)) = some send := by
      have e : reports.map (fun r => Step.report r.1 r.2) =
          (reports.take n).map (fun r => Step.report r.1 r.2) ++
            (reports.drop n).map (fun r => Step.report r.1 r.2) := by
        rw [← List.map_append, List.take_append_drop]
      rw [e, steps_append, hsm]
      exact hse
    rw [hst] at hall
    cases hall
    exact ⟨smid, discovered new2, hsm, hie.symm⟩
  · rw [hids, hids0]
    rfl
  · intro pre d post h
    rcases hpre pre d post h with h2 | h2
    · rw [hids0] at h2
      cases h2
    · exact h2

/-- C14 at the example device: an online status report for the mesh id 5, a status report
for the mesh id 0x0207, and a second online status report for the mesh id 5. -/
theorem device_store_discovery_witness :
    ∃ self1 new,
      steps example_env example_device
        ([(example_report 1, 1000),
          ([0, 0, 0, 7, 2, 0, 0, 0xdb, 0, 0, 3, 0x40, 0x20, 0x50, 9, 8, 7], 2000),
          (example_report 0, 3000)].map (fun r => Step.report r.1 r.2)) = some self1 ∧
      self1.published = example_device.published ++ new ∧
      (mesh_ids self1).Nodup ∧
      (∀ m, m ∈ mesh_ids self1 ↔
        m ∈ [(example_report 1, 1000),
          ([0, 0, 0, 7, 2, 0, 0, 0xdb, 0, 0, 3, 0x40, 0x20, 0x50, 9, 8, 7], 2000),
          (example_report 0, 3000)].map (fun r => report_mesh_id example_env r.1)) ∧
      (∀ n, ∃ smid rest,
        steps example_env example_device
          (([(example_report 1, 1000),
            ([0, 0, 0, 7, 2, 0, 0, 0xdb, 0, 0, 3, 0x40, 0x20, 0x50, 9, 8, 7], 2000),
            (example_report 0, 3000)].take n).map (fun r => Step.report r.1 r.2)) =
          some smid ∧
        mesh_ids smid ++ rest = mesh_ids self1) ∧
      discovered new = mesh_ids self1 ∧
      state_ids new =
        [(example_report 1, 1000),
          ([0, 0, 0, 7, 2, 0, 0, 0xdb, 0, 0, 3, 0x40, 0x20, 0x50, 9, 8, 7], 2000),
          (example_report 0, 3000)].map (fun r => report_mesh_id example_env r.1) ∧
      (∀ pre d post, new = pre ++ Published.state d :: post →
        Published.discovery d.mesh_id ∈ pre) ∧
      (∀ msg, msg ∈ new → (∃ m, msg = Published.discovery m) ∨ ∃ d, msg = Published.state d) :=
  device_store_discovery example_env example_device
    [(example_report 1, 1000),
      ([0, 0, 0, 7, 2, 0, 0, 0xdb, 0, 0, 3, 0x40, 0x20, 0x50, 9, 8, 7], 2000),
      (example_report 0, 3000)]
    (by decide) rfl (by decide)

/-! ## The involution of `decrypt_packet` -/

/-- C23: with a 16 byte session key, a reversed address of at least 3 bytes and a packet `p`
of 7 to 23 bytes, `decrypt_packet` returns a packet `q` of the same length with the bytes
0..6 of `p`, and `decrypt_packet q` returns `p`: the key stream is taken from bytes 0..4,
which `decrypt_packet` does not change. -/
theorem decrypt_packet_involution (self : MeshDevice) (p : List Nat)
    (hk : self.session_key.length = 16) (ha : 3 ≤ self.reverse_address.length)
    (hp : 7 ≤ p.length) (hp2 : p.length ≤ 23) :
    ∃ q, self.decrypt_packet p = some q ∧ q.length = p.length ∧
      q.take 7 = p.take 7 ∧ self.decrypt_packet q = some p := by
  obtain ⟨r, q, hr, hq, lq, jq⟩ := decrypt_packet_bytes self p hk ha hp hp2
  have htake7 : q.take 7 = p.take 7 := by
    apply take_eq_of_getD 7 _ _ (by omega) (by omega)
    intro j hj
    rw [jq j, if_neg (by omega)]
  have htake5 : q.take 5 = p.take 5 := by
    apply take_eq_of_getD 5 _ _ (by omega) (by omega)
    intro j hj
    rw [jq j, if_neg (by omega)]
  obtain ⟨r2, q2, hr2, hq2, lq2, jq2⟩ := decrypt_packet_bytes self q hk ha (by omega) (by omega)
  rw [htake5, hr] at hr2
  cases hr2
  refine ⟨q, hq, lq, htake7, ?_⟩
  rw [hq2]
  congr 1
  apply list_eq_of_getD _ _ (by omega)
  intro j
  rw [jq2 j, jq j, lq]
  by_cases c : 7 ≤ j ∧ j < p.length
  · rw [if_pos c, if_pos c, Nat.xor_assoc, Nat.xor_self, Nat.xor_zero]
  · rw [if_neg c, if_neg c]

/-- C23 at the example device and a packet of 20 bytes. -/
theorem decrypt_packet_involution_witness :
    ∃ q, example_device.decrypt_packet
        [1, 0, 0, 217, 242, 5, 0, 0xdc, 0, 0, 5, 1, 1, 0x7f, 0x10, 0x64, 1, 2, 3, 0] = some q ∧
      q.length =
        [1, 0, 0, 217, 242, 5, 0, 0xdc, 0, 0, 5, 1, 1, 0x7f, 0x10, 0x64, 1, 2, 3, 0].length ∧
      q.take 7 =
        [1, 0, 0, 217, 242, 5, 0, 0xdc, 0, 0, 5, 1, 1, 0x7f, 0x10, 0x64, 1, 2, 3, 0].take 7 ∧
      example_device.decrypt_packet q =
        some [1, 0, 0, 217, 242, 5, 0, 0xdc, 0, 0, 5, 1, 1, 0x7f, 0x10, 0x64, 1, 2, 3, 0] :=
  decrypt_packet_involution example_device
    [1, 0, 0, 217, 242, 5, 0, 0xdc, 0, 0, 5, 1, 1, 0x7f, 0x10, 0x64, 1, 2, 3, 0]
    (by decide) (by decide) (by decide) (by decide)

/-! ## The MAC of `encrypt_packet` -/

theorem xor_bytes_getD : ∀ (a b : List Nat) (j : Nat), a.length = b.length →
    (xor_bytes a b).getD j 0 = a.getD j 0 ^^^ b.getD j 0
  | [], [], j, _ => by simp [xor_bytes]
  | [], _ :: _, _, h => by simp at h
  | _ :: _, [], _, h => by simp at h
  | x :: a, y :: b, 0, _ => by simp [xor_bytes]
  | x :: a, y :: b, j + 1, h => by
    have ih := xor_bytes_getD a b j (by simpa using h)
    simp only [xor_bytes, List.getD_eq_getElem?_getD] at ih ⊢
    simpa using ih

theorem drop_five_getD (p : List Nat) (hp : p.length = 20) (j : Nat) :
    (p.drop 5 ++ [0]).getD j 0 = if j < 15 then p.getD (j + 5) 0 else 0 := by
  simp only [List.getD_eq_getElem?_getD]
  by_cases c : j < 15
  · rw [if_pos c, List.getElem?_append_left (by simp only [List.length_drop]; omega),
      List.getElem?_drop, Nat.add_comm]
  · rw [if_neg c, List.getElem?_append_right (by simp only [List.length_drop]; omega)]
    have e : (p.drop 5).length = 15 := by simp only [List.length_drop]; omega
    rw [e]
    by_cases c2 : j = 15
    · subst c2; rfl
    · have : [0][j - 15]? = (none : Option Nat) := by
        apply List.getElem?_eq_none
        simp only [List.length_singleton]
        omega
      rw [this]
      rfl

/-- C21: with a 16 byte session key, a reversed address of at least 4 bytes and a 20 byte
packet `p`, bytes 3 and 4 of the packet `encrypt_packet` returns are the first two bytes of
the encryption, under the session key, of the block `X`: the encryption of the 16 byte block
made of four address bytes, 0x01, bytes 0..2 of `p`, 0x0F and seven zero bytes, with bytes
5..19 of `p` XORed into its bytes 0..14 and its byte 15 left as it is.  A packet that differs
from `p` in bytes 3 and 4 only is encrypted to the same packet: the MAC does not read the
bytes 3 and 4 of the input. -/
theorem encrypt_packet_mac (self : MeshDevice) (p : List Nat)
    (hk : self.session_key.length = 16) (ha : 4 ≤ self.reverse_address.length)
    (hp : p.length = 20) :
    ∃ a0 mac out,
      (self.reverse_address.take 4 ++ [1] ++ p.take 3 ++ [0x0f] ++ List.replicate 7 0).length =
        16 ∧
      encrypt self.session_key (self.reverse_address.take 4 ++ [1] ++ p.take 3 ++ [0x0f] ++
        List.replicate 7 0) = some a0 ∧
      (xor_bytes a0 (p.drop 5 ++ [0])).length = 16 ∧
      (∀ j, j < 15 → (xor_bytes a0 (p.drop 5 ++ [0])).getD j 0 =
        a0.getD j 0 ^^^ p.getD (5 + j) 0) ∧
      (xor_bytes a0 (p.drop 5 ++ [0])).getD 15 0 = a0.getD 15 0 ∧
      encrypt self.session_key (xor_bytes a0 (p.drop 5 ++ [0])) = some mac ∧
      self.encrypt_packet p = some out ∧
      out.getD 3 0 = mac.getD 0 0 ∧ out.getD 4 0 = mac.getD 1 0 ∧
      ∀ q, q.length = 20 → (∀ j, j ≠ 3 → j ≠ 4 → q.getD j 0 = p.getD j 0) →
        self.encrypt_packet q = some out := by
  obtain ⟨a0, a, mac, buf, out, ha0, la, ja, hmac, hbuf, hout, lout, jout⟩ :=
    encrypt_packet_bytes self p hk (by omega) hp
  have la0 : a0.length = 16 := encrypt_length _ _ _ ha0
  have ld : (p.drop 5 ++ [0]).length = 16 := by
    simp only [List.length_append, List.length_drop, List.length_singleton]
    omega
  have lx : (xor_bytes a0 (p.drop 5 ++ [0])).length = 16 := by
    simp only [xor_bytes, List.length_zipWith, la0, ld, min_self]
  have jx : ∀ j, (xor_bytes a0 (p.drop 5 ++ [0])).getD j 0 =
      if j < 15 then a0.getD j 0 ^^^ p.getD (j + 5) 0 else a0.getD j 0 := by
    intro j
    rw [xor_bytes_getD _ _ j (by rw [la0, ld]), drop_five_getD p hp j]
    by_cases c : j < 15
    · rw [if_pos c, if_pos c]
    · rw [if_neg c, if_neg c, Nat.xor_zero]
  have hax : a = xor_bytes a0 (p.drop 5 ++ [0]) := by
    apply list_eq_of_getD _ _ (by rw [la, lx])
    intro j
    rw [ja j, jx j]
  rw [hax] at hmac
  refine ⟨a0, mac, out, ?_, ha0, lx, ?_, ?_, hmac, hout, ?_, ?_, ?_⟩
  · simp only [List.length_append, List.length_take, List.length_replicate,
      List.length_singleton]
    omega
  · intro j hj
    rw [jx j, if_pos hj, Nat.add_comm]
  · rw [jx 15, if_neg (by omega)]
  · rw [jout 3, if_neg (by omega), if_pos (by omega)]
  · rw [jout 4, if_neg (by omega), if_pos (by omega)]
  · intro q hq hsame
    obtain ⟨b0, b, macq, bufq, outq, hb0, lb, jb, hmacq, hbufq, houtq, loutq, joutq⟩ :=
      encrypt_packet_bytes self q hk (by omega) hq
    have htake : q.take 3 = p.take 3 := by
      apply take_eq_of_getD 3 _ _ (by omega) (by omega)
      intro j hj
      exact hsame j (by omega) (by omega)
    rw [htake, ha0] at hb0
    cases hb0
    rw [htake, hbuf] at hbufq
    cases hbufq
    have hb : b = xor_bytes a0 (p.drop 5 ++ [0]) := by
      apply list_eq_of_getD _ _ (by rw [lb, lx])
      intro j
      rw [jb j, jx j]
      by_cases c : j < 15
      · rw [if_pos c, if_pos c, hsame (j + 5) (by omega) (by omega)]
      · rw [if_neg c, if_neg c]
    rw [hb, hmac] at hmacq
    cases hmacq
    rw [houtq]
    congr 1
    apply list_eq_of_getD _ _ (by rw [loutq, lout])
    intro j
    rw [joutq j, jout j]
    by_cases c1 : j < 3
    · rw [if_pos c1, if_pos c1, hsame j (by omega) (by omega)]
    · by_cases c2 : j < 5
      · rw [if_neg c1, if_pos c2, if_neg c1, if_pos c2]
      · rw [if_neg c1, if_neg c2, if_neg c1, if_neg c2, hsame j (by omega) (by omega)]

/-- C21 at the example device and the plaintext packet of a power command. -/
theorem encrypt_packet_mac_witness :
    ∃ a0 mac out,
      (example_device.reverse_address.take 4 ++ [1] ++
        [1, 0, 0, 0, 0, 5, 0, 0xd0, 0x60, 0x01, 1, 0, 0, 0, 0, 0, 0, 0, 0, 0].take 3 ++ [0x0f] ++
        List.replicate 7 0).length = 16 ∧
      encrypt example_device.session_key (example_device.reverse_address.take 4 ++ [1] ++
        [1, 0, 0, 0, 0, 5, 0, 0xd0, 0x60, 0x01, 1, 0, 0, 0, 0, 0, 0, 0, 0, 0].take 3 ++ [0x0f] ++
        List.replicate 7 0) = some a0 ∧
      (xor_bytes a0
        ([1, 0, 0, 0, 0, 5, 0, 0xd0, 0x60, 0x01, 1, 0, 0, 0, 0, 0, 0, 0, 0, 0].drop 5 ++
          [0])).length = 16 ∧
      (∀ j, j < 15 → (xor_bytes a0
        ([1, 0, 0, 0, 0, 5, 0, 0xd0, 0x60, 0x01, 1, 0, 0, 0, 0, 0, 0, 0, 0, 0].drop 5 ++
          [0])).getD j 0 =
        a0.getD j 0 ^^^
          [1, 0, 0, 0, 0, 5, 0, 0xd0, 0x60, 0x01, 1, 0, 0, 0, 0, 0, 0, 0, 0, 0].getD (5 + j) 0) ∧
      (xor_bytes a0
        ([1, 0, 0, 0, 0, 5, 0, 0xd0, 0x60, 0x01, 1, 0, 0, 0, 0, 0, 0, 0, 0, 0].drop 5 ++
          [0])).getD 15 0 = a0.getD 15 0 ∧
      encrypt example_device.session_key (xor_bytes a0
        ([1, 0, 0, 0, 0, 5, 0, 0xd0, 0x60, 0x01, 1, 0, 0, 0, 0, 0, 0, 0, 0, 0].drop 5 ++
          [0])) = some mac ∧
      example_device.encrypt_packet
        [1, 0, 0, 0, 0, 5, 0, 0xd0, 0x60, 0x01, 1, 0, 0, 0, 0, 0, 0, 0, 0, 0] = some out ∧
      out.getD 3 0 = mac.getD 0 0 ∧ out.getD 4 0 = mac.getD 1 0 ∧
      ∀ q, q.length = 20 →
        (∀ j, j ≠ 3 → j ≠ 4 → q.getD j 0 =
          [1, 0, 0, 0, 0, 5, 0, 0xd0, 0x60, 0x01, 1, 0, 0, 0, 0, 0, 0, 0, 0, 0].getD j 0) →
        example_device.encrypt_packet q = some out :=
  encrypt_packet_mac example_device
    [1, 0, 0, 0, 0, 5, 0, 0xd0, 0x60, 0x01, 1, 0, 0, 0, 0, 0, 0, 0, 0, 0]
    (by decide) (by decide) (by decide)

/-! ## The rejection of the pairing -/

/-- What `generate_session_key` changes: the session key only. -/
theorem generate_session_key_state (self self1 : MeshDevice) (data1 data2 : List Nat)
    (h : self.generate_session_key data1 data2 = some self1) :
    ∃ k, self1 = { self with session_key := k } := by
  unfold generate_session_key at h
  split at h
  · split at h
    · rename_i k _
      cases h
      exact ⟨k, rfl⟩
    · cases h
  · cases h

/-- What `request_status` changes: nothing, or what `write_command` changes. -/
theorem request_status_state (C_REQUEST_STATUS : Nat) (self self1 : MeshDevice)
    (h : request_status C_REQUEST_STATUS self = some self1) :
    self1.disconnects = self.disconnects ∧ self1.address = self.address ∧
    self1.session_key = self.session_key := by
  unfold request_status at h
  split at h
  · obtain ⟨packet, e⟩ := write_command_state _ _ _ _ _ h
    subst e
    exact ⟨rfl, rfl, rfl⟩
  · cases h
    exact ⟨rfl, rfl, rfl⟩

/-- The accepted pairing read returns: with a mesh name and password of at most 16 bytes
each, a reversed address of at least 3 bytes, a local random of 8 bytes and a response of at
least 9 bytes that starts with 0x0D. -/
theorem pairing_read_accepted_eq_some (C_REQUEST_STATUS : Nat) (self : MeshDevice)
    (param : ReadCharEvt)
    (hn : self.mesh_name.length ≤ 16) (hp : self.mesh_password.length ≤ 16)
    (ha : 3 ≤ self.reverse_address.length) (hr : self.random_key.length = 8)
    (hconn : param.conn_id_matches = true) (hstatus : param.status_ok = true)
    (hpair : param.handle_is_pair_char = true)
    (hv : 9 ≤ param.value.length) (h0 : param.value.getD 0 0 = 0x0d) :
    ∃ self1, gattc_event_handler_read_char C_REQUEST_STATUS self param = some self1 := by
  have hc := combine_eq self hn hp
  have hl : (xor_bytes (pad16 self.mesh_name) (pad16 self.mesh_password)).length = 16 := by
    simp [xor_bytes, pad16_length _ hn, pad16_length _ hp]
  obtain ⟨sk, hsk, lsk⟩ := encrypt_eq_some _
    (self.random_key.take 8 ++ ((param.value.drop 1).take 9).take 8) hl
    (by simp only [List.length_append, List.length_take, List.length_drop]
        omega)
  have hgen : self.generate_session_key self.random_key ((param.value.drop 1).take 9) =
      some { self with session_key := sk } := by
    simp only [generate_session_key, hc, hsk]
  obtain ⟨v0, rest, hval⟩ : ∃ v0 rest, param.value = v0 :: rest := by
    cases hvv : param.value with
    | nil => rw [hvv] at hv; simp at hv
    | cons v0 rest => exact ⟨v0, rest, rfl⟩
  have hv0 : v0 = 0xd := by
    rw [hval] at h0
    simpa using h0
  have hreq : ∃ self1, request_status C_REQUEST_STATUS { self with session_key := sk } =
      some self1 := by
    unfold request_status
    split
    · obtain ⟨packet, hw, _⟩ := write_command_eq_some { self with session_key := sk }
        C_REQUEST_STATUS [0x10] 0xffff lsk ha (by decide)
      exact ⟨_, hw⟩
    · exact ⟨_, rfl⟩
  obtain ⟨self1, hs1⟩ := hreq
  refine ⟨self1, ?_⟩
  unfold gattc_event_handler_read_char
  rw [hconn, hstatus, hpair]
  simp only [Bool.not_true, Bool.false_eq_true, if_false, if_true]
  rw [hgen]
  rw [hval] at hgen ⊢
  simp only [hv0, if_true]
  exact hs1

/-- C22: on a read of the pairing characteristic (for this connection, with status OK) whose
response starts with another byte than 0x0D, the handler returns; it leaves the session key
as it is, writes nothing and sends no command, calls `disconnect()` once and sets the address
to 0.  When the response starts with 0x0D the handler calls no `disconnect()` and leaves the
address as it is, and it returns for a response of at least 9 bytes on a device with a mesh
name and password of at most 16 bytes each, a reversed address of at least 3 bytes and a
local random of 8 bytes. -/
theorem pairing_read_rejection (C_REQUEST_STATUS : Nat) (self : MeshDevice)
    (param : ReadCharEvt)
    (hconn : param.conn_id_matches = true) (hstatus : param.status_ok = true)
    (hpair : param.handle_is_pair_char = true) (hv : 1 ≤ param.value.length) :
    (param.value.getD 0 0 ≠ 0x0d →
      ∃ self1, gattc_event_handler_read_char C_REQUEST_STATUS self param = some self1 ∧
        self1.session_key = self.session_key ∧ self1.written = self.written ∧
        self1.sent = self.sent ∧ self1.packet_count = self.packet_count ∧
        self1.disconnects = self.disconnects + 1 ∧ self1.address = 0) ∧
    (param.value.getD 0 0 = 0x0d →
      (∀ self1, gattc_event_handler_read_char C_REQUEST_STATUS self param = some self1 →
        self1.disconnects = self.disconnects ∧ self1.address = self.address) ∧
      (self.mesh_name.length ≤ 16 → self.mesh_password.length ≤ 16 →
        3 ≤ self.reverse_address.length → self.random_key.length = 8 →
        9 ≤ param.value.length →
        ∃ self1, gattc_event_handler_read_char C_REQUEST_STATUS self param = some self1)) := by
  obtain ⟨v0, rest, hval⟩ : ∃ v0 rest, param.value = v0 :: rest := by
    cases hvv : param.value with
    | nil => rw [hvv] at hv; simp at hv
    | cons v0 rest => exact ⟨v0, rest, rfl⟩
  have hget : param.value.getD 0 0 = v0 := by rw [hval]; rfl
  constructor
  · intro h0
    rw [hget] at h0
    refine ⟨{ self with disconnects := self.disconnects + 1, address := 0 }, ?_, rfl, rfl, rfl,
      rfl, rfl, rfl⟩
    unfold gattc_event_handler_read_char
    rw [hconn, hstatus, hpair, hval]
    simp only [Bool.not_true, Bool.false_eq_true, if_false, if_true]
    rw [if_neg h0]
  · intro h0
    constructor
    · intro self1 h
      have hv0 : v0 = 0xd := by rw [← hget]; exact h0
      unfold gattc_event_handler_read_char at h
      rw [hconn, hstatus, hpair] at h
      simp only [Bool.not_true, Bool.false_eq_true, if_false, if_true] at h
      rw [hval] at h
      simp only [hv0, if_true] at h
      split at h
      · cases h
      · rename_i self2 hg
        obtain ⟨k, e⟩ := generate_session_key_state _ _ _ _ hg
        obtain ⟨r1, r2, _⟩ := request_status_state _ _ _ h
        rw [r1, r2, e]
        exact ⟨rfl, rfl⟩
    · intro hn hp ha hr hv9
      exact pairing_read_accepted_eq_some C_REQUEST_STATUS self param hn hp ha hr hconn hstatus
        hpair hv9 h0

/-- C22 at the example device: the response 0x0E, and the response 0x0D, 0x21, ..., 0x28. -/
theorem pairing_read_rejection_witness :
    (∃ self1, gattc_event_handler_read_char 0xda example_device
        (ReadCharEvt.mk true true true [0x0e]) = some self1 ∧
      self1.session_key = example_device.session_key ∧
      self1.written = example_device.written ∧ self1.sent = example_device.sent ∧
      self1.packet_count = example_device.packet_count ∧
      self1.disconnects = example_device.disconnects + 1 ∧ self1.address = 0) ∧
    (∀ self1, gattc_event_handler_read_char 0xda example_device
        (ReadCharEvt.mk true true true [0x0d, 0x21, 0x22, 0x23, 0x24, 0x25, 0x26, 0x27, 0x28]) =
        some self1 →
      self1.disconnects = example_device.disconnects ∧
      self1.address = example_device.address) ∧
    (∃ self1, gattc_event_handler_read_char 0xda example_device
        (ReadCharEvt.mk true true true [0x0d, 0x21, 0x22, 0x23, 0x24, 0x25, 0x26, 0x27, 0x28]) =
        some self1) :=
  have h := (pairing_read_rejection 0xda example_device
    (ReadCharEvt.mk true true true [0x0d, 0x21, 0x22, 0x23, 0x24, 0x25, 0x26, 0x27, 0x28])
    rfl rfl rfl (by decide)).2 (by decide)
  ⟨(pairing_read_rejection 0xda example_device (ReadCharEvt.mk true true true [0x0e])
      rfl rfl rfl (by decide)).1 (by decide),
    h.1, h.2 (by decide) (by decide) (by decide) (by decide) (by decide)⟩

end awox_mesh
